import Mathlib

/-! Frame registry and tool-result synchronisation of `gui/MainWindow.cxx`.

A shallow embedding of the state kept by `MainWindowPrivate` and of the
member functions of `MainWindowPrivate` / `MainWindow` that maintain the frame
collection, the derived camera view and the staged tool output.

Conventions of the embedding

* A member function becomes a function on the state record that returns
  `Option`: the result is `none` exactly when the C++ code would index the
  `QList` of frames outside its bounds (undefined behaviour in the source).
* `int` values are `Int`; the two narrowing conversions that the source
  performs (`static_cast<int>` and `static_cast<unsigned>`) are explicit.
* Qt widgets and renderers are sinks, with one exception (next item).  Only the
  part of the camera view that the window fills with landmarks and residuals is
  kept, together with a counter of the runs of `updateCameraView`.  Reading
  image and depth files (`loadImage`, `loadDepthMap`) has no effect on the
  modelled state.
* The constructor connects the signal `valueChanged(int)` of the frame slider
  `UI.camera` to the slot `MainWindow::setActiveCamera(int)`.  The slider is not
  part of `MainWindow.cxx`: where the merge calls `UI.camera->setValue`, the
  value the slider reports in response (none when it reports nothing) is an
  argument of the merge, and the slot runs with it at that point.  A user who
  moves the slider is the call `setActiveCamera`.  The calls
  `UI.camera->setRange` of `addFrame` are not modelled.
* `vtkMaptkCamera::ProjectPoint` is not part of `MainWindow.cxx`; it is a
  parameter (`ProjectPoint`) of every function that reaches it.
* A `camera_sptr` may be null, so the functions that take one take an
  `Option Pose`; a `vtkMaptkCamera` wraps such a pointer.
* `QTimer::singleShot(1000, this, SLOT(updateToolResults()))` increments the
  number of armed one-shot timers; a timer that fires runs `updateToolResults`.
-/

namespace Maptk

/-! ## Data model -/

/-- The kwiver camera (`camera_sptr` pointee); its content is not inspected. -/
abbrev Pose := Nat

/-- The `vector_2d` of image coordinates; the window only moves such values around. -/
abbrev Vec2 := Int × Int

/-- The `vector_3d` of a landmark location. -/
abbrev Vec3 := Int × Int × Int

/-- The `vtkMaptkCamera` object: a wrapper around a possibly null `camera_sptr`. -/
structure VtkMaptkCamera where
  camera : Option Pose
deriving DecidableEq

/-- The `MainWindowPrivate::CameraData` record (one frame). -/
structure CameraData where
  id : Int
  camera : Option VtkMaptkCamera
  imagePath : String
  depthMapPath : String
deriving DecidableEq

/-- One state of a track: either a `feature_track_state` with its (possibly
null) feature location, or a track state of another kind, for which the
`dynamic_pointer_cast` of the source fails. -/
inductive TrackState where
  | other : TrackState
  | feature : Option Vec2 → TrackState
deriving DecidableEq

/-- The `track`: its id and its history, keyed by frame. -/
structure Track where
  id : Int
  history : List (Int × TrackState)
deriving DecidableEq

/-- The `feature_track_set`, as the sequence returned by `tracks()`. -/
abbrev TrackSet := List Track

/-- The `landmark_map`, as the sequence of `landmarks()` in iteration order. -/
abbrev LandmarkMap := List (Int × Vec3)

/-- The `camera_map`, as the sequence of `cameras()` in iteration order; keys are
`frame_id_t` values and the mapped `camera_sptr` may be null. -/
abbrev CameraMap := List (Int × Option Pose)

/-- The `ToolData` record handed over by a tool. -/
structure ToolData where
  cameras : Option CameraMap
  landmarks : Option LandmarkMap
  tracks : Option TrackSet
  activeFrame : Int
deriving DecidableEq

/-- The `AbstractTool::Outputs` flags. -/
structure Outputs where
  cameras : Bool
  landmarks : Bool
  tracks : Bool
  activeFrame : Bool
deriving DecidableEq

/-- The inputs that `executeTool` passes to a tool through its five setters. -/
structure ToolInputs where
  activeFrame : Option Int
  imagePaths : Option (List String)
  tracks : Option (Option TrackSet)
  cameras : Option CameraMap
  landmarks : Option (Option LandmarkMap)
deriving DecidableEq

/-- The `AbstractTool` as the window sees it.  `executeResult` is what
`execute()` answers, `data` is what `data()` returns, `executeCalls` counts the
calls of `execute()`, and `enabled` is the state of the tool action. -/
structure AbstractTool where
  outputs : Outputs
  isCancelable : Bool
  executeResult : Bool
  data : ToolData
  inputs : ToolInputs
  executeCalls : Nat
  enabled : Bool
deriving DecidableEq

/-- The part of the camera view that `updateCameraView` writes. -/
structure CameraView where
  activeFrame : Int
  imagePath : String
  landmarks : List (Int × Vec2)
  residuals : List (Int × Vec2 × Vec2)
  updateCount : Nat
deriving DecidableEq

/-- The state of `MainWindowPrivate`.  Tools are referred to by their position
in `tools`; `pendingSingleShots` is the number of armed one-shot timers. -/
structure MainWindowPrivate where
  activeTool : Option Nat
  tools : List AbstractTool
  toolUpdateActiveFrame : Int
  toolUpdateCameras : Option CameraMap
  toolUpdateLandmarks : Option LandmarkMap
  toolUpdateTracks : Option TrackSet
  cameras : List CameraData
  tracks : Option TrackSet
  landmarks : Option LandmarkMap
  activeCameraIndex : Int
  orphanImages : List Int
  orphanCameras : List Int
  cameraView : CameraView
  actionCancelComputation : Bool
  actionOpen : Bool
  pendingSingleShots : Nat
deriving DecidableEq

/-- The conversion `static_cast<int>` of a wider integer (two's complement wrap). -/
def staticCastInt (x : Int) : Int :=
  (x + 2147483648) % 4294967296 - 2147483648

/-- The conversion `static_cast<unsigned>` of an `int`. -/
def staticCastUnsigned (x : Int) : Int :=
  x % 4294967296

/-- The frame `cameras[i]`; `none` when `i` is outside the list. -/
def frameAt (cameras : List CameraData) (i : Int) : Option CameraData :=
  if 0 ≤ i then cameras[i.toNat]? else none

/-- Writing through the reference `cameras[i]`. -/
def setFrameAt (cameras : List CameraData) (i : Int) (cd : CameraData) : List CameraData :=
  cameras.set i.toNat cd

/-- The state right after construction (`MainWindowPrivate()`), with the tools
registered by `addTool`. -/
def MainWindowPrivate.init (tools : List AbstractTool) : MainWindowPrivate :=
  { activeTool := none
    tools := tools
    toolUpdateActiveFrame := -1
    toolUpdateCameras := none
    toolUpdateLandmarks := none
    toolUpdateTracks := none
    cameras := []
    tracks := none
    landmarks := none
    activeCameraIndex := -1
    orphanImages := []
    orphanCameras := []
    cameraView :=
      { activeFrame := 0, imagePath := "", landmarks := [], residuals := [], updateCount := 0 }
    actionCancelComputation := false
    actionOpen := true
    pendingSingleShots := 0 }

/-! ## The camera view (`updateCameraView`) -/

/-- The call `QHash::insert`: the value stored under an existing key is replaced. -/
def hashInsert (h : List (Int × Vec2)) (k : Int) (v : Vec2) : List (Int × Vec2) :=
  (k, v) :: h.filter (fun e => e.1 != k)

/-- The first loop of `updateCameraView`: every landmark that projects is added
to the view (first component) and recorded in `landmarkPoints` (second). -/
def projectLandmarks (ProjectPoint : VtkMaptkCamera → Vec3 → Option Vec2)
    (camera : VtkMaptkCamera) :
    List (Int × Vec3) → List (Int × Vec2) × List (Int × Vec2) → List (Int × Vec2) × List (Int × Vec2)
  | [], acc => acc
  | (id, loc) :: rest, acc =>
    match ProjectPoint camera loc with
    | some pp =>
      projectLandmarks ProjectPoint camera rest (acc.1 ++ [(id, pp)], hashInsert acc.2 id pp)
    | none => projectLandmarks ProjectPoint camera rest acc

/-- The call `track->find(frame)`: the state of the track at the frame. -/
def Track.find (t : Track) (frame : Int) : Option TrackState :=
  (t.history.find? (fun e => e.1 == frame)).map Prod.snd

/-- The second loop of `updateCameraView`: the residuals added to the view. -/
def collectResiduals (frame : Int) (landmarkPoints : List (Int × Vec2)) :
    List Track → List (Int × Vec2 × Vec2)
  | [] => []
  | track :: rest =>
    match track.find frame with
    | none => collectResiduals frame landmarkPoints rest
    | some TrackState.other => collectResiduals frame landmarkPoints rest
    | some (TrackState.feature none) => collectResiduals frame landmarkPoints rest
    | some (TrackState.feature (some fp)) =>
      match landmarkPoints.lookup track.id with
      | some lp => (track.id, fp, lp) :: collectResiduals frame landmarkPoints rest
      | none => collectResiduals frame landmarkPoints rest

/-- The view written by `updateCameraView` for an active frame `cd` (the part of
the function after the test `activeCameraIndex < 0`). -/
def viewOfFrame (ProjectPoint : VtkMaptkCamera → Vec3 → Option Vec2)
    (d : MainWindowPrivate) (cd : CameraData) : CameraView :=
  let v : CameraView :=
    { d.cameraView with
      activeFrame := staticCastUnsigned d.activeCameraIndex
      imagePath := cd.imagePath
      updateCount := d.cameraView.updateCount + 1 }
  match cd.camera with
  | none => { v with landmarks := [], residuals := [] }
  | some camera =>
    let projected :=
      match d.landmarks with
      | some landmarks => projectLandmarks ProjectPoint camera landmarks ([], [])
      | none => ([], [])
    let residuals :=
      match d.tracks with
      | some tracks => collectResiduals d.activeCameraIndex projected.2 tracks
      | none => []
    { v with landmarks := projected.1, residuals := residuals }

/-- Embedding of `MainWindowPrivate::updateCameraView`. -/
def MainWindowPrivate.updateCameraView (ProjectPoint : VtkMaptkCamera → Vec3 → Option Vec2)
    (d : MainWindowPrivate) : Option MainWindowPrivate :=
  if d.activeCameraIndex < 0 then
    some { d with
      cameraView :=
        { d.cameraView with
          activeFrame := staticCastUnsigned (-1)
          landmarks := []
          updateCount := d.cameraView.updateCount + 1 } }
  else
    match frameAt d.cameras d.activeCameraIndex with
    | none => none
    | some cd => some { d with cameraView := viewOfFrame ProjectPoint d cd }

/-- Embedding of `MainWindowPrivate::setActiveCamera`. -/
def MainWindowPrivate.setActiveCamera (ProjectPoint : VtkMaptkCamera → Vec3 → Option Vec2)
    (d : MainWindowPrivate) (id : Int) : Option MainWindowPrivate :=
  match MainWindowPrivate.updateCameraView ProjectPoint { d with activeCameraIndex := id } with
  | none => none
  | some d1 =>
    match frameAt d1.cameras id with
    | none => none
    | some _ => some d1

/-! ## The frame registry -/

/-- Embedding of `MainWindowPrivate::addFrame`. -/
def MainWindowPrivate.addFrame (ProjectPoint : VtkMaptkCamera → Vec3 → Option Vec2)
    (d : MainWindowPrivate) (camera : Option Pose) (imagePath : String) :
    Option MainWindowPrivate :=
  let cd : CameraData :=
    { id := (d.cameras.length : Int)
      camera := camera.map (fun c => VtkMaptkCamera.mk (some c))
      imagePath := imagePath
      depthMapPath := "" }
  let d1 : MainWindowPrivate :=
    match camera with
    | some _ => { d with orphanImages := [] }
    | none => { d with orphanCameras := [] }
  let d2 : MainWindowPrivate := { d1 with cameras := d1.cameras ++ [cd] }
  if d2.cameras.length = 1 then
    MainWindowPrivate.setActiveCamera ProjectPoint d2 0
  else
    some d2

/-- Embedding of `MainWindowPrivate::addCamera`. -/
def MainWindowPrivate.addCamera (ProjectPoint : VtkMaptkCamera → Vec3 → Option Vec2)
    (d : MainWindowPrivate) (camera : Option Pose) : Option MainWindowPrivate :=
  match d.orphanImages with
  | [] =>
    MainWindowPrivate.addFrame ProjectPoint
      { d with orphanCameras := d.orphanCameras ++ [(d.cameras.length : Int)] } camera ""
  | i :: rest =>
    match frameAt d.cameras i with
    | none => none
    | some cd =>
      let cd1 : CameraData := { cd with camera := some (VtkMaptkCamera.mk camera) }
      let d1 : MainWindowPrivate :=
        { d with orphanImages := rest, cameras := setFrameAt d.cameras i cd1 }
      if cd1.id = d1.activeCameraIndex then
        MainWindowPrivate.updateCameraView ProjectPoint d1
      else
        some d1

/-- Embedding of `MainWindowPrivate::addImage`. -/
def MainWindowPrivate.addImage (ProjectPoint : VtkMaptkCamera → Vec3 → Option Vec2)
    (d : MainWindowPrivate) (imagePath : String) : Option MainWindowPrivate :=
  match d.orphanCameras with
  | [] =>
    MainWindowPrivate.addFrame ProjectPoint
      { d with orphanImages := d.orphanImages ++ [(d.cameras.length : Int)] } none imagePath
  | i :: rest =>
    match frameAt d.cameras i with
    | none => none
    | some cd =>
      let cd1 : CameraData := { cd with imagePath := imagePath }
      let d1 : MainWindowPrivate :=
        { d with orphanCameras := rest, cameras := setFrameAt d.cameras i cd1 }
      if cd1.id = d1.activeCameraIndex then
        MainWindowPrivate.updateCameraView ProjectPoint d1
      else
        some d1

/-- The loop of `MainWindowPrivate::updateCameras`; `cameraCount` is the frame
count read before the loop. -/
def updateCamerasLoop (ProjectPoint : VtkMaptkCamera → Vec3 → Option Vec2) (cameraCount : Int) :
    CameraMap → MainWindowPrivate → Option MainWindowPrivate
  | [], d => some d
  | (first, second) :: rest, d =>
    let index := staticCastInt first
    match second with
    | none => updateCamerasLoop ProjectPoint cameraCount rest d
    | some camera =>
      if 0 ≤ index ∧ index < cameraCount then
        match frameAt d.cameras index with
        | none => none
        | some cd =>
          let cd1 : CameraData := { cd with camera := some (VtkMaptkCamera.mk (some camera)) }
          let d1 : MainWindowPrivate := { d with cameras := setFrameAt d.cameras index cd1 }
          if cd1.id = d1.activeCameraIndex then
            match MainWindowPrivate.updateCameraView ProjectPoint d1 with
            | none => none
            | some d2 => updateCamerasLoop ProjectPoint cameraCount rest d2
          else
            updateCamerasLoop ProjectPoint cameraCount rest d1
      else
        updateCamerasLoop ProjectPoint cameraCount rest d

/-- Embedding of `MainWindowPrivate::updateCameras`. -/
def MainWindowPrivate.updateCameras (ProjectPoint : VtkMaptkCamera → Vec3 → Option Vec2)
    (d : MainWindowPrivate) (cameras : CameraMap) : Option MainWindowPrivate :=
  updateCamerasLoop ProjectPoint (d.cameras.length : Int) cameras d

/-- Embedding of `MainWindowPrivate::imagePaths`. -/
def MainWindowPrivate.imagePaths (d : MainWindowPrivate) : List String :=
  d.cameras.map (fun cd => cd.imagePath)

/-- The loop of `MainWindowPrivate::cameraMap`, from position `i` on. -/
def cameraMapFrom : Nat → List CameraData → CameraMap
  | _, [] => []
  | i, cd :: rest =>
    match cd.camera with
    | some c => ((i : Int), c.camera) :: cameraMapFrom (i + 1) rest
    | none => cameraMapFrom (i + 1) rest

/-- Embedding of `MainWindowPrivate::cameraMap`. -/
def MainWindowPrivate.cameraMap (d : MainWindowPrivate) : CameraMap :=
  cameraMapFrom 0 d.cameras

/-- Embedding of `MainWindow::setActiveCamera` (the public slot). -/
def MainWindow.setActiveCamera (ProjectPoint : VtkMaptkCamera → Vec3 → Option Vec2)
    (d : MainWindowPrivate) (id : Int) : Option MainWindowPrivate :=
  if id < 0 ∨ id ≥ (d.cameras.length : Int) then
    some d
  else
    MainWindowPrivate.setActiveCamera ProjectPoint d id

/-! ## Tools and staged tool output -/

/-- Embedding of `MainWindowPrivate::setActiveTool`; the argument is the position
of the tool in `tools`, or `none` for the null pointer. -/
def MainWindowPrivate.setActiveTool (d : MainWindowPrivate) (tool : Option Nat) :
    MainWindowPrivate :=
  let enableTools : Bool := tool.isNone
  let enableCancel : Bool :=
    match tool with
    | none => false
    | some t =>
      match d.tools[t]? with
      | some a => a.isCancelable
      | none => false
  { d with
    activeTool := tool
    tools := d.tools.map (fun a => { a with enabled := enableTools })
    actionCancelComputation := enableCancel
    actionOpen := enableTools }

/-- The five setter calls and the call of `execute()` that `executeTool` makes on
the tool; the second component is the value returned by `execute()`. -/
def startTool (d : MainWindowPrivate) (a : AbstractTool) : AbstractTool × Bool :=
  ({ a with
     inputs :=
       { activeFrame := some d.activeCameraIndex
         imagePaths := some (MainWindowPrivate.imagePaths d)
         tracks := some d.tracks
         cameras := some (MainWindowPrivate.cameraMap d)
         landmarks := some d.landmarks }
     executeCalls := a.executeCalls + 1 }, a.executeResult)

/-- Embedding of `MainWindow::executeTool`.  The `QObject*` argument is an object
number; the objects that `qobject_cast` recognises as tools are the positions
of `tools`. -/
def MainWindow.executeTool (d : MainWindowPrivate) (object : Nat) : MainWindowPrivate :=
  match d.tools[object]? with
  | none => d
  | some _ =>
    match d.activeTool with
    | some _ => d
    | none =>
      let d1 := MainWindowPrivate.setActiveTool d (some object)
      match d1.tools[object]? with
      | none => d1
      | some a =>
        let r := startTool d1 a
        let d2 : MainWindowPrivate := { d1 with tools := d1.tools.set object r.1 }
        if r.2 then d2 else MainWindowPrivate.setActiveTool d2 none

/-- The block of `MainWindow::acceptToolResults` that runs when a tool is active:
the four staged fields are reset, then each field that the tool declares among
its outputs is taken from `data`. -/
def stageOutputs (d : MainWindowPrivate) (outputs : Outputs) (data : ToolData) :
    MainWindowPrivate :=
  { d with
    toolUpdateCameras := if outputs.cameras then data.cameras else none
    toolUpdateLandmarks := if outputs.landmarks then data.landmarks else none
    toolUpdateTracks := if outputs.tracks then data.tracks else none
    toolUpdateActiveFrame :=
      if outputs.activeFrame then staticCastInt data.activeFrame else -1 }

/-- Embedding of `MainWindow::acceptToolResults`. -/
def MainWindow.acceptToolResults (d : MainWindowPrivate) (data : ToolData) : MainWindowPrivate :=
  let updateNeeded : Bool :=
    d.toolUpdateCameras.isNone && d.toolUpdateLandmarks.isNone &&
      d.toolUpdateTracks.isNone && decide (d.toolUpdateActiveFrame < 0)
  let d1 : MainWindowPrivate :=
    match d.activeTool with
    | none => d
    | some t =>
      match d.tools[t]? with
      | none => d
      | some a => stageOutputs d a.outputs data
  if updateNeeded then { d1 with pendingSingleShots := d1.pendingSingleShots + 1 } else d1

/-- Embedding of `MainWindow::acceptToolFinalResults`. -/
def MainWindow.acceptToolFinalResults (d : MainWindowPrivate) : MainWindowPrivate :=
  let d1 : MainWindowPrivate :=
    match d.activeTool with
    | none => d
    | some t =>
      match d.tools[t]? with
      | none => d
      | some a => MainWindow.acceptToolResults d a.data
  MainWindowPrivate.setActiveTool d1 none

/-- The first block of `MainWindow::updateToolResults`: the staged cameras. -/
def mergeCameras (ProjectPoint : VtkMaptkCamera → Vec3 → Option Vec2)
    (d : MainWindowPrivate) : Option MainWindowPrivate :=
  match d.toolUpdateCameras with
  | some cameras =>
    (MainWindowPrivate.updateCameras ProjectPoint d cameras).map
      (fun d1 => { d1 with toolUpdateCameras := none })
  | none => some d

/-- The second block of `MainWindow::updateToolResults`: the staged landmarks. -/
def mergeLandmarks (d : MainWindowPrivate) : MainWindowPrivate :=
  match d.toolUpdateLandmarks with
  | some landmarks => { d with landmarks := some landmarks, toolUpdateLandmarks := none }
  | none => d

/-- The third block of `MainWindow::updateToolResults`: the staged tracks. -/
def mergeTracks (ProjectPoint : VtkMaptkCamera → Vec3 → Option Vec2)
    (d : MainWindowPrivate) : Option MainWindowPrivate :=
  match d.toolUpdateTracks with
  | some tracks =>
    (MainWindowPrivate.updateCameraView ProjectPoint { d with tracks := some tracks }).map
      (fun d1 => { d1 with toolUpdateTracks := none })
  | none => some d

/-- The slot `MainWindow::setActiveCamera` run by the signal `valueChanged` of the
frame slider, when the slider reports a value. -/
def sliderValueChanged (ProjectPoint : VtkMaptkCamera → Vec3 → Option Vec2)
    (d : MainWindowPrivate) : Option Int → Option MainWindowPrivate
  | some value => MainWindow.setActiveCamera ProjectPoint d value
  | none => some d

/-- The fourth block of `MainWindow::updateToolResults`: the staged active frame.
`UI.camera->setValue` comes first; `valueChanged` is what the slider reports
in response. -/
def mergeActiveFrame (ProjectPoint : VtkMaptkCamera → Vec3 → Option Vec2)
    (d : MainWindowPrivate) (valueChanged : Option Int) : Option MainWindowPrivate :=
  if 0 ≤ d.toolUpdateActiveFrame then
    (sliderValueChanged ProjectPoint d valueChanged).bind fun d0 =>
    (MainWindow.setActiveCamera ProjectPoint d0 d0.toolUpdateActiveFrame).map
      (fun d1 => { d1 with toolUpdateActiveFrame := -1 })
  else
    some d

/-- The last block of `MainWindow::updateToolResults`: the active camera is set
again when there is a frame. -/
def refreshActiveCamera (ProjectPoint : VtkMaptkCamera → Vec3 → Option Vec2)
    (d : MainWindowPrivate) : Option MainWindowPrivate :=
  if d.cameras.isEmpty then
    some d
  else
    MainWindowPrivate.setActiveCamera ProjectPoint d d.activeCameraIndex

/-- Embedding of `MainWindow::updateToolResults` (the merge of the staged
output): its five blocks in the order of the source.  `valueChanged` is the
value the frame slider reports when the fourth block sets it. -/
def MainWindow.updateToolResults (ProjectPoint : VtkMaptkCamera → Vec3 → Option Vec2)
    (d : MainWindowPrivate) (valueChanged : Option Int) : Option MainWindowPrivate :=
  (mergeCameras ProjectPoint d).bind fun d1 =>
  (mergeTracks ProjectPoint (mergeLandmarks d1)).bind fun d3 =>
  (mergeActiveFrame ProjectPoint d3 valueChanged).bind fun d4 =>
  refreshActiveCamera ProjectPoint d4

/-- An armed one-shot timer fires: the timer is consumed and `updateToolResults`
runs.  Without an armed timer nothing happens. -/
def timerFires (ProjectPoint : VtkMaptkCamera → Vec3 → Option Vec2)
    (d : MainWindowPrivate) (valueChanged : Option Int) : Option MainWindowPrivate :=
  match d.pendingSingleShots with
  | 0 => some d
  | n + 1 =>
    MainWindow.updateToolResults ProjectPoint { d with pendingSingleShots := n } valueChanged

/-! ## Call sequences -/

/-- The calls that reach the window.  A merge carries the value the frame slider
reports during it. -/
inductive Call where
  | addCamera : Option Pose → Call
  | addImage : String → Call
  | addFrame : Option Pose → String → Call
  | updateCameras : CameraMap → Call
  | setActiveCamera : Int → Call
  | executeTool : Nat → Call
  | acceptToolResults : ToolData → Call
  | acceptToolFinalResults : Call
  | updateToolResults : Option Int → Call
  | timerFires : Option Int → Call
deriving DecidableEq

/-- One call on a state. -/
def Call.run (ProjectPoint : VtkMaptkCamera → Vec3 → Option Vec2) :
    Call → MainWindowPrivate → Option MainWindowPrivate
  | Call.addCamera camera, d => MainWindowPrivate.addCamera ProjectPoint d camera
  | Call.addImage imagePath, d => MainWindowPrivate.addImage ProjectPoint d imagePath
  | Call.addFrame camera imagePath, d => MainWindowPrivate.addFrame ProjectPoint d camera imagePath
  | Call.updateCameras cameras, d => MainWindowPrivate.updateCameras ProjectPoint d cameras
  | Call.setActiveCamera id, d => MainWindow.setActiveCamera ProjectPoint d id
  | Call.executeTool object, d => some (MainWindow.executeTool d object)
  | Call.acceptToolResults data, d => some (MainWindow.acceptToolResults d data)
  | Call.acceptToolFinalResults, d => some (MainWindow.acceptToolFinalResults d)
  | Call.updateToolResults valueChanged, d =>
    MainWindow.updateToolResults ProjectPoint d valueChanged
  | Call.timerFires valueChanged, d => Maptk.timerFires ProjectPoint d valueChanged

/-- A sequence of calls, first call first; `none` as soon as one call fails. -/
def runCalls (ProjectPoint : VtkMaptkCamera → Vec3 → Option Vec2) :
    List Call → MainWindowPrivate → Option MainWindowPrivate
  | [], d => some d
  | c :: rest, d =>
    match Call.run ProjectPoint c d with
    | none => none
    | some d1 => runCalls ProjectPoint rest d1

/-! ## Notions used by the statements -/

/-- The ids of the frames, in the order of the list. -/
def frameIds (cameras : List CameraData) : List Int :=
  cameras.map (fun cd => cd.id)

/-- The invariant of the registry: the ids waiting in the two orphan queues are
positions of frames and occur once, the frame at position `i` has id `i`, and
the active index is a position of a frame (it is `-1` while no frame exists). -/
def Valid (d : MainWindowPrivate) : Prop :=
  (∀ i ∈ d.orphanImages, 0 ≤ i ∧ i < (d.cameras.length : Int)) ∧
  (∀ i ∈ d.orphanCameras, 0 ≤ i ∧ i < (d.cameras.length : Int)) ∧
  d.orphanImages.Nodup ∧
  d.orphanCameras.Nodup ∧
  frameIds d.cameras = (List.range d.cameras.length).map (fun k : Nat => (k : Int)) ∧
  ((d.cameras = [] ∧ d.activeCameraIndex = -1) ∨
    (0 ≤ d.activeCameraIndex ∧ d.activeCameraIndex < (d.cameras.length : Int)))

/-- A projection that fails on every point; used for the concrete runs. -/
def noProjection : VtkMaptkCamera → Vec3 → Option Vec2 :=
  fun _ _ => none

/-- An arrival at the registry: a camera that `loadCamera` has read and passes
to `addCamera` (a pose, never the null pointer), or an image path that
`loadImage` passes to `addImage`. -/
inductive Arrival where
  | camera : Pose → Arrival
  | image : String → Arrival
deriving DecidableEq

/-- The call that an arrival makes. -/
def Arrival.toCall : Arrival → Call
  | Arrival.camera pose => Call.addCamera (some pose)
  | Arrival.image path => Call.addImage path

/-- The poses passed to `addCamera`, in arrival order. -/
def arrivedPoses : List Arrival → List Pose
  | [] => []
  | Arrival.camera pose :: rest => pose :: arrivedPoses rest
  | Arrival.image _ :: rest => arrivedPoses rest

/-- The paths passed to `addImage`, in arrival order. -/
def arrivedPaths : List Arrival → List String
  | [] => []
  | Arrival.camera _ :: rest => arrivedPaths rest
  | Arrival.image path :: rest => path :: arrivedPaths rest

/-- The frame expected at position `k` when the `k`-th pose and the `k`-th path
are paired: the pose when there is one, the path when there is one. -/
def pairedFrame (poses : List Pose) (paths : List String) (k : Nat) : CameraData :=
  { id := (k : Int)
    camera := (poses[k]?).map (fun pose => VtkMaptkCamera.mk (some pose))
    imagePath := (paths[k]?).getD ""
    depthMapPath := "" }

/-- What happens between the arrival of orphan images and the end of the
arrival of their cameras: a camera arrives, or a frame without a pose is added
directly. -/
inductive LateCall where
  | camera : Pose → LateCall
  | frame : String → LateCall
deriving DecidableEq

/-- The call that a late call makes. -/
def LateCall.toCall : LateCall → Call
  | LateCall.camera pose => Call.addCamera (some pose)
  | LateCall.frame path => Call.addFrame none path

/-- The poses of the cameras among the late calls, in order. -/
def latePoses : List LateCall → List Pose
  | [] => []
  | LateCall.camera pose :: rest => pose :: latePoses rest
  | LateCall.frame _ :: rest => latePoses rest

/-- The camera that frame `k` is expected to hold after `updateCameras cameras`:
the pose mapped to `k` when the mapping has a non-null pose for `k`, the camera
it held before otherwise. -/
def updatedCamera (cameras : CameraMap) (k : Int) (old : Option VtkMaptkCamera) :
    Option VtkMaptkCamera :=
  match cameras.lookup k with
  | some (some pose) => some (VtkMaptkCamera.mk (some pose))
  | _ => old

/-- The active frame index after the slot `MainWindow::setActiveCamera` has run
for the value the frame slider reported: that value when it lies in
`[0, count)`, else the index `active` as it was. -/
def sliderActiveFrame (count active : Int) : Option Int → Int
  | some value => if 0 ≤ value ∧ value < count then value else active
  | none => active

/-- The active frame index after the fourth block of the merge, for the staged
index `staged`, the frame count `count`, the index `active` before the block
and the value `valueChanged` the frame slider reported: the staged index when
it lies in `[0, count)`; else, when an index is staged, what the slot leaves
for the reported value; else `active`. -/
def mergedActiveFrame (staged count active : Int) (valueChanged : Option Int) : Int :=
  if 0 ≤ staged ∧ staged < count then staged
  else if 0 ≤ staged then sliderActiveFrame count active valueChanged
  else active

/-- The staging record is empty: the test `updateNeeded` of `acceptToolResults`. -/
def stagingEmpty (d : MainWindowPrivate) : Bool :=
  d.toolUpdateCameras.isNone && d.toolUpdateLandmarks.isNone &&
    d.toolUpdateTracks.isNone && decide (d.toolUpdateActiveFrame < 0)

/-- A tool with the given outputs stages at least one value from `data`. -/
def stagesSomething (outputs : Outputs) (data : ToolData) : Bool :=
  (outputs.cameras && data.cameras.isSome) ||
    (outputs.landmarks && data.landmarks.isSome) ||
    (outputs.tracks && data.tracks.isSome) ||
    (outputs.activeFrame && decide (0 ≤ staticCastInt data.activeFrame))

/-- A burst of updates: `acceptToolResults` for each element, in order. -/
def acceptAll (d : MainWindowPrivate) : List ToolData → MainWindowPrivate
  | [] => d
  | data :: rest => acceptAll (MainWindow.acceptToolResults d data) rest

/-- The registry after the poses `poses` and the paths `paths` have arrived:
frame `k` pairs the `k`-th pose with the `k`-th path, and the frames that still
wait for their other half are queued in arrival order. -/
def Paired (d : MainWindowPrivate) (poses : List Pose) (paths : List String) : Prop :=
  d.cameras = (List.range (max poses.length paths.length)).map (pairedFrame poses paths) ∧
  d.orphanImages =
    (List.range' poses.length (paths.length - poses.length)).map (fun k : Nat => (k : Int)) ∧
  d.orphanCameras =
    (List.range' paths.length (poses.length - paths.length)).map (fun k : Nat => (k : Int)) ∧
  (d.activeCameraIndex < 0 ∨ d.activeCameraIndex < (d.cameras.length : Int))

/-! ## Concrete states -/

/-- Two images have arrived and wait for their cameras: the state after
`addImage "a.png"` and `addImage "b.png"` on the initial state. -/
def twoOrphanImages : MainWindowPrivate :=
  { MainWindowPrivate.init [] with
    cameras :=
      [{ id := 0, camera := none, imagePath := "a.png", depthMapPath := "" },
       { id := 1, camera := none, imagePath := "b.png", depthMapPath := "" }]
    activeCameraIndex := 0
    orphanImages := [0, 1]
    cameraView :=
      { activeFrame := 0, imagePath := "a.png", landmarks := [], residuals := [],
        updateCount := 1 } }

/-- A tool that declares landmarks as its only output. -/
def landmarkTool : AbstractTool :=
  { outputs := { cameras := false, landmarks := true, tracks := false, activeFrame := false }
    isCancelable := true
    executeResult := true
    data := { cameras := none, landmarks := none, tracks := none, activeFrame := 0 }
    inputs :=
      { activeFrame := none, imagePaths := none, tracks := none, cameras := none,
        landmarks := none }
    executeCalls := 0
    enabled := true }

/-- The initial state with `landmarkTool` registered and started. -/
def runningLandmarkTool : MainWindowPrivate :=
  MainWindow.executeTool (MainWindowPrivate.init [landmarkTool]) 0

/-- An update that carries the landmarks `landmarks` and nothing else. -/
def landmarkUpdate (landmarks : Option LandmarkMap) : ToolData :=
  { cameras := none, landmarks := landmarks, tracks := none, activeFrame := 0 }

/-! ## Notions and states used by the merge and projector statements -/

/-- Number of entries of a staged camera map that `updateCameras` applies to the
active frame: the entry carries a camera, and its index, narrowed to `int`, is
in range and is the active frame index.  `updateCameras` runs
`updateCameraView` once for each of them. -/
def activeHits (cameras : CameraMap) (cameraCount active : Int) : Nat :=
  cameras.countP (fun e =>
    e.2.isSome && decide (0 ≤ staticCastInt e.1 ∧ staticCastInt e.1 < cameraCount) &&
      decide (staticCastInt e.1 = active))

/-- Number of staged cameras that land on the active frame; none when no
camera map is staged. -/
def stagedHits (d : MainWindowPrivate) : Nat :=
  match d.toolUpdateCameras with
  | some cameras => activeHits cameras (d.cameras.length : Int) d.activeCameraIndex
  | none => 0

/-- Number of `updateCameraView` runs of the slot `MainWindow::setActiveCamera`
for the value the frame slider reported: one when the value lies in
`[0, count)`. -/
def sliderHits (count : Int) : Option Int → Nat
  | some value => if 0 ≤ value ∧ value < count then 1 else 0
  | none => 0

/-- Number of `updateCameraView` runs of one `updateToolResults` call, read off
the four blocks of the merge and its final refresh: one for each staged camera
that lands on the active frame, one when tracks are staged, one when an active
frame is staged and the slider reports a value in range, one when a staged
active frame is accepted, one for the final refresh when a frame exists. -/
def mergeUpdateCount (d : MainWindowPrivate) (valueChanged : Option Int) : Nat :=
  stagedHits d +
  (if d.toolUpdateTracks.isSome then 1 else 0) +
  (if 0 ≤ d.toolUpdateActiveFrame then sliderHits (d.cameras.length : Int) valueChanged else 0) +
  (if 0 ≤ d.toolUpdateActiveFrame ∧ d.toolUpdateActiveFrame < (d.cameras.length : Int)
    then 1 else 0) +
  (if d.cameras.isEmpty then 0 else 1)

/-- The shape of the two orphan queues: they are never both non-empty, each is
strictly increasing, and every frame queued as an orphan camera has an empty
image path. -/
def QueuesOrdered (d : MainWindowPrivate) : Prop :=
  (d.orphanImages = [] ∨ d.orphanCameras = []) ∧
  d.orphanImages.Pairwise (fun a b => a < b) ∧
  d.orphanCameras.Pairwise (fun a b => a < b) ∧
  ∀ i ∈ d.orphanCameras, ∃ cd, frameAt d.cameras i = some cd ∧ cd.imagePath = ""

/-- Staged output has a trigger: when the staging record is not empty, at least
one one-shot timer is armed. -/
def StagedHasTrigger (d : MainWindowPrivate) : Prop :=
  stagingEmpty d = false → 0 < d.pendingSingleShots

/-- While no frame is active the camera view holds no residuals. -/
def NoStaleResiduals (d : MainWindowPrivate) : Prop :=
  d.activeCameraIndex < 0 → d.cameraView.residuals = []

/-- A step from `d` to `d1` that ends without an active frame started without one
and left the residuals of the view as they were. -/
def KeepsResiduals (d d1 : MainWindowPrivate) : Prop :=
  d1.activeCameraIndex < 0 →
    d.activeCameraIndex < 0 ∧ d1.cameraView.residuals = d.cameraView.residuals

/-- A tool that declares the active frame as its only output. -/
def frameTool : AbstractTool :=
  { outputs := { cameras := false, landmarks := false, tracks := false, activeFrame := true }
    isCancelable := true
    executeResult := true
    data := { cameras := none, landmarks := none, tracks := none, activeFrame := 0 }
    inputs :=
      { activeFrame := none, imagePaths := none, tracks := none, cameras := none,
        landmarks := none }
    executeCalls := 0
    enabled := true }

/-- The initial state with `frameTool` registered and started. -/
def runningFrameTool : MainWindowPrivate :=
  MainWindow.executeTool (MainWindowPrivate.init [frameTool]) 0

/-- A tool that declares landmarks as its only output and whose data hold one
landmark. -/
def finishingLandmarkTool : AbstractTool :=
  { landmarkTool with
    data := { cameras := none, landmarks := some [(1, (0, 0, 1))], tracks := none,
              activeFrame := 0 } }

/-- A tool that declares tracks as its only output. -/
def trackTool : AbstractTool :=
  { landmarkTool with
    outputs := { cameras := false, landmarks := false, tracks := true, activeFrame := false } }

/-- The landmark that the view shows for one landmark of the scene: its id with
its projection through `camera`, when the projection succeeds. -/
def projectedLandmark (ProjectPoint : VtkMaptkCamera → Vec3 → Option Vec2)
    (camera : VtkMaptkCamera) (landmark : Int × Vec3) : Option (Int × Vec2) :=
  (ProjectPoint camera landmark.2).map (fun pp => (landmark.1, pp))

/-- The residual that the view shows for one track, given the landmarks the view
shows: the track has a state at the frame, the state is a feature state with a
location, and a shown landmark has the id of the track; the residual pairs the
feature location with the location of that landmark. -/
def expectedResidual (frame : Int) (shown : List (Int × Vec2)) (track : Track) :
    Option (Int × Vec2 × Vec2) :=
  match track.find frame with
  | some (TrackState.feature (some fp)) =>
    (shown.lookup track.id).map (fun lp => (track.id, fp, lp))
  | _ => none

/-- A projection that succeeds exactly for points of positive depth and then
drops the depth. -/
def projectInFront : VtkMaptkCamera → Vec3 → Option Vec2 :=
  fun _ loc => if 0 < loc.2.2 then some (loc.1, loc.2.1) else none

/-- One frame with a camera is active; the scene has three landmarks, of which
the second lies behind the camera, and four tracks: track 1 and track 2 have a
feature at frame 0, track 3 has one at frame 1 only, track 4 has a state of
another kind at frame 0. -/
def sceneWithCamera : MainWindowPrivate :=
  { MainWindowPrivate.init [] with
    cameras :=
      [{ id := 0, camera := some (VtkMaptkCamera.mk (some 1)), imagePath := "a.png",
         depthMapPath := "" }]
    activeCameraIndex := 0
    landmarks := some [(1, (10, 20, 1)), (2, (30, 40, 0)), (3, (50, 60, 2))]
    tracks :=
      some [{ id := 1, history := [(0, TrackState.feature (some (11, 21)))] },
            { id := 2, history := [(0, TrackState.feature (some (31, 41)))] },
            { id := 3, history := [(1, TrackState.feature (some (51, 61)))] },
            { id := 4, history := [(0, TrackState.other)] }] }

/-- The state `twoOrphanImages` with a camera for frame 1, a landmark set and
the active frame 1 staged. -/
def stagedOnTwoFrames : MainWindowPrivate :=
  { twoOrphanImages with
    toolUpdateCameras := some [(1, some 7)]
    toolUpdateLandmarks := some [(3, (1, 2, 3))]
    toolUpdateActiveFrame := 1 }

/-! # Theorems -/

/-! ## Frame access and the camera view -/

theorem frameAt_of_lt (cameras : List CameraData) (i : Int) (h0 : 0 ≤ i)
    (h1 : i < (cameras.length : Int)) : ∃ cd, frameAt cameras i = some cd := by
  have h2 : i.toNat < cameras.length := by omega
  refine ⟨cameras[i.toNat], ?_⟩
  simp [frameAt, h0, List.getElem?_eq_getElem h2]

theorem frameAt_natCast (cameras : List CameraData) (k : Nat) :
    frameAt cameras (k : Int) = cameras[k]? := by
  simp [frameAt]

theorem frameAt_some_bounds (cameras : List CameraData) (i : Int) (cd : CameraData)
    (h : frameAt cameras i = some cd) : 0 ≤ i ∧ i < (cameras.length : Int) := by
  unfold frameAt at h
  split at h
  · rename_i h0
    have := (List.getElem?_eq_some_iff.mp h).1
    omega
  · cases h

theorem length_setFrameAt (cameras : List CameraData) (i : Int) (cd : CameraData) :
    (setFrameAt cameras i cd).length = cameras.length := by
  simp [setFrameAt]

theorem updateCameraView_eq (P : VtkMaptkCamera → Vec3 → Option Vec2) (d : MainWindowPrivate)
    (h : d.activeCameraIndex < 0 ∨ d.activeCameraIndex < (d.cameras.length : Int)) :
    ∃ v, MainWindowPrivate.updateCameraView P d = some { d with cameraView := v } := by
  unfold MainWindowPrivate.updateCameraView
  by_cases h0 : d.activeCameraIndex < 0
  · simp only [h0, if_true]
    exact ⟨_, rfl⟩
  · have h1 : d.activeCameraIndex < (d.cameras.length : Int) := by
      rcases h with h | h
      · exact absurd h h0
      · exact h
    obtain ⟨cd, hcd⟩ := frameAt_of_lt d.cameras d.activeCameraIndex (by omega) h1
    simp only [h0, if_false, hcd]
    exact ⟨_, rfl⟩

theorem updateCameraView_some (P : VtkMaptkCamera → Vec3 → Option Vec2) (d d1 : MainWindowPrivate)
    (h : MainWindowPrivate.updateCameraView P d = some d1) :
    ∃ v, d1 = { d with cameraView := v } := by
  unfold MainWindowPrivate.updateCameraView at h
  split at h
  · cases h; exact ⟨_, rfl⟩
  · split at h
    · cases h
    · cases h; exact ⟨_, rfl⟩

theorem setActiveCamera_eq (P : VtkMaptkCamera → Vec3 → Option Vec2) (d : MainWindowPrivate)
    (id : Int) (h0 : 0 ≤ id) (h1 : id < (d.cameras.length : Int)) :
    ∃ v, MainWindowPrivate.setActiveCamera P d id =
      some { d with activeCameraIndex := id, cameraView := v } := by
  unfold MainWindowPrivate.setActiveCamera
  obtain ⟨v, hv⟩ := updateCameraView_eq P { d with activeCameraIndex := id } (Or.inr h1)
  obtain ⟨cd, hcd⟩ := frameAt_of_lt d.cameras id h0 h1
  rw [hv]
  simp only [hcd]
  exact ⟨v, rfl⟩

theorem addFrame_eq (P : VtkMaptkCamera → Vec3 → Option Vec2) (d : MainWindowPrivate)
    (camera : Option Pose) (imagePath : String) :
    ∃ v, MainWindowPrivate.addFrame P d camera imagePath =
      some { d with
        orphanImages := if camera.isSome then [] else d.orphanImages
        orphanCameras := if camera.isSome then d.orphanCameras else []
        cameras := d.cameras ++
          [{ id := (d.cameras.length : Int)
             camera := camera.map (fun c => VtkMaptkCamera.mk (some c))
             imagePath := imagePath
             depthMapPath := "" }]
        activeCameraIndex := if d.cameras.length = 0 then 0 else d.activeCameraIndex
        cameraView := v } := by
  unfold MainWindowPrivate.addFrame
  by_cases hl : d.cameras.length = 0
  · cases camera with
    | none =>
      simp only [hl, List.length_append, List.length_singleton, if_true]
      obtain ⟨v, hv⟩ := setActiveCamera_eq P
        { d with orphanCameras := [], cameras := d.cameras ++
          [{ id := (d.cameras.length : Int), camera := none, imagePath := imagePath,
             depthMapPath := "" }] } 0 (le_refl 0) (by simp)
      refine ⟨v, ?_⟩
      simp only [hl, Option.map] at hv ⊢
      rw [hv]
      simp
    | some c =>
      simp only [hl, List.length_append, List.length_singleton, if_true]
      obtain ⟨v, hv⟩ := setActiveCamera_eq P
        { d with orphanImages := [], cameras := d.cameras ++
          [{ id := (d.cameras.length : Int), camera := some (VtkMaptkCamera.mk (some c)),
             imagePath := imagePath, depthMapPath := "" }] } 0 (le_refl 0) (by simp)
      refine ⟨v, ?_⟩
      simp only [hl, Option.map] at hv ⊢
      rw [hv]
      simp
  · refine ⟨d.cameraView, ?_⟩
    cases camera <;> simp [hl]

/-! ## Pairing steps and the bulk camera update -/

theorem addCamera_eq_addFrame (P : VtkMaptkCamera → Vec3 → Option Vec2) (d : MainWindowPrivate)
    (camera : Option Pose) (h : d.orphanImages = []) :
    MainWindowPrivate.addCamera P d camera =
      MainWindowPrivate.addFrame P
        { d with orphanCameras := d.orphanCameras ++ [(d.cameras.length : Int)] } camera "" := by
  unfold MainWindowPrivate.addCamera
  simp [h]

theorem addCamera_eq_pair (P : VtkMaptkCamera → Vec3 → Option Vec2) (d : MainWindowPrivate)
    (camera : Option Pose) (i : Int) (rest : List Int) (cd : CameraData)
    (h : d.orphanImages = i :: rest) (hcd : frameAt d.cameras i = some cd)
    (ha : d.activeCameraIndex < 0 ∨ d.activeCameraIndex < (d.cameras.length : Int)) :
    ∃ v, MainWindowPrivate.addCamera P d camera =
      some { d with
        orphanImages := rest
        cameras := setFrameAt d.cameras i { cd with camera := some (VtkMaptkCamera.mk camera) }
        cameraView := v } := by
  unfold MainWindowPrivate.addCamera
  simp only [h, hcd]
  split
  · exact updateCameraView_eq P
      { d with
        orphanImages := rest
        cameras := setFrameAt d.cameras i { cd with camera := some (VtkMaptkCamera.mk camera) } }
      (by simpa [length_setFrameAt] using ha)
  · exact ⟨d.cameraView, rfl⟩

theorem addImage_eq_addFrame (P : VtkMaptkCamera → Vec3 → Option Vec2) (d : MainWindowPrivate)
    (imagePath : String) (h : d.orphanCameras = []) :
    MainWindowPrivate.addImage P d imagePath =
      MainWindowPrivate.addFrame P
        { d with orphanImages := d.orphanImages ++ [(d.cameras.length : Int)] } none imagePath := by
  unfold MainWindowPrivate.addImage
  simp [h]

theorem addImage_eq_pair (P : VtkMaptkCamera → Vec3 → Option Vec2) (d : MainWindowPrivate)
    (imagePath : String) (i : Int) (rest : List Int) (cd : CameraData)
    (h : d.orphanCameras = i :: rest) (hcd : frameAt d.cameras i = some cd)
    (ha : d.activeCameraIndex < 0 ∨ d.activeCameraIndex < (d.cameras.length : Int)) :
    ∃ v, MainWindowPrivate.addImage P d imagePath =
      some { d with
        orphanCameras := rest
        cameras := setFrameAt d.cameras i { cd with imagePath := imagePath }
        cameraView := v } := by
  unfold MainWindowPrivate.addImage
  simp only [h, hcd]
  split
  · exact updateCameraView_eq P
      { d with
        orphanCameras := rest
        cameras := setFrameAt d.cameras i { cd with imagePath := imagePath } }
      (by simpa [length_setFrameAt] using ha)
  · exact ⟨d.cameraView, rfl⟩

theorem sameButCamera_set (cs : List CameraData) (i : Int) (cd : CameraData)
    (c : Option VtkMaptkCamera) (hcd : frameAt cs i = some cd) :
    ∀ (k : Nat) (cd0 : CameraData), cs[k]? = some cd0 →
      ∃ c1, (setFrameAt cs i { cd with camera := c })[k]? = some { cd0 with camera := c1 } := by
  intro k cd0 hk
  have hb := frameAt_some_bounds cs i cd hcd
  unfold frameAt at hcd
  simp only [hb.1, if_true] at hcd
  unfold setFrameAt
  by_cases hki : i.toNat = k
  · subst hki
    rw [hcd] at hk
    cases hk
    refine ⟨c, ?_⟩
    have hlt : i.toNat < cs.length := by omega
    simp [List.getElem?_set, hlt]
  · refine ⟨cd0.camera, ?_⟩
    simp [List.getElem?_set, hki, hk]

theorem updateCamerasLoop_eq (P : VtkMaptkCamera → Vec3 → Option Vec2) (n : Int)
    (cams : CameraMap) :
    ∀ d : MainWindowPrivate, n = (d.cameras.length : Int) →
      (d.activeCameraIndex < 0 ∨ d.activeCameraIndex < (d.cameras.length : Int)) →
      ∃ cs v, updateCamerasLoop P n cams d = some { d with cameras := cs, cameraView := v } ∧
        cs.length = d.cameras.length ∧
        ∀ (k : Nat) (cd : CameraData), d.cameras[k]? = some cd →
          ∃ c, cs[k]? = some { cd with camera := c } := by
  induction cams with
  | nil =>
    intro d _ _
    exact ⟨d.cameras, d.cameraView, rfl, rfl, fun k cd hk => ⟨cd.camera, hk⟩⟩
  | cons e rest ih =>
    intro d hn ha
    obtain ⟨first, second⟩ := e
    cases second with
    | none =>
      simp only [updateCamerasLoop]
      exact ih d hn ha
    | some camera =>
      simp only [updateCamerasLoop]
      by_cases hr : 0 ≤ staticCastInt first ∧ staticCastInt first < n
      · rw [if_pos hr]
        obtain ⟨cd, hcd⟩ := frameAt_of_lt d.cameras (staticCastInt first) hr.1 (hn ▸ hr.2)
        simp only [hcd]
        have hset := sameButCamera_set d.cameras (staticCastInt first) cd
          (some (VtkMaptkCamera.mk (some camera))) hcd
        have hlen := length_setFrameAt d.cameras (staticCastInt first)
          { cd with camera := some (VtkMaptkCamera.mk (some camera)) }
        split
        · obtain ⟨v, hv⟩ := updateCameraView_eq P
            { d with cameras := (setFrameAt d.cameras (staticCastInt first)
                ({ cd with camera := some (VtkMaptkCamera.mk (some camera)) })) }
            (by simpa [length_setFrameAt] using ha)
          rw [hv]
          obtain ⟨cs, v1, h1, h2, h3⟩ := ih
            { d with
              cameras := (setFrameAt d.cameras (staticCastInt first)
                ({ cd with camera := some (VtkMaptkCamera.mk (some camera)) }))
              cameraView := v }
            (by simpa [length_setFrameAt] using hn)
            (by simpa [length_setFrameAt] using ha)
          refine ⟨cs, v1, h1, by simpa [length_setFrameAt] using h2, ?_⟩
          intro k cd0 hk
          obtain ⟨c1, hc1⟩ := hset k cd0 hk
          obtain ⟨c2, hc2⟩ := h3 k _ hc1
          exact ⟨c2, hc2⟩
        · obtain ⟨cs, v1, h1, h2, h3⟩ := ih
            { d with
              cameras := (setFrameAt d.cameras (staticCastInt first)
                ({ cd with camera := some (VtkMaptkCamera.mk (some camera)) })) }
            (by simpa [length_setFrameAt] using hn)
            (by simpa [length_setFrameAt] using ha)
          refine ⟨cs, v1, h1, by simpa [length_setFrameAt] using h2, ?_⟩
          intro k cd0 hk
          obtain ⟨c1, hc1⟩ := hset k cd0 hk
          obtain ⟨c2, hc2⟩ := h3 k _ hc1
          exact ⟨c2, hc2⟩
      · rw [if_neg hr]
        exact ih d hn ha

/-! ## The registry invariant under frame additions -/

theorem frameIds_append (cs : List CameraData) (cd : CameraData) :
    frameIds (cs ++ [cd]) = frameIds cs ++ [cd.id] := by
  simp [frameIds]

theorem frameIds_setFrameAt (cs : List CameraData) (i : Int) (cd cd1 : CameraData)
    (hcd : frameAt cs i = some cd) (hid : cd1.id = cd.id) :
    frameIds (setFrameAt cs i cd1) = frameIds cs := by
  have hb := frameAt_some_bounds cs i cd hcd
  unfold frameAt at hcd
  simp only [hb.1, if_true] at hcd
  unfold frameIds setFrameAt
  apply List.ext_getElem?
  intro k
  by_cases hk : i.toNat = k
  · subst hk
    have hlt : i.toNat < cs.length := by omega
    have hget : cs[i.toNat] = cd := (List.getElem?_eq_some_iff.mp hcd).2
    simp [List.getElem?_set, hlt, hget, hid]
  · simp [List.getElem?_set, hk]

theorem frameIds_of_sameButCamera (cs cs1 : List CameraData) (hlen : cs1.length = cs.length)
    (h : ∀ (k : Nat) (cd : CameraData), cs[k]? = some cd →
      ∃ c, cs1[k]? = some { cd with camera := c }) :
    frameIds cs1 = frameIds cs := by
  unfold frameIds
  apply List.ext_getElem?
  intro k
  cases hk : cs[k]? with
  | none =>
    have h1 : cs.length ≤ k := by
      by_contra hlt
      have := List.getElem?_eq_getElem (Nat.lt_of_not_le hlt)
      rw [this] at hk
      cases hk
    have h2 : cs1[k]? = none := List.getElem?_eq_none (by omega)
    simp [hk, h2]
  | some cd =>
    obtain ⟨c, hc⟩ := h k cd hk
    simp [hk, hc]

theorem valid_range_succ (cs : List CameraData) (cd : CameraData)
    (h : frameIds cs = (List.range cs.length).map (fun k : Nat => (k : Int)))
    (hid : cd.id = (cs.length : Int)) :
    frameIds (cs ++ [cd]) = (List.range (cs ++ [cd]).length).map (fun k : Nat => (k : Int)) := by
  rw [frameIds_append, h, hid]
  simp [List.range_succ]

theorem addFrame_valid_of (P : VtkMaptkCamera → Vec3 → Option Vec2) (d : MainWindowPrivate)
    (camera : Option Pose) (imagePath : String)
    (h1 : ∀ i ∈ d.orphanImages, 0 ≤ i ∧ i ≤ (d.cameras.length : Int))
    (h2 : ∀ i ∈ d.orphanCameras, 0 ≤ i ∧ i ≤ (d.cameras.length : Int))
    (h3 : d.orphanImages.Nodup) (h4 : d.orphanCameras.Nodup)
    (h5 : frameIds d.cameras = (List.range d.cameras.length).map (fun k : Nat => (k : Int)))
    (h6 : (d.cameras = [] ∧ d.activeCameraIndex = -1) ∨
      (0 ≤ d.activeCameraIndex ∧ d.activeCameraIndex < (d.cameras.length : Int))) :
    ∃ d1, MainWindowPrivate.addFrame P d camera imagePath = some d1 ∧ Valid d1 ∧
      d1.cameras = d.cameras ++
          [{ id := (d.cameras.length : Int)
             camera := camera.map (fun c => VtkMaptkCamera.mk (some c))
             imagePath := imagePath
             depthMapPath := "" }] ∧
      d1.orphanImages = (if camera.isSome then [] else d.orphanImages) ∧
      d1.orphanCameras = (if camera.isSome then d.orphanCameras else []) := by
  obtain ⟨v, hv1⟩ := addFrame_eq P d camera imagePath
  refine ⟨_, hv1, ?_, rfl, rfl, rfl⟩
  refine ⟨?_, ?_, ?_, ?_, ?_, ?_⟩
  · intro i hi
    cases camera with
    | none =>
      simp only [Option.isSome_none, Bool.false_eq_true, if_false] at hi
      have := h1 i hi
      simp only [List.length_append, List.length_singleton]
      omega
    | some c => simp at hi
  · intro i hi
    cases camera with
    | none => simp at hi
    | some c =>
      simp only [Option.isSome_some, if_true] at hi
      have := h2 i hi
      simp only [List.length_append, List.length_singleton]
      omega
  · cases camera <;> simp [h3]
  · cases camera <;> simp [h4]
  · exact valid_range_succ d.cameras _ h5 rfl
  · right
    simp only [List.length_append, List.length_singleton]
    by_cases hl : d.cameras.length = 0
    · simp [hl]
    · simp only [hl, if_false]
      rcases h6 with ⟨hnil, _⟩ | ⟨ha, hb⟩
      · exact absurd (by simp [hnil]) hl
      · constructor
        · exact ha
        · omega

theorem addFrame_valid (P : VtkMaptkCamera → Vec3 → Option Vec2) (d : MainWindowPrivate)
    (camera : Option Pose) (imagePath : String) (hv : Valid d) :
    ∃ d1, MainWindowPrivate.addFrame P d camera imagePath = some d1 ∧ Valid d1 ∧
      ∃ more, frameIds d1.cameras = frameIds d.cameras ++ more := by
  obtain ⟨h1, h2, h3, h4, h5, h6⟩ := hv
  obtain ⟨d1, e1, v1, c1, _, _⟩ := addFrame_valid_of P d camera imagePath
    (fun i hi => ⟨(h1 i hi).1, le_of_lt (h1 i hi).2⟩)
    (fun i hi => ⟨(h2 i hi).1, le_of_lt (h2 i hi).2⟩) h3 h4 h5 h6
  exact ⟨d1, e1, v1, _, by rw [c1, frameIds_append]⟩

theorem valid_active (d : MainWindowPrivate) (hv : Valid d) :
    d.activeCameraIndex < 0 ∨ d.activeCameraIndex < (d.cameras.length : Int) := by
  rcases hv.2.2.2.2.2 with ⟨_, h⟩ | ⟨_, h⟩
  · left; omega
  · right; exact h

theorem nodup_enqueue (q : List Int) (n : Int) (hq : q.Nodup) (hlt : ∀ i ∈ q, 0 ≤ i ∧ i < n) :
    (q ++ [n]).Nodup := by
  rw [List.nodup_append]
  refine ⟨hq, List.nodup_singleton n, ?_⟩
  intro a ha hb
  simp only [List.mem_singleton] at hb
  have := (hlt a ha).2
  omega

theorem addCamera_valid (P : VtkMaptkCamera → Vec3 → Option Vec2) (d : MainWindowPrivate)
    (camera : Option Pose) (hv : Valid d) :
    ∃ d1, MainWindowPrivate.addCamera P d camera = some d1 ∧ Valid d1 ∧
      ∃ more, frameIds d1.cameras = frameIds d.cameras ++ more := by
  have hact := valid_active d hv
  obtain ⟨h1, h2, h3, h4, h5, h6⟩ := hv
  cases hq : d.orphanImages with
  | nil =>
    rw [addCamera_eq_addFrame P d camera hq]
    obtain ⟨d1, e1, v1, c1, _, _⟩ := addFrame_valid_of P
      { d with orphanCameras := d.orphanCameras ++ [(d.cameras.length : Int)] } camera ""
      (fun i hi => ⟨(h1 i hi).1, le_of_lt (h1 i hi).2⟩)
      (by
        intro i hi
        simp only [List.mem_append, List.mem_singleton] at hi
        rcases hi with hi | hi
        · exact ⟨(h2 i hi).1, le_of_lt (h2 i hi).2⟩
        · subst hi
          exact ⟨by omega, le_refl _⟩)
      h3 (nodup_enqueue _ _ h4 h2) h5 h6
    exact ⟨d1, e1, v1, _, by rw [c1, frameIds_append]⟩
  | cons i rest =>
    have hi := h1 i (by simp [hq])
    obtain ⟨cd, hcd⟩ := frameAt_of_lt d.cameras i hi.1 hi.2
    obtain ⟨v, hv1⟩ := addCamera_eq_pair P d camera i rest cd hq hcd hact
    have hids := frameIds_setFrameAt d.cameras i cd
      { cd with camera := some (VtkMaptkCamera.mk camera) } hcd rfl
    refine ⟨_, hv1, ?_, [], by simp [hids]⟩
    rw [hq] at h1 h3
    refine ⟨?_, ?_, ?_, h4, ?_, ?_⟩
    · intro j hj
      simpa [length_setFrameAt] using h1 j (List.mem_cons_of_mem _ hj)
    · intro j hj
      simpa [length_setFrameAt] using h2 j hj
    · exact (List.nodup_cons.mp h3).2
    · simp only [length_setFrameAt]
      rw [hids]
      exact h5
    · right
      simp only [length_setFrameAt]
      rcases h6 with ⟨hnil, _⟩ | h
      · rw [hnil] at hi
        simp at hi
        omega
      · exact h

theorem addImage_valid (P : VtkMaptkCamera → Vec3 → Option Vec2) (d : MainWindowPrivate)
    (imagePath : String) (hv : Valid d) :
    ∃ d1, MainWindowPrivate.addImage P d imagePath = some d1 ∧ Valid d1 ∧
      ∃ more, frameIds d1.cameras = frameIds d.cameras ++ more := by
  have hact := valid_active d hv
  obtain ⟨h1, h2, h3, h4, h5, h6⟩ := hv
  cases hq : d.orphanCameras with
  | nil =>
    rw [addImage_eq_addFrame P d imagePath hq]
    obtain ⟨d1, e1, v1, c1, _, _⟩ := addFrame_valid_of P
      { d with orphanImages := d.orphanImages ++ [(d.cameras.length : Int)] } none imagePath
      (by
        intro i hi
        simp only [List.mem_append, List.mem_singleton] at hi
        rcases hi with hi | hi
        · exact ⟨(h1 i hi).1, le_of_lt (h1 i hi).2⟩
        · subst hi
          exact ⟨by omega, le_refl _⟩)
      (fun i hi => ⟨(h2 i hi).1, le_of_lt (h2 i hi).2⟩)
      (nodup_enqueue _ _ h3 h1) h4 h5 h6
    exact ⟨d1, e1, v1, _, by rw [c1, frameIds_append]⟩
  | cons i rest =>
    have hi := h2 i (by simp [hq])
    obtain ⟨cd, hcd⟩ := frameAt_of_lt d.cameras i hi.1 hi.2
    obtain ⟨v, hv1⟩ := addImage_eq_pair P d imagePath i rest cd hq hcd hact
    have hids := frameIds_setFrameAt d.cameras i cd
      { cd with imagePath := imagePath } hcd rfl
    refine ⟨_, hv1, ?_, [], by simp [hids]⟩
    rw [hq] at h2 h4
    refine ⟨?_, ?_, h3, ?_, ?_, ?_⟩
    · intro j hj
      simpa [length_setFrameAt] using h1 j hj
    · intro j hj
      simpa [length_setFrameAt] using h2 j (List.mem_cons_of_mem _ hj)
    · exact (List.nodup_cons.mp h4).2
    · simp only [length_setFrameAt]
      rw [hids]
      exact h5
    · right
      simp only [length_setFrameAt]
      rcases h6 with ⟨hnil, _⟩ | h
      · rw [hnil] at hi
        simp at hi
        omega
      · exact h

/-! ## The blocks of the merge -/

theorem publicSetActiveCamera_eq (P : VtkMaptkCamera → Vec3 → Option Vec2) (d : MainWindowPrivate)
    (id : Int) :
    ∃ v, MainWindow.setActiveCamera P d id =
      some (if id < 0 ∨ id ≥ (d.cameras.length : Int) then d
        else { d with activeCameraIndex := id, cameraView := v }) := by
  unfold MainWindow.setActiveCamera
  by_cases h : id < 0 ∨ id ≥ (d.cameras.length : Int)
  · exact ⟨d.cameraView, by simp only [h, if_true]⟩
  · obtain ⟨v, hv⟩ := setActiveCamera_eq P d id (by omega) (by omega)
    exact ⟨v, by simp only [h, if_false, hv]⟩

theorem mergeCameras_eq (P : VtkMaptkCamera → Vec3 → Option Vec2) (d : MainWindowPrivate)
    (ha : d.activeCameraIndex < 0 ∨ d.activeCameraIndex < (d.cameras.length : Int)) :
    ∃ cs v, mergeCameras P d =
        some { d with cameras := cs, cameraView := v, toolUpdateCameras := none } ∧
      cs.length = d.cameras.length ∧
      (d.toolUpdateCameras = none → cs = d.cameras) ∧
      ∀ (k : Nat) (cd : CameraData), d.cameras[k]? = some cd →
        ∃ c, cs[k]? = some { cd with camera := c } := by
  rcases d with ⟨at0, tools, tuaf, tuc, tul, tut, cameras, tracks, landmarks, aci, oi, oc,
    view, acc, ao, pss⟩
  cases tuc with
  | none =>
    exact ⟨cameras, view, rfl, rfl, fun _ => rfl, fun k cd hk => ⟨cd.camera, hk⟩⟩
  | some cams =>
    obtain ⟨cs, v, h1, h2, h3⟩ := updateCamerasLoop_eq P (cameras.length : Int) cams
      ⟨at0, tools, tuaf, some cams, tul, tut, cameras, tracks, landmarks, aci, oi, oc,
        view, acc, ao, pss⟩ rfl ha
    refine ⟨cs, v, ?_, h2, fun h => ?_, h3⟩
    · simp only [mergeCameras, MainWindowPrivate.updateCameras, h1, Option.map_some']
    · cases h

theorem mergeLandmarks_eq (d : MainWindowPrivate) :
    mergeLandmarks d =
      { d with landmarks := d.toolUpdateLandmarks.or d.landmarks, toolUpdateLandmarks := none } := by
  rcases d with ⟨at0, tools, tuaf, tuc, tul, tut, cameras, tracks, landmarks, aci, oi, oc,
    view, acc, ao, pss⟩
  cases tul <;> rfl

theorem mergeTracks_eq (P : VtkMaptkCamera → Vec3 → Option Vec2) (d : MainWindowPrivate)
    (ha : d.activeCameraIndex < 0 ∨ d.activeCameraIndex < (d.cameras.length : Int)) :
    ∃ v, mergeTracks P d =
      some { d with
        tracks := d.toolUpdateTracks.or d.tracks, toolUpdateTracks := none, cameraView := v } := by
  rcases d with ⟨at0, tools, tuaf, tuc, tul, tut, cameras, tracks, landmarks, aci, oi, oc,
    view, acc, ao, pss⟩
  cases tut with
  | none => exact ⟨view, rfl⟩
  | some tr =>
    obtain ⟨v, hv⟩ := updateCameraView_eq P
      ⟨at0, tools, tuaf, tuc, tul, some tr, cameras, some tr, landmarks, aci, oi, oc,
        view, acc, ao, pss⟩ ha
    refine ⟨v, ?_⟩
    simp only [mergeTracks, hv, Option.map_some']
    rfl

theorem sliderValueChanged_eq (P : VtkMaptkCamera → Vec3 → Option Vec2) (d : MainWindowPrivate)
    (valueChanged : Option Int) :
    ∃ v, sliderValueChanged P d valueChanged =
      some { d with
        activeCameraIndex :=
          sliderActiveFrame (d.cameras.length : Int) d.activeCameraIndex valueChanged
        cameraView := v } := by
  cases valueChanged with
  | none => exact ⟨d.cameraView, rfl⟩
  | some value =>
    obtain ⟨v, hv⟩ := publicSetActiveCamera_eq P d value
    simp only [sliderValueChanged, sliderActiveFrame]
    by_cases hr : value < 0 ∨ value ≥ (d.cameras.length : Int)
    · rw [if_pos hr] at hv
      have hno : ¬ (0 ≤ value ∧ value < (d.cameras.length : Int)) := by omega
      rw [if_neg hno]
      exact ⟨d.cameraView, hv⟩
    · rw [if_neg hr] at hv
      have hyes : 0 ≤ value ∧ value < (d.cameras.length : Int) := by omega
      rw [if_pos hyes]
      exact ⟨v, hv⟩

theorem mergeActiveFrame_eq (P : VtkMaptkCamera → Vec3 → Option Vec2) (d : MainWindowPrivate)
    (valueChanged : Option Int) :
    ∃ v, mergeActiveFrame P d valueChanged =
      some { d with
        activeCameraIndex :=
          mergedActiveFrame d.toolUpdateActiveFrame (d.cameras.length : Int)
            d.activeCameraIndex valueChanged
        toolUpdateActiveFrame := if 0 ≤ d.toolUpdateActiveFrame then -1 else d.toolUpdateActiveFrame
        cameraView := v } := by
  unfold mergeActiveFrame
  by_cases h0 : 0 ≤ d.toolUpdateActiveFrame
  · obtain ⟨v0, hs⟩ := sliderValueChanged_eq P d valueChanged
    rw [if_pos h0, hs, Option.some_bind]
    obtain ⟨v, hv⟩ := publicSetActiveCamera_eq P
      { d with
        activeCameraIndex :=
          sliderActiveFrame (d.cameras.length : Int) d.activeCameraIndex valueChanged
        cameraView := v0 } d.toolUpdateActiveFrame
    simp only at hv ⊢
    rw [hv]
    by_cases h1 : d.toolUpdateActiveFrame < (d.cameras.length : Int)
    · refine ⟨v, ?_⟩
      have hno : ¬ (d.toolUpdateActiveFrame < 0 ∨
          d.toolUpdateActiveFrame ≥ (d.cameras.length : Int)) := by omega
      have hyes : 0 ≤ d.toolUpdateActiveFrame ∧
          d.toolUpdateActiveFrame < (d.cameras.length : Int) := ⟨h0, h1⟩
      simp only [if_neg hno, if_pos h0, mergedActiveFrame, if_pos hyes, Option.map_some']
    · refine ⟨v0, ?_⟩
      have hyes : d.toolUpdateActiveFrame < 0 ∨
          d.toolUpdateActiveFrame ≥ (d.cameras.length : Int) := by omega
      have hno : ¬ (0 ≤ d.toolUpdateActiveFrame ∧
          d.toolUpdateActiveFrame < (d.cameras.length : Int)) := by omega
      simp only [if_pos hyes, if_pos h0, mergedActiveFrame, if_neg hno, Option.map_some']
  · refine ⟨d.cameraView, ?_⟩
    have hno : ¬ (0 ≤ d.toolUpdateActiveFrame ∧
        d.toolUpdateActiveFrame < (d.cameras.length : Int)) := by omega
    rw [if_neg h0, if_neg h0]
    simp only [mergedActiveFrame, if_neg hno, if_neg h0]

theorem mergedActiveFrame_range (staged count active : Int) (valueChanged : Option Int) :
    mergedActiveFrame staged count active valueChanged = active ∨
      (0 ≤ mergedActiveFrame staged count active valueChanged ∧
        mergedActiveFrame staged count active valueChanged < count) := by
  unfold mergedActiveFrame
  by_cases h : 0 ≤ staged ∧ staged < count
  · rw [if_pos h]; exact Or.inr h
  · rw [if_neg h]
    by_cases h0 : 0 ≤ staged
    · rw [if_pos h0]
      cases valueChanged with
      | none => exact Or.inl rfl
      | some value =>
        simp only [sliderActiveFrame]
        by_cases hv : 0 ≤ value ∧ value < count
        · rw [if_pos hv]; exact Or.inr hv
        · rw [if_neg hv]; exact Or.inl rfl
    · rw [if_neg h0]; exact Or.inl rfl

theorem refreshActiveCamera_eq (P : VtkMaptkCamera → Vec3 → Option Vec2) (d : MainWindowPrivate)
    (ha : d.cameras = [] ∨
      (0 ≤ d.activeCameraIndex ∧ d.activeCameraIndex < (d.cameras.length : Int))) :
    ∃ v, refreshActiveCamera P d = some { d with cameraView := v } := by
  unfold refreshActiveCamera
  by_cases hnil : d.cameras = []
  · refine ⟨d.cameraView, ?_⟩
    have : d.cameras.isEmpty = true := by rw [hnil]; rfl
    rw [if_pos this]
  · rcases ha with h | ⟨h0, h1⟩
    · exact absurd h hnil
    · obtain ⟨v, hv⟩ := setActiveCamera_eq P d d.activeCameraIndex h0 h1
      refine ⟨v, ?_⟩
      have : d.cameras.isEmpty = false := by
        cases hc : d.cameras with
        | nil => exact absurd hc hnil
        | cons _ _ => rfl
      simp only [this, Bool.false_eq_true, if_false, hv]

/-! ## The merge as a whole -/

theorem updateToolResults_eq (P : VtkMaptkCamera → Vec3 → Option Vec2) (d : MainWindowPrivate)
    (valueChanged : Option Int)
    (ha : (d.cameras = [] ∧ d.activeCameraIndex = -1) ∨
      (0 ≤ d.activeCameraIndex ∧ d.activeCameraIndex < (d.cameras.length : Int))) :
    ∃ cs v, MainWindow.updateToolResults P d valueChanged =
        some { d with
          toolUpdateCameras := none
          toolUpdateLandmarks := none
          toolUpdateTracks := none
          toolUpdateActiveFrame :=
            if 0 ≤ d.toolUpdateActiveFrame then -1 else d.toolUpdateActiveFrame
          cameras := cs
          landmarks := d.toolUpdateLandmarks.or d.landmarks
          tracks := d.toolUpdateTracks.or d.tracks
          activeCameraIndex :=
            mergedActiveFrame d.toolUpdateActiveFrame (d.cameras.length : Int)
              d.activeCameraIndex valueChanged
          cameraView := v } ∧
      cs.length = d.cameras.length ∧
      (d.toolUpdateCameras = none → cs = d.cameras) ∧
      ∀ (k : Nat) (cd : CameraData), d.cameras[k]? = some cd →
        ∃ c, cs[k]? = some { cd with camera := c } := by
  have hact : d.activeCameraIndex < 0 ∨ d.activeCameraIndex < (d.cameras.length : Int) := by
    rcases ha with ⟨_, h⟩ | ⟨_, h⟩
    · left; omega
    · right; exact h
  obtain ⟨cs, v1, hA, hlen, hnone, hsame⟩ := mergeCameras_eq P d hact
  obtain ⟨v2, hC⟩ := mergeTracks_eq P
    (mergeLandmarks { d with cameras := cs, cameraView := v1, toolUpdateCameras := none })
    (by rw [mergeLandmarks_eq]; simpa [hlen] using hact)
  obtain ⟨v3, hD⟩ := mergeActiveFrame_eq P
    { mergeLandmarks { d with cameras := cs, cameraView := v1, toolUpdateCameras := none } with
        tracks := (mergeLandmarks
          { d with cameras := cs, cameraView := v1, toolUpdateCameras := none }).toolUpdateTracks.or
            (mergeLandmarks
              { d with cameras := cs, cameraView := v1, toolUpdateCameras := none }).tracks
        toolUpdateTracks := none
        cameraView := v2 } valueChanged
  rw [mergeLandmarks_eq] at hC hD
  simp only at hC hD
  obtain ⟨v4, hE⟩ := refreshActiveCamera_eq P
    { d with
      toolUpdateCameras := none
      toolUpdateLandmarks := none
      toolUpdateTracks := none
      toolUpdateActiveFrame :=
        if 0 ≤ d.toolUpdateActiveFrame then -1 else d.toolUpdateActiveFrame
      cameras := cs
      landmarks := d.toolUpdateLandmarks.or d.landmarks
      tracks := d.toolUpdateTracks.or d.tracks
      activeCameraIndex :=
        mergedActiveFrame d.toolUpdateActiveFrame (cs.length : Int)
          d.activeCameraIndex valueChanged
      cameraView := v3 }
    (by
      simp only
      rcases mergedActiveFrame_range d.toolUpdateActiveFrame (cs.length : Int)
        d.activeCameraIndex valueChanged with hx | hx
      · rw [hx]
        rcases ha with ⟨hnil, _⟩ | h
        · left
          apply List.eq_nil_of_length_eq_zero
          rw [hlen, hnil]
          rfl
        · right
          rw [hlen]
          exact h
      · right
        exact hx)
  refine ⟨cs, v4, ?_, hlen, hnone, hsame⟩
  unfold MainWindow.updateToolResults
  rw [hA, Option.some_bind, mergeLandmarks_eq]
  simp only
  rw [hC, Option.some_bind, hD, Option.some_bind]
  simp only [hlen] at hE ⊢
  rw [hE]

/-! ## The invariant under every call -/

theorem valid_transfer (d d1 : MainWindowPrivate) (hv : Valid d)
    (hc : frameIds d1.cameras = frameIds d.cameras)
    (h1 : d1.orphanImages = d.orphanImages) (h2 : d1.orphanCameras = d.orphanCameras)
    (h3 : d1.activeCameraIndex = d.activeCameraIndex ∨
      (0 ≤ d1.activeCameraIndex ∧ d1.activeCameraIndex < (d.cameras.length : Int))) :
    Valid d1 := by
  have hl : d1.cameras.length = d.cameras.length := by
    have := congrArg List.length hc
    simpa [frameIds] using this
  obtain ⟨a1, a2, a3, a4, a5, a6⟩ := hv
  refine ⟨?_, ?_, ?_, ?_, ?_, ?_⟩
  · rw [h1, hl]; exact a1
  · rw [h2, hl]; exact a2
  · rw [h1]; exact a3
  · rw [h2]; exact a4
  · rw [hc, hl]; exact a5
  · rcases h3 with h3 | h3
    · rcases a6 with ⟨hnil, hm⟩ | h
      · left
        refine ⟨?_, by rw [h3]; exact hm⟩
        apply List.eq_nil_of_length_eq_zero
        rw [hl, hnil]
        rfl
      · right
        rw [h3, hl]
        exact h
    · right
      rw [hl]
      exact h3

theorem init_valid (tools : List AbstractTool) : Valid (MainWindowPrivate.init tools) := by
  refine ⟨?_, ?_, ?_, ?_, ?_, ?_⟩ <;> simp [MainWindowPrivate.init, frameIds]

theorem updateCameras_valid (P : VtkMaptkCamera → Vec3 → Option Vec2) (d : MainWindowPrivate)
    (cameras : CameraMap) (hv : Valid d) :
    ∃ d1, MainWindowPrivate.updateCameras P d cameras = some d1 ∧ Valid d1 ∧
      ∃ more, frameIds d1.cameras = frameIds d.cameras ++ more := by
  obtain ⟨cs, v, h1, h2, h3⟩ := updateCamerasLoop_eq P (d.cameras.length : Int) cameras d rfl
    (valid_active d hv)
  have hids := frameIds_of_sameButCamera d.cameras cs h2 h3
  refine ⟨_, h1, valid_transfer d _ hv hids rfl rfl (Or.inl rfl), [], by simp [hids]⟩

theorem publicSetActiveCamera_valid (P : VtkMaptkCamera → Vec3 → Option Vec2)
    (d : MainWindowPrivate) (id : Int) (hv : Valid d) :
    ∃ d1, MainWindow.setActiveCamera P d id = some d1 ∧ Valid d1 ∧
      ∃ more, frameIds d1.cameras = frameIds d.cameras ++ more := by
  obtain ⟨v, h⟩ := publicSetActiveCamera_eq P d id
  refine ⟨_, h, ?_, [], ?_⟩
  · by_cases hr : id < 0 ∨ id ≥ (d.cameras.length : Int)
    · rw [if_pos hr]; exact hv
    · rw [if_neg hr]
      exact valid_transfer d _ hv rfl rfl rfl (Or.inr (by simp only; omega))
  · by_cases hr : id < 0 ∨ id ≥ (d.cameras.length : Int)
    · rw [if_pos hr]; simp
    · rw [if_neg hr]; simp

theorem updateToolResults_valid (P : VtkMaptkCamera → Vec3 → Option Vec2)
    (d : MainWindowPrivate) (valueChanged : Option Int) (hv : Valid d) :
    ∃ d1, MainWindow.updateToolResults P d valueChanged = some d1 ∧ Valid d1 ∧
      ∃ more, frameIds d1.cameras = frameIds d.cameras ++ more := by
  obtain ⟨cs, v, h1, h2, _, h3⟩ := updateToolResults_eq P d valueChanged hv.2.2.2.2.2
  have hids := frameIds_of_sameButCamera d.cameras cs h2 h3
  refine ⟨_, h1, valid_transfer d _ hv hids rfl rfl ?_, [], by simp [hids]⟩
  simp only
  exact mergedActiveFrame_range _ _ _ _

theorem timerFires_valid (P : VtkMaptkCamera → Vec3 → Option Vec2)
    (d : MainWindowPrivate) (valueChanged : Option Int) (hv : Valid d) :
    ∃ d1, timerFires P d valueChanged = some d1 ∧ Valid d1 ∧
      ∃ more, frameIds d1.cameras = frameIds d.cameras ++ more := by
  unfold timerFires
  cases hp : d.pendingSingleShots with
  | zero => exact ⟨d, rfl, hv, [], by simp⟩
  | succ n =>
    exact updateToolResults_valid P { d with pendingSingleShots := n } valueChanged
      (valid_transfer d _ hv rfl rfl rfl (Or.inl rfl))

theorem setActiveTool_registry (d : MainWindowPrivate) (tool : Option Nat) :
    (MainWindowPrivate.setActiveTool d tool).cameras = d.cameras ∧
    (MainWindowPrivate.setActiveTool d tool).orphanImages = d.orphanImages ∧
    (MainWindowPrivate.setActiveTool d tool).orphanCameras = d.orphanCameras ∧
    (MainWindowPrivate.setActiveTool d tool).activeCameraIndex = d.activeCameraIndex :=
  ⟨rfl, rfl, rfl, rfl⟩

theorem executeTool_registry (d : MainWindowPrivate) (object : Nat) :
    (MainWindow.executeTool d object).cameras = d.cameras ∧
    (MainWindow.executeTool d object).orphanImages = d.orphanImages ∧
    (MainWindow.executeTool d object).orphanCameras = d.orphanCameras ∧
    (MainWindow.executeTool d object).activeCameraIndex = d.activeCameraIndex := by
  unfold MainWindow.executeTool
  split
  · exact ⟨rfl, rfl, rfl, rfl⟩
  · split
    · exact ⟨rfl, rfl, rfl, rfl⟩
    · simp only
      split
      · exact ⟨rfl, rfl, rfl, rfl⟩
      · split <;> exact ⟨rfl, rfl, rfl, rfl⟩

theorem acceptToolResults_registry (d : MainWindowPrivate) (data : ToolData) :
    (MainWindow.acceptToolResults d data).cameras = d.cameras ∧
    (MainWindow.acceptToolResults d data).orphanImages = d.orphanImages ∧
    (MainWindow.acceptToolResults d data).orphanCameras = d.orphanCameras ∧
    (MainWindow.acceptToolResults d data).activeCameraIndex = d.activeCameraIndex := by
  unfold MainWindow.acceptToolResults
  simp only
  split <;> split <;> first | exact ⟨rfl, rfl, rfl, rfl⟩ | (split <;> exact ⟨rfl, rfl, rfl, rfl⟩)

theorem acceptToolFinalResults_registry (d : MainWindowPrivate) :
    (MainWindow.acceptToolFinalResults d).cameras = d.cameras ∧
    (MainWindow.acceptToolFinalResults d).orphanImages = d.orphanImages ∧
    (MainWindow.acceptToolFinalResults d).orphanCameras = d.orphanCameras ∧
    (MainWindow.acceptToolFinalResults d).activeCameraIndex = d.activeCameraIndex := by
  unfold MainWindow.acceptToolFinalResults
  simp only
  split
  · exact ⟨rfl, rfl, rfl, rfl⟩
  · split
    · exact ⟨rfl, rfl, rfl, rfl⟩
    · exact acceptToolResults_registry d _

theorem valid_of_registry (d d1 : MainWindowPrivate) (hv : Valid d)
    (h : d1.cameras = d.cameras ∧ d1.orphanImages = d.orphanImages ∧
      d1.orphanCameras = d.orphanCameras ∧ d1.activeCameraIndex = d.activeCameraIndex) :
    Valid d1 ∧ ∃ more, frameIds d1.cameras = frameIds d.cameras ++ more :=
  ⟨valid_transfer d d1 hv (by rw [h.1]) h.2.1 h.2.2.1 (Or.inl h.2.2.2), [], by simp [h.1]⟩

theorem call_run_valid (P : VtkMaptkCamera → Vec3 → Option Vec2) (c : Call)
    (d : MainWindowPrivate) (hv : Valid d) :
    ∃ d1, Call.run P c d = some d1 ∧ Valid d1 ∧
      ∃ more, frameIds d1.cameras = frameIds d.cameras ++ more := by
  cases c with
  | addCamera camera => exact addCamera_valid P d camera hv
  | addImage imagePath => exact addImage_valid P d imagePath hv
  | addFrame camera imagePath => exact addFrame_valid P d camera imagePath hv
  | updateCameras cameras => exact updateCameras_valid P d cameras hv
  | setActiveCamera id => exact publicSetActiveCamera_valid P d id hv
  | executeTool object =>
    exact ⟨_, rfl, valid_of_registry d _ hv (executeTool_registry d object)⟩
  | acceptToolResults data =>
    exact ⟨_, rfl, valid_of_registry d _ hv (acceptToolResults_registry d data)⟩
  | acceptToolFinalResults =>
    exact ⟨_, rfl, valid_of_registry d _ hv (acceptToolFinalResults_registry d)⟩
  | updateToolResults valueChanged => exact updateToolResults_valid P d valueChanged hv
  | timerFires valueChanged => exact timerFires_valid P d valueChanged hv

theorem runCalls_valid (P : VtkMaptkCamera → Vec3 → Option Vec2) (calls : List Call) :
    ∀ d : MainWindowPrivate, Valid d →
      ∃ d1, runCalls P calls d = some d1 ∧ Valid d1 ∧
        ∃ more, frameIds d1.cameras = frameIds d.cameras ++ more := by
  induction calls with
  | nil => intro d hv; exact ⟨d, rfl, hv, [], by simp⟩
  | cons c rest ih =>
    intro d hv
    obtain ⟨d1, h1, hv1, m1, hm1⟩ := call_run_valid P c d hv
    obtain ⟨d2, h2, hv2, m2, hm2⟩ := ih d1 hv1
    refine ⟨d2, ?_, hv2, m1 ++ m2, ?_⟩
    · simp only [runCalls, h1, h2]
    · rw [hm2, hm1, List.append_assoc]

/-! ## Lists of paired frames -/

theorem pairedFrame_snoc_pose_ne (poses : List Pose) (paths : List String) (p : Pose) (k : Nat)
    (hk : k ≠ poses.length) :
    pairedFrame (poses ++ [p]) paths k = pairedFrame poses paths k := by
  unfold pairedFrame
  rcases Nat.lt_or_gt_of_ne hk with h | h
  · rw [List.getElem?_append_left h]
  · have h1 : (poses ++ [p])[k]? = none := List.getElem?_eq_none (by simp; omega)
    have h2 : poses[k]? = none := List.getElem?_eq_none (by omega)
    rw [h1, h2]

theorem pairedFrame_snoc_pose_eq (poses : List Pose) (paths : List String) (p : Pose) :
    pairedFrame (poses ++ [p]) paths poses.length =
      { pairedFrame poses paths poses.length with camera := some (VtkMaptkCamera.mk (some p)) } := by
  unfold pairedFrame
  simp

theorem pairedFrame_snoc_path_ne (poses : List Pose) (paths : List String) (s : String) (k : Nat)
    (hk : k ≠ paths.length) :
    pairedFrame poses (paths ++ [s]) k = pairedFrame poses paths k := by
  unfold pairedFrame
  rcases Nat.lt_or_gt_of_ne hk with h | h
  · rw [List.getElem?_append_left h]
  · have h1 : (paths ++ [s])[k]? = none := List.getElem?_eq_none (by simp; omega)
    have h2 : paths[k]? = none := List.getElem?_eq_none (by omega)
    rw [h1, h2]

theorem pairedFrame_snoc_path_eq (poses : List Pose) (paths : List String) (s : String) :
    pairedFrame poses (paths ++ [s]) paths.length =
      { pairedFrame poses paths paths.length with imagePath := s } := by
  unfold pairedFrame
  simp

theorem map_range_setFrameAt (n i : Nat) (f g : Nat → CameraData) (hi : i < n)
    (hne : ∀ k, k ≠ i → g k = f k) :
    setFrameAt ((List.range n).map f) (i : Int) (g i) = (List.range n).map g := by
  unfold setFrameAt
  apply List.ext_getElem?
  intro k
  simp only [Int.toNat_ofNat, List.getElem?_set, List.length_map, List.length_range,
    List.getElem?_map, List.getElem?_range]
  by_cases hk : i = k
  · subst hk
    simp [hi, List.getElem?_range]
  · by_cases hkn : k < n
    · simp [hk, List.getElem?_range, hkn, hne k (Ne.symm hk)]
    · have : (List.range n)[k]? = none := List.getElem?_eq_none (by simp; omega)
      simp [hk, this]

theorem map_range_snoc (n : Nat) (f g : Nat → CameraData) (hlt : ∀ k, k < n → g k = f k) :
    (List.range n).map f ++ [g n] = (List.range (n + 1)).map g := by
  rw [List.range_succ, List.map_append, List.map_singleton]
  congr 1
  apply List.map_congr_left
  intro k hk
  exact (hlt k (List.mem_range.mp hk)).symm

theorem frameAt_map_range (n k : Nat) (f : Nat → CameraData) (hk : k < n) :
    frameAt ((List.range n).map f) (k : Int) = some (f k) := by
  rw [frameAt_natCast]
  simp [List.getElem?_range, hk]

/-! ## Arrival of a camera -/

theorem paired_init (tools : List AbstractTool) : Paired (MainWindowPrivate.init tools) [] [] := by
  refine ⟨?_, ?_, ?_, ?_⟩ <;> simp [MainWindowPrivate.init]

theorem paired_addCamera (P : VtkMaptkCamera → Vec3 → Option Vec2) (d : MainWindowPrivate)
    (poses : List Pose) (paths : List String) (p : Pose) (h : Paired d poses paths) :
    ∃ d1, MainWindowPrivate.addCamera P d (some p) = some d1 ∧ Paired d1 (poses ++ [p]) paths := by
  obtain ⟨h1, h2, h3, h4⟩ := h
  have hlen : d.cameras.length = max poses.length paths.length := by rw [h1]; simp
  by_cases hcm : paths.length ≤ poses.length
  · -- no image waits: a new frame is appended
    have hq : d.orphanImages = [] := by
      rw [h2, Nat.sub_eq_zero_of_le hcm]; rfl
    have hmax : max poses.length paths.length = poses.length := max_eq_left hcm
    rw [addCamera_eq_addFrame P d (some p) hq]
    obtain ⟨v, hv⟩ := addFrame_eq P
      { d with orphanCameras := d.orphanCameras ++ [(d.cameras.length : Int)] } (some p) ""
    refine ⟨_, hv, ?_, ?_, ?_, ?_⟩
    · simp only [List.length_append, List.length_singleton, Option.map_some']
      have hmax1 : max (poses.length + 1) paths.length = poses.length + 1 :=
        max_eq_left (by omega)
      rw [hmax1, h1, hmax, ← map_range_snoc poses.length (pairedFrame poses paths)
        (pairedFrame (poses ++ [p]) paths)
        (fun k hk => pairedFrame_snoc_pose_ne poses paths p k (by omega))]
      congr 2
      rw [pairedFrame_snoc_pose_eq]
      unfold pairedFrame
      have : paths[poses.length]? = none := List.getElem?_eq_none hcm
      simp [this, hmax]
    · simp only [List.length_append, List.length_singleton, Option.isSome_some, if_true]
      have : paths.length - (poses.length + 1) = 0 := by omega
      rw [this]; rfl
    · simp only [List.length_append, List.length_singleton, Option.isSome_some, if_true]
      rw [h3, hlen, hmax]
      have : poses.length + 1 - paths.length = (poses.length - paths.length) + 1 := by omega
      rw [this, List.range'_concat, List.map_append]
      simp
      omega
    · right
      simp only [List.length_append, List.length_singleton]
      by_cases hl : d.cameras.length = 0
      · simp [hl]
      · simp only [hl, if_false]
        rcases h4 with h4 | h4
        · omega
        · push_cast; omega
  · -- the oldest waiting image gets the camera
    have hlt : poses.length < paths.length := Nat.lt_of_not_le hcm
    have hmax : max poses.length paths.length = paths.length := max_eq_right (le_of_lt hlt)
    have hq : d.orphanImages = (poses.length : Int) ::
        (List.range' (poses.length + 1) (paths.length - (poses.length + 1))).map
          (fun k : Nat => (k : Int)) := by
      rw [h2]
      have : paths.length - poses.length = (paths.length - (poses.length + 1)) + 1 := by omega
      rw [this, List.range'_succ]
      rfl
    have hcd : frameAt d.cameras (poses.length : Int) =
        some (pairedFrame poses paths poses.length) := by
      rw [h1, hmax]
      exact frameAt_map_range _ _ _ hlt
    obtain ⟨v, hv⟩ := addCamera_eq_pair P d (some p) _ _ _ hq hcd h4
    refine ⟨_, hv, ?_, ?_, ?_, ?_⟩
    · simp only [List.length_append, List.length_singleton]
      have hmax1 : max (poses.length + 1) paths.length = paths.length :=
        max_eq_right (by omega)
      rw [hmax1, h1, hmax, ← pairedFrame_snoc_pose_eq]
      exact map_range_setFrameAt paths.length poses.length (pairedFrame poses paths)
        (pairedFrame (poses ++ [p]) paths) hlt
        (fun k hk => pairedFrame_snoc_pose_ne poses paths p k hk)
    · simp only [List.length_append, List.length_singleton]
    · simp only [List.length_append, List.length_singleton]
      rw [h3]
      have e1 : poses.length - paths.length = 0 := by omega
      have e2 : poses.length + 1 - paths.length = 0 := by omega
      rw [e1, e2]
    · simpa [length_setFrameAt] using h4

/-! ## Arrival of an image; claim C1 -/

theorem paired_addImage (P : VtkMaptkCamera → Vec3 → Option Vec2) (d : MainWindowPrivate)
    (poses : List Pose) (paths : List String) (s : String) (h : Paired d poses paths) :
    ∃ d1, MainWindowPrivate.addImage P d s = some d1 ∧ Paired d1 poses (paths ++ [s]) := by
  obtain ⟨h1, h2, h3, h4⟩ := h
  have hlen : d.cameras.length = max poses.length paths.length := by rw [h1]; simp
  by_cases hcm : poses.length ≤ paths.length
  · -- no camera waits: a new frame is appended
    have hq : d.orphanCameras = [] := by
      rw [h3, Nat.sub_eq_zero_of_le hcm]; rfl
    have hmax : max poses.length paths.length = paths.length := max_eq_right hcm
    rw [addImage_eq_addFrame P d s hq]
    obtain ⟨v, hv⟩ := addFrame_eq P
      { d with orphanImages := d.orphanImages ++ [(d.cameras.length : Int)] } none s
    refine ⟨_, hv, ?_, ?_, ?_, ?_⟩
    · simp only [List.length_append, List.length_singleton, Option.map_none']
      have hmax1 : max poses.length (paths.length + 1) = paths.length + 1 :=
        max_eq_right (by omega)
      rw [hmax1, h1, hmax, ← map_range_snoc paths.length (pairedFrame poses paths)
        (pairedFrame poses (paths ++ [s]))
        (fun k hk => pairedFrame_snoc_path_ne poses paths s k (by omega))]
      congr 2
      rw [pairedFrame_snoc_path_eq]
      unfold pairedFrame
      have : poses[paths.length]? = none := List.getElem?_eq_none hcm
      simp [this, hmax]
    · simp only [List.length_append, List.length_singleton, Option.isSome_none,
        Bool.false_eq_true, if_false]
      rw [h2, hlen, hmax]
      have : paths.length + 1 - poses.length = (paths.length - poses.length) + 1 := by omega
      rw [this, List.range'_concat, List.map_append]
      simp
      omega
    · simp only [List.length_append, List.length_singleton, Option.isSome_none,
        Bool.false_eq_true, if_false]
      have : poses.length - (paths.length + 1) = 0 := by omega
      rw [this]; rfl
    · right
      simp only [List.length_append, List.length_singleton]
      by_cases hl : d.cameras.length = 0
      · simp [hl]
      · simp only [hl, if_false]
        rcases h4 with h4 | h4
        · omega
        · push_cast; omega
  · -- the oldest waiting camera gets the image
    have hlt : paths.length < poses.length := Nat.lt_of_not_le hcm
    have hmax : max poses.length paths.length = poses.length := max_eq_left (le_of_lt hlt)
    have hq : d.orphanCameras = (paths.length : Int) ::
        (List.range' (paths.length + 1) (poses.length - (paths.length + 1))).map
          (fun k : Nat => (k : Int)) := by
      rw [h3]
      have : poses.length - paths.length = (poses.length - (paths.length + 1)) + 1 := by omega
      rw [this, List.range'_succ]
      rfl
    have hcd : frameAt d.cameras (paths.length : Int) =
        some (pairedFrame poses paths paths.length) := by
      rw [h1, hmax]
      exact frameAt_map_range _ _ _ hlt
    obtain ⟨v, hv⟩ := addImage_eq_pair P d s _ _ _ hq hcd h4
    refine ⟨_, hv, ?_, ?_, ?_, ?_⟩
    · simp only [List.length_append, List.length_singleton]
      have hmax1 : max poses.length (paths.length + 1) = poses.length :=
        max_eq_left (by omega)
      rw [hmax1, h1, hmax, ← pairedFrame_snoc_path_eq]
      exact map_range_setFrameAt poses.length paths.length (pairedFrame poses paths)
        (pairedFrame poses (paths ++ [s])) hlt
        (fun k hk => pairedFrame_snoc_path_ne poses paths s k hk)
    · simp only [List.length_append, List.length_singleton]
      rw [h2]
      have e1 : paths.length - poses.length = 0 := by omega
      have e2 : paths.length + 1 - poses.length = 0 := by omega
      rw [e1, e2]
    · simp only [List.length_append, List.length_singleton]
    · simpa [length_setFrameAt] using h4

theorem paired_runCalls (P : VtkMaptkCamera → Vec3 → Option Vec2) (arrivals : List Arrival) :
    ∀ (d : MainWindowPrivate) (poses : List Pose) (paths : List String), Paired d poses paths →
      ∃ d1, runCalls P (arrivals.map Arrival.toCall) d = some d1 ∧
        Paired d1 (poses ++ arrivedPoses arrivals) (paths ++ arrivedPaths arrivals) := by
  induction arrivals with
  | nil =>
    intro d poses paths h
    exact ⟨d, rfl, by simpa [arrivedPoses, arrivedPaths] using h⟩
  | cons a rest ih =>
    intro d poses paths h
    cases a with
    | camera p =>
      obtain ⟨d1, e1, h1⟩ := paired_addCamera P d poses paths p h
      obtain ⟨d2, e2, h2⟩ := ih d1 (poses ++ [p]) paths h1
      refine ⟨d2, ?_, ?_⟩
      · simp only [List.map_cons, runCalls, Arrival.toCall, Call.run, e1, e2]
      · simpa [arrivedPoses, arrivedPaths] using h2
    | image s =>
      obtain ⟨d1, e1, h1⟩ := paired_addImage P d poses paths s h
      obtain ⟨d2, e2, h2⟩ := ih d1 poses (paths ++ [s]) h1
      refine ⟨d2, ?_, ?_⟩
      · simp only [List.map_cons, runCalls, Arrival.toCall, Call.run, e1, e2]
      · simpa [arrivedPoses, arrivedPaths] using h2

/-- Claim C1. From the empty registry, any sequence of `addCamera` and `addImage`
calls succeeds and leaves exactly `max c m` frames (`c` camera calls, `m` image
calls); the frame at position `k` has id `k`, holds the `k`-th pose passed to
`addCamera` when there is one (no camera otherwise) and the `k`-th path passed
to `addImage` when there is one (the empty path otherwise). -/
theorem arrivals_pair_in_order (P : VtkMaptkCamera → Vec3 → Option Vec2)
    (tools : List AbstractTool) (arrivals : List Arrival) :
    ∃ d, runCalls P (arrivals.map Arrival.toCall) (MainWindowPrivate.init tools) = some d ∧
      d.cameras.length = max (arrivedPoses arrivals).length (arrivedPaths arrivals).length ∧
      d.cameras =
        (List.range (max (arrivedPoses arrivals).length (arrivedPaths arrivals).length)).map
          (pairedFrame (arrivedPoses arrivals) (arrivedPaths arrivals)) := by
  obtain ⟨d, e, h⟩ := paired_runCalls P arrivals (MainWindowPrivate.init tools) [] []
    (paired_init tools)
  simp only [List.nil_append] at h
  exact ⟨d, e, by rw [h.1]; simp, h.1⟩

/-! ## Claims C2, C4, C7, C8, C9 -/

/-- Claim C2. From the empty registry every sequence of calls (the frame additions
`addCamera`, `addImage`, `addFrame`, the bulk update `updateCameras`, and every
other call of the window) succeeds and leaves the frame at position `i` with
id `i`: the ids are `0 .. N-1` in order.  Every further call keeps the ids of
the existing frames, in place, and only appends ids: no frame is removed or
renumbered. -/
theorem frame_ids_are_positions (P : VtkMaptkCamera → Vec3 → Option Vec2)
    (tools : List AbstractTool) (calls : List Call) :
    ∃ d, runCalls P calls (MainWindowPrivate.init tools) = some d ∧
      frameIds d.cameras = (List.range d.cameras.length).map (fun k : Nat => (k : Int)) ∧
      ∀ c : Call, ∃ d1 more, Call.run P c d = some d1 ∧
        frameIds d1.cameras = frameIds d.cameras ++ more := by
  obtain ⟨d, e, hv, _⟩ := runCalls_valid P calls (MainWindowPrivate.init tools) (init_valid tools)
  refine ⟨d, e, hv.2.2.2.2.1, ?_⟩
  intro c
  obtain ⟨d1, e1, _, more, hm⟩ := call_run_valid P c d hv
  exact ⟨d1, more, e1, hm⟩

/-- Claim C4. `addFrame` always succeeds and appends exactly one frame, whose id is
the former frame count and which carries the given pose and path; the frames
that existed are unchanged.  With a pose the orphan-image queue is empty
afterwards and the orphan-camera queue is unchanged; without a pose the
orphan-camera queue is empty afterwards and the orphan-image queue is
unchanged. -/
theorem addFrame_appends_one_frame (P : VtkMaptkCamera → Vec3 → Option Vec2)
    (d : MainWindowPrivate) (camera : Option Pose) (imagePath : String) :
    ∃ d1, MainWindowPrivate.addFrame P d camera imagePath = some d1 ∧
      d1.cameras = d.cameras ++
        [{ id := (d.cameras.length : Int)
           camera := camera.map (fun c => VtkMaptkCamera.mk (some c))
           imagePath := imagePath
           depthMapPath := "" }] ∧
      d1.orphanImages = (if camera.isSome then [] else d.orphanImages) ∧
      d1.orphanCameras = (if camera.isSome then d.orphanCameras else []) := by
  obtain ⟨v, hv⟩ := addFrame_eq P d camera imagePath
  exact ⟨_, hv, rfl, rfl, rfl⟩

/-- Claim C7. From the initial state every sequence of calls (frame additions,
`updateCameras`, requests `setActiveCamera` with any integer, updates of a
tool with any staged active frame, completions and merges) succeeds and
reaches a state whose active frame index is `-1` or a position of a frame. -/
theorem active_index_in_range (P : VtkMaptkCamera → Vec3 → Option Vec2)
    (tools : List AbstractTool) (calls : List Call) :
    ∃ d, runCalls P calls (MainWindowPrivate.init tools) = some d ∧
      (d.activeCameraIndex = -1 ∨
        (0 ≤ d.activeCameraIndex ∧ d.activeCameraIndex < (d.cameras.length : Int))) := by
  obtain ⟨d, e, hv, _⟩ := runCalls_valid P calls (MainWindowPrivate.init tools) (init_valid tools)
  refine ⟨d, e, ?_⟩
  rcases hv.2.2.2.2.2 with ⟨_, h⟩ | h
  · exact Or.inl h
  · exact Or.inr h

/-- Claim C8. The public slot `setActiveCamera` returns the state it was given, whole,
when the id is negative or not below the frame count; for an id in range it
succeeds, the active index becomes the id, and only the camera view is
recomputed besides. -/
theorem setActiveCamera_rejects_invalid (P : VtkMaptkCamera → Vec3 → Option Vec2)
    (d : MainWindowPrivate) (id : Int) :
    ∃ v, MainWindow.setActiveCamera P d id =
      some (if id < 0 ∨ id ≥ (d.cameras.length : Int) then d
        else { d with activeCameraIndex := id, cameraView := v }) :=
  publicSetActiveCamera_eq P d id

/-- Claim C9. While a tool is active, `executeTool` returns the state it was given,
whole: the active tool, every tool (inputs, count of `execute()` calls), the
scene and the staged output are as before.  Without an active tool, a tool
whose `execute()` answers true becomes the active tool, after one call of
`execute()` on it. -/
theorem executeTool_rejected_while_running (d : MainWindowPrivate) (object : Nat) :
    (d.activeTool.isSome → MainWindow.executeTool d object = d) ∧
    (∀ a : AbstractTool, d.activeTool = none → d.tools[object]? = some a →
      a.executeResult = true →
        (MainWindow.executeTool d object).activeTool = some object ∧
        ((MainWindow.executeTool d object).tools[object]?).map (fun t => t.executeCalls) =
          some (a.executeCalls + 1)) := by
  constructor
  · intro h
    unfold MainWindow.executeTool
    cases ht : d.tools[object]? with
    | none => rfl
    | some a =>
      cases hat : d.activeTool with
      | none => rw [hat] at h; cases h
      | some t => rfl
  · intro a hnone ha hex
    have hlt : object < d.tools.length := (List.getElem?_eq_some_iff.mp ha).1
    have h1 : (MainWindowPrivate.setActiveTool d (some object)).tools[object]? =
        some { a with enabled := false } := by
      simp [MainWindowPrivate.setActiveTool, List.getElem?_map, ha]
    unfold MainWindow.executeTool
    simp only [ha, hnone, h1, startTool, hex, if_true]
    constructor
    · rfl
    · simp [MainWindowPrivate.setActiveTool, hlt]

/-- An instance of `executeTool_rejected_while_running`: the landmark tool is
started from the initial state and becomes the active tool; a second start,
while it runs, returns the state unchanged. -/
theorem executeTool_rejected_while_running_instance :
    (MainWindow.executeTool (MainWindowPrivate.init [landmarkTool]) 0).activeTool = some 0 ∧
    runningLandmarkTool.activeTool.isSome ∧
    MainWindow.executeTool runningLandmarkTool 0 = runningLandmarkTool :=
  ⟨((executeTool_rejected_while_running (MainWindowPrivate.init [landmarkTool]) 0).2
      landmarkTool rfl rfl rfl).1,
    rfl,
    (executeTool_rejected_while_running runningLandmarkTool 0).1 rfl⟩

/-! ## Cameras arriving after orphan images -/

theorem frameAt_setFrameAt_eq (cs : List CameraData) (i : Int) (x : CameraData)
    (h0 : 0 ≤ i) (h1 : i < (cs.length : Int)) :
    frameAt (setFrameAt cs i x) i = some x := by
  have hlt : i.toNat < cs.length := by omega
  simp [frameAt, setFrameAt, h0, List.getElem?_set, hlt]

theorem frameAt_setFrameAt_ne (cs : List CameraData) (i j : Int) (x : CameraData)
    (h0 : 0 ≤ i) (hne : j ≠ i) :
    frameAt (setFrameAt cs i x) j = frameAt cs j := by
  unfold frameAt setFrameAt
  by_cases hj : 0 ≤ j
  · have : i.toNat ≠ j.toNat := by omega
    simp [hj, List.getElem?_set, this]
  · simp [hj]

theorem frameAt_append_left (cs : List CameraData) (x : CameraData) (i : Int)
    (h1 : i < (cs.length : Int)) :
    frameAt (cs ++ [x]) i = frameAt cs i := by
  unfold frameAt
  by_cases hi : 0 ≤ i
  · have : i.toNat < cs.length := by omega
    simp [hi, List.getElem?_append_left this]
  · simp [hi]

theorem late_calls_aux (P : VtkMaptkCamera → Vec3 → Option Vec2) (calls : List LateCall) :
    ∀ d : MainWindowPrivate, Valid d →
      (latePoses calls).length ≤ d.orphanImages.length →
      ∃ d1, runCalls P (calls.map LateCall.toCall) d = some d1 ∧ Valid d1 ∧
        d1.orphanImages = d.orphanImages.drop (latePoses calls).length ∧
        (∀ i : Int, i < (d.cameras.length : Int) →
          i ∉ d.orphanImages.take (latePoses calls).length →
          frameAt d1.cameras i = frameAt d.cameras i) ∧
        ∀ (j : Nat) (i : Int) (p : Pose), d.orphanImages[j]? = some i →
          (latePoses calls)[j]? = some p →
          ∃ cd, frameAt d.cameras i = some cd ∧
            frameAt d1.cameras i =
              some { cd with camera := some (VtkMaptkCamera.mk (some p)) } := by
  induction calls with
  | nil =>
    intro d hv _
    refine ⟨d, rfl, hv, by simp [latePoses], fun _ _ _ => rfl, ?_⟩
    intro j i p _ hp
    simp [latePoses] at hp
  | cons c rest ih =>
    intro d hv hk
    cases c with
    | frame path =>
      simp only [latePoses] at hk ⊢
      obtain ⟨h1, h2, h3, h4, h5, h6⟩ := hv
      obtain ⟨d0, e0, v0, c0, q0, _⟩ := addFrame_valid_of P d none path
        (fun i hi => ⟨(h1 i hi).1, le_of_lt (h1 i hi).2⟩)
        (fun i hi => ⟨(h2 i hi).1, le_of_lt (h2 i hi).2⟩) h3 h4 h5 h6
      simp only [Option.isSome_none, Bool.false_eq_true, if_false] at q0
      obtain ⟨d1, e1, v1, q1, b1, m1⟩ := ih d0 v0 (by rw [q0]; exact hk)
      refine ⟨d1, ?_, v1, by rw [q1, q0], ?_, ?_⟩
      · simp only [List.map_cons, runCalls, LateCall.toCall, Call.run, e0, e1]
      · intro i hi hni
        rw [b1 i (by rw [c0]; simp; omega) (by rw [q0]; exact hni), c0]
        exact frameAt_append_left _ _ _ hi
      · intro j i p hj hp
        obtain ⟨cd, hcd, hcd1⟩ := m1 j i p (by rw [q0]; exact hj) hp
        have hi := h1 i (List.getElem?_mem hj)
        rw [c0, frameAt_append_left _ _ _ hi.2] at hcd
        exact ⟨cd, hcd, hcd1⟩
    | camera p0 =>
      simp only [latePoses, List.length_cons] at hk ⊢
      have hact := valid_active d hv
      cases hq : d.orphanImages with
      | nil => rw [hq] at hk; simp at hk
      | cons i0 q =>
        have hi0 := hv.1 i0 (by simp [hq])
        have hnd : i0 ∉ q ∧ q.Nodup := by
          have := hv.2.2.1
          rw [hq] at this
          exact List.nodup_cons.mp this
        obtain ⟨cd0, hcd0⟩ := frameAt_of_lt d.cameras i0 hi0.1 hi0.2
        obtain ⟨v, e0⟩ := addCamera_eq_pair P d (some p0) i0 q cd0 hq hcd0 hact
        obtain ⟨d0, e0', v0, _⟩ := addCamera_valid P d (some p0) hv
        have hd0 : d0 = _ := Option.some.inj (e0'.symm.trans e0)
        rw [hd0] at v0
        obtain ⟨d1, e1, v1, q1, b1, m1⟩ := ih _ v0 (by
          rw [hq] at hk
          simp only [List.length_cons] at hk
          simpa using hk)
        simp only at q1 b1 m1
        refine ⟨d1, ?_, v1, by rw [q1]; simp, ?_, ?_⟩
        · simp only [List.map_cons, runCalls, LateCall.toCall, Call.run, e0, e1]
        · intro i hi hni
          simp only [List.take_succ_cons, List.mem_cons, not_or] at hni
          rw [b1 i (by simpa [length_setFrameAt] using hi) hni.2]
          exact frameAt_setFrameAt_ne _ _ _ _ hi0.1 hni.1
        · intro j i p hj hp
          cases j with
          | zero =>
            simp only [List.getElem?_cons_zero, Option.some.injEq] at hj hp
            subst hj
            subst hp
            refine ⟨cd0, hcd0, ?_⟩
            rw [b1 i0 (by simpa [length_setFrameAt] using hi0.2)
              (fun hmem => hnd.1 (List.mem_of_mem_take hmem))]
            exact frameAt_setFrameAt_eq _ _ _ hi0.1 hi0.2
          | succ j1 =>
            simp only [List.getElem?_cons_succ] at hj hp
            obtain ⟨cd, hcd, hcd1⟩ := m1 j1 i p hj hp
            have hne : i ≠ i0 := by
              intro h
              subst h
              exact hnd.1 (List.getElem?_mem hj)
            rw [frameAt_setFrameAt_ne _ _ _ _ hi0.1 hne] at hcd
            exact ⟨cd, hcd, hcd1⟩

/-! ## Bursts of tool updates -/

theorem acceptToolResults_running (d : MainWindowPrivate) (t : Nat) (a : AbstractTool)
    (data : ToolData) (hrun : d.activeTool = some t) (ha : d.tools[t]? = some a) :
    MainWindow.acceptToolResults d data =
      { stageOutputs d a.outputs data with
        pendingSingleShots :=
          if stagingEmpty d = true then d.pendingSingleShots + 1 else d.pendingSingleShots } := by
  unfold MainWindow.acceptToolResults stagingEmpty
  simp only [hrun, ha]
  split <;> rfl

theorem stagingEmpty_stageOutputs (d : MainWindowPrivate) (outputs : Outputs) (data : ToolData)
    (n : Nat) (h : stagesSomething outputs data = true) :
    stagingEmpty { stageOutputs d outputs data with pendingSingleShots := n } = false := by
  rcases outputs with ⟨oc, ol, ot, oa⟩
  rcases data with ⟨dc, dl, dt, da⟩
  unfold stagesSomething at h
  unfold stagingEmpty stageOutputs
  simp only [Bool.or_eq_true, Bool.and_eq_true, decide_eq_true_eq] at h
  simp only
  rcases h with ((h | h) | h) | h
  · obtain ⟨h1, h2⟩ := h
    subst h1
    cases dc with
    | none => cases h2
    | some c => simp
  · obtain ⟨h1, h2⟩ := h
    subst h1
    cases dl with
    | none => cases h2
    | some c => simp
  · obtain ⟨h1, h2⟩ := h
    subst h1
    cases dt with
    | none => cases h2
    | some c => simp
  · obtain ⟨h1, h2⟩ := h
    subst h1
    have : ¬ staticCastInt da < 0 := by omega
    simp [this]

theorem stageOutputs_twice (d : MainWindowPrivate) (o1 o2 : Outputs) (x y : ToolData) (n : Nat) :
    stageOutputs { stageOutputs d o1 x with pendingSingleShots := n } o2 y =
      { stageOutputs d o2 y with pendingSingleShots := n } := rfl

theorem acceptAll_staged (t : Nat) (a : AbstractTool) (datas : List ToolData) :
    ∀ (d : MainWindowPrivate) (x last : ToolData) (n : Nat),
      d.activeTool = some t → d.tools[t]? = some a →
      stagesSomething a.outputs x = true →
      (∀ data ∈ datas, stagesSomething a.outputs data = true) →
      acceptAll { stageOutputs d a.outputs x with pendingSingleShots := n } (datas ++ [last]) =
        { stageOutputs d a.outputs last with pendingSingleShots := n } := by
  induction datas with
  | nil =>
    intro d x last n hrun ha hx _
    have hrun1 : ({ stageOutputs d a.outputs x with pendingSingleShots := n } :
        MainWindowPrivate).activeTool = some t := hrun
    have ha1 : ({ stageOutputs d a.outputs x with pendingSingleShots := n } :
        MainWindowPrivate).tools[t]? = some a := ha
    simp only [List.nil_append, acceptAll]
    rw [acceptToolResults_running _ t a last hrun1 ha1, stagingEmpty_stageOutputs d _ x n hx]
    rfl
  | cons y rest ih =>
    intro d x last n hrun ha hx hall
    have hrun1 : ({ stageOutputs d a.outputs x with pendingSingleShots := n } :
        MainWindowPrivate).activeTool = some t := hrun
    have ha1 : ({ stageOutputs d a.outputs x with pendingSingleShots := n } :
        MainWindowPrivate).tools[t]? = some a := ha
    simp only [List.cons_append, acceptAll]
    rw [acceptToolResults_running _ t a y hrun1 ha1, stagingEmpty_stageOutputs d _ x n hx]
    simp only [Bool.false_eq_true, if_false]
    rw [stageOutputs_twice]
    exact ih d y last n hrun ha (hall y (by simp))
      (fun data hd => hall data (List.mem_cons_of_mem _ hd))

theorem acceptAll_burst (d : MainWindowPrivate) (t : Nat) (a : AbstractTool)
    (datas : List ToolData) (last : ToolData)
    (hrun : d.activeTool = some t) (ha : d.tools[t]? = some a)
    (hempty : stagingEmpty d = true)
    (hstage : ∀ data ∈ datas, stagesSomething a.outputs data = true) :
    acceptAll d (datas ++ [last]) =
      { stageOutputs d a.outputs last with pendingSingleShots := d.pendingSingleShots + 1 } := by
  cases datas with
  | nil =>
    simp only [List.nil_append, acceptAll]
    rw [acceptToolResults_running d t a last hrun ha, if_pos hempty]
  | cons x rest =>
    simp only [List.cons_append, acceptAll]
    rw [acceptToolResults_running d t a x hrun ha, if_pos hempty]
    exact acceptAll_staged t a rest d x last _ hrun ha (hstage x (by simp))
      (fun data hd => hstage data (List.mem_cons_of_mem _ hd))

/-! ## Claims C3, C5, C6, C10 -/

theorem twoOrphanImages_reached :
    runCalls noProjection [Call.addImage "a.png", Call.addImage "b.png"]
      (MainWindowPrivate.init []) = some twoOrphanImages := rfl

theorem twoOrphanImages_valid : Valid twoOrphanImages := by
  unfold Valid
  decide

/-- Claim C3 fails as stated: an image arrives and is queued as an orphan
(frame 0), a frame is then added directly with a pose (frame 1), and the camera
that arrives next through `addCamera` is not stored in frame 0, which holds
the orphan image, but in a new frame 2. -/
theorem direct_frame_with_pose_breaks_pairing :
    ∃ d, runCalls noProjection
        [Call.addImage "a.png", Call.addFrame (some 7) "x.png", Call.addCamera (some 1)]
        (MainWindowPrivate.init []) = some d ∧
      d.cameras =
        [{ id := 0, camera := none, imagePath := "a.png", depthMapPath := "" },
         { id := 1, camera := some (VtkMaptkCamera.mk (some 7)), imagePath := "x.png",
           depthMapPath := "" },
         { id := 2, camera := some (VtkMaptkCamera.mk (some 1)), imagePath := "",
           depthMapPath := "" }] :=
  ⟨_, rfl, rfl⟩

/-- Claim C3, amended. In a state that satisfies the registry invariant, let cameras
arrive through `addCamera`, interleaved in any way with `addFrame` calls that
carry no pose, no more cameras than images wait.  All calls succeed, the `j`-th
camera is stored in the frame of the `j`-th waiting image (the rest of that
frame is kept), and the images that are still unpaired stay queued in order. -/
theorem late_cameras_pair_in_order (P : VtkMaptkCamera → Vec3 → Option Vec2)
    (d : MainWindowPrivate) (calls : List LateCall) (hv : Valid d)
    (hk : (latePoses calls).length ≤ d.orphanImages.length) :
    ∃ d1, runCalls P (calls.map LateCall.toCall) d = some d1 ∧
      d1.orphanImages = d.orphanImages.drop (latePoses calls).length ∧
      ∀ (j : Nat) (i : Int) (p : Pose), d.orphanImages[j]? = some i →
        (latePoses calls)[j]? = some p →
        ∃ cd, frameAt d.cameras i = some cd ∧
          frameAt d1.cameras i = some { cd with camera := some (VtkMaptkCamera.mk (some p)) } := by
  obtain ⟨d1, e1, _, q1, _, m1⟩ := late_calls_aux P calls d hv hk
  exact ⟨d1, e1, q1, m1⟩

/-- An instance of `late_cameras_pair_in_order`: two images wait, a frame without a
pose is added, then two cameras arrive. -/
theorem late_cameras_pair_in_order_witness :
    Valid twoOrphanImages ∧
    (latePoses [LateCall.frame "x.png", LateCall.camera 1, LateCall.camera 2]).length ≤
      twoOrphanImages.orphanImages.length ∧
    ∃ d1, runCalls noProjection
        ([LateCall.frame "x.png", LateCall.camera 1, LateCall.camera 2].map LateCall.toCall)
        twoOrphanImages = some d1 ∧
      d1.orphanImages = twoOrphanImages.orphanImages.drop
        (latePoses [LateCall.frame "x.png", LateCall.camera 1, LateCall.camera 2]).length ∧
      ∀ (j : Nat) (i : Int) (p : Pose), twoOrphanImages.orphanImages[j]? = some i →
        (latePoses [LateCall.frame "x.png", LateCall.camera 1, LateCall.camera 2])[j]? = some p →
        ∃ cd, frameAt twoOrphanImages.cameras i = some cd ∧
          frameAt d1.cameras i = some { cd with camera := some (VtkMaptkCamera.mk (some p)) } :=
  ⟨by unfold Valid; decide, by decide,
    late_cameras_pair_in_order noProjection twoOrphanImages
      [LateCall.frame "x.png", LateCall.camera 1, LateCall.camera 2]
      (by unfold Valid; decide) (by decide)⟩

/-- Claim C5 fails as stated: with two images waiting, `addCamera` pairs
its pose with the first and the orphan-image queue still holds the second. -/
theorem addCamera_keeps_later_orphans :
    ∃ d d1, runCalls noProjection [Call.addImage "a.png", Call.addImage "b.png"]
        (MainWindowPrivate.init []) = some d ∧
      d.orphanImages = [0, 1] ∧
      MainWindowPrivate.addCamera noProjection d (some 1) = some d1 ∧
      d1.orphanImages = [1] ∧ d1.orphanImages ≠ [] :=
  ⟨_, _, rfl, rfl, rfl, rfl, by decide⟩

/-- Claim C5, amended. When the orphan-image queue is not empty on entry, `addCamera`
succeeds and removes exactly the oldest id from the queue: the images behind it
stay queued in order, and the queue is empty afterwards exactly when one image
was waiting. -/
theorem addCamera_dequeues_oldest_image (P : VtkMaptkCamera → Vec3 → Option Vec2)
    (d : MainWindowPrivate) (camera : Option Pose) (i : Int) (rest : List Int)
    (hv : Valid d) (hq : d.orphanImages = i :: rest) :
    ∃ d1, MainWindowPrivate.addCamera P d camera = some d1 ∧ d1.orphanImages = rest ∧
      (d1.orphanImages = [] ↔ d.orphanImages.length = 1) := by
  have hi := hv.1 i (by simp [hq])
  obtain ⟨cd, hcd⟩ := frameAt_of_lt d.cameras i hi.1 hi.2
  obtain ⟨v, e⟩ := addCamera_eq_pair P d camera i rest cd hq hcd (valid_active d hv)
  refine ⟨_, e, rfl, ?_⟩
  simp only [hq, List.length_cons]
  constructor
  · intro h; rw [h]; rfl
  · intro h
    apply List.eq_nil_of_length_eq_zero
    omega

/-- An instance of `addCamera_dequeues_oldest_image`: two images wait. -/
theorem addCamera_dequeues_oldest_image_witness :
    Valid twoOrphanImages ∧ twoOrphanImages.orphanImages = 0 :: [1] ∧
    ∃ d1, MainWindowPrivate.addCamera noProjection twoOrphanImages (some 1) = some d1 ∧
      d1.orphanImages = [1] ∧
      (d1.orphanImages = [] ↔ twoOrphanImages.orphanImages.length = 1) :=
  ⟨by unfold Valid; decide, rfl,
    addCamera_dequeues_oldest_image noProjection twoOrphanImages (some 1) 0 [1]
      (by unfold Valid; decide) rfl⟩

/-- Claim C6, the code at the failing input: the registry holds one frame without a
camera, and `updateCameras` is given the single entry `4294967296 ↦ pose 5`.
The id lies outside `[0, 1)`, yet frame 0 receives the pose, because the id is
converted to `int` before the range test. -/
theorem updateCameras_wide_id_reaches_frame :
    ∃ d d1, runCalls noProjection [Call.addImage "a.png"] (MainWindowPrivate.init []) = some d ∧
      d.cameras.map (fun cd => cd.camera) = [none] ∧
      MainWindowPrivate.updateCameras noProjection d [(4294967296, some 5)] = some d1 ∧
      d1.cameras.map (fun cd => cd.camera) = [some (VtkMaptkCamera.mk (some 5))] :=
  ⟨_, _, rfl, rfl, rfl, rfl⟩

/-- Claim C10 fails as stated: a tool that declares landmarks is running,
nothing is staged and no timer is armed; a first update carries no landmarks
and a second update carries some.  Two timers are armed, so two merges run. -/
theorem empty_update_arms_second_timer :
    runningLandmarkTool.activeTool = some 0 ∧
    stagingEmpty runningLandmarkTool = true ∧
    runningLandmarkTool.pendingSingleShots = 0 ∧
    (acceptAll runningLandmarkTool
      [landmarkUpdate none, landmarkUpdate (some [(1, (0, 0, 1))])]).pendingSingleShots = 2 :=
  ⟨rfl, rfl, rfl, rfl⟩

/-- Claim C10, amended. A tool is running, nothing is staged and no timer is armed.
After a burst of updates of which every one but the last stages at least one
value, exactly one timer is armed and the staging record holds, field by field,
what the last update wrote.  When the timer fires, the merge runs on exactly
that record and succeeds, whatever the frame slider reports during it; no timer
is left, so a further timer event does nothing. -/
theorem burst_runs_one_merge (P : VtkMaptkCamera → Vec3 → Option Vec2)
    (d : MainWindowPrivate) (t : Nat) (a : AbstractTool) (datas : List ToolData)
    (last : ToolData) (valueChanged later : Option Int) (hv : Valid d)
    (hrun : d.activeTool = some t) (ha : d.tools[t]? = some a)
    (hempty : stagingEmpty d = true) (hpend : d.pendingSingleShots = 0)
    (hstage : ∀ data ∈ datas, stagesSomething a.outputs data = true) :
    acceptAll d (datas ++ [last]) =
        { stageOutputs d a.outputs last with pendingSingleShots := 1 } ∧
      ∃ d2, timerFires P (acceptAll d (datas ++ [last])) valueChanged = some d2 ∧
        MainWindow.updateToolResults P (stageOutputs d a.outputs last) valueChanged = some d2 ∧
        d2.pendingSingleShots = 0 ∧
        timerFires P d2 later = some d2 := by
  have hall := acceptAll_burst d t a datas last hrun ha hempty hstage
  rw [hpend] at hall
  have hvs : Valid (stageOutputs d a.outputs last) :=
    valid_transfer d _ hv rfl rfl rfl (Or.inl rfl)
  obtain ⟨cs, v, e, _⟩ := updateToolResults_eq P (stageOutputs d a.outputs last) valueChanged
    hvs.2.2.2.2.2
  have hzero : ({ stageOutputs d a.outputs last with pendingSingleShots := 0 } :
      MainWindowPrivate) = stageOutputs d a.outputs last := by
    rcases d with ⟨at0, tools, tuaf, tuc, tul, tut, cameras, tracks, landmarks, aci, oi, oc,
      view, acc, ao, pss⟩
    simp only at hpend
    subst hpend
    rfl
  refine ⟨hall, _, ?_, e, ?_, ?_⟩
  · rw [hall]
    simp only [timerFires]
    rw [hzero, e]
  · exact hpend
  · simp only [timerFires]
    have : d.pendingSingleShots = 0 := hpend
    simp only [stageOutputs, this]

/-- An instance of `burst_runs_one_merge`: the landmark tool streams three landmark
sets, one after the other. -/
theorem burst_runs_one_merge_witness :
    Valid runningLandmarkTool ∧
    runningLandmarkTool.activeTool = some 0 ∧
    stagingEmpty runningLandmarkTool = true ∧
    runningLandmarkTool.pendingSingleShots = 0 ∧
    (∀ data ∈ [landmarkUpdate (some [(1, (0, 0, 1))]), landmarkUpdate (some [(1, (0, 0, 2))])],
      stagesSomething landmarkTool.outputs data = true) ∧
    (acceptAll runningLandmarkTool
          ([landmarkUpdate (some [(1, (0, 0, 1))]), landmarkUpdate (some [(1, (0, 0, 2))])] ++
            [landmarkUpdate (some [(1, (0, 0, 3))])]) =
        { stageOutputs runningLandmarkTool landmarkTool.outputs
            (landmarkUpdate (some [(1, (0, 0, 3))])) with pendingSingleShots := 1 } ∧
      ∃ d2, timerFires noProjection (acceptAll runningLandmarkTool
          ([landmarkUpdate (some [(1, (0, 0, 1))]), landmarkUpdate (some [(1, (0, 0, 2))])] ++
            [landmarkUpdate (some [(1, (0, 0, 3))])])) none = some d2 ∧
        MainWindow.updateToolResults noProjection
          (stageOutputs runningLandmarkTool landmarkTool.outputs
            (landmarkUpdate (some [(1, (0, 0, 3))]))) none = some d2 ∧
        d2.pendingSingleShots = 0 ∧
        timerFires noProjection d2 none = some d2) :=
  ⟨by unfold Valid; decide, rfl, rfl, rfl, by decide,
    burst_runs_one_merge noProjection runningLandmarkTool 0
      { landmarkTool with
        inputs :=
          { activeFrame := some (-1), imagePaths := some [], tracks := some none,
            cameras := some [], landmarks := some none }
        executeCalls := 1
        enabled := false }
      [landmarkUpdate (some [(1, (0, 0, 1))]), landmarkUpdate (some [(1, (0, 0, 2))])]
      (landmarkUpdate (some [(1, (0, 0, 3))])) none none
      (by unfold Valid; decide) rfl rfl rfl rfl (by decide)⟩

/-! ## The bulk camera update for ids that fit an int -/

theorem staticCastInt_of_int (x : Int) (h0 : -2147483648 ≤ x) (h1 : x < 2147483648) :
    staticCastInt x = x := by
  unfold staticCastInt
  rw [Int.emod_eq_of_lt (by omega) (by omega)]
  omega

theorem lookup_eq_none_of_not_mem (cams : CameraMap) (k : Int)
    (h : k ∉ cams.map Prod.fst) : cams.lookup k = none := by
  induction cams with
  | nil => rfl
  | cons e rest ih =>
    obtain ⟨a, b⟩ := e
    simp only [List.map_cons, List.mem_cons, not_or] at h
    have hne : (k == a) = false := by simpa using h.1
    simp only [List.lookup_cons, hne]
    exact ih h.2

theorem updatedCamera_cons_ne (first : Int) (second : Option Pose) (rest : CameraMap) (k : Int)
    (old : Option VtkMaptkCamera) (hne : k ≠ first) :
    updatedCamera ((first, second) :: rest) k old = updatedCamera rest k old := by
  have : (k == first) = false := by simpa using hne
  simp only [updatedCamera, List.lookup_cons, this]

theorem updatedCamera_cons_none (first : Int) (rest : CameraMap) (k : Int)
    (old : Option VtkMaptkCamera) (hnot : first ∉ rest.map Prod.fst) :
    updatedCamera ((first, none) :: rest) k old = updatedCamera rest k old := by
  by_cases hk : k = first
  · subst hk
    simp only [updatedCamera, List.lookup_cons, beq_self_eq_true,
      lookup_eq_none_of_not_mem rest k hnot]
  · exact updatedCamera_cons_ne first none rest k old hk

theorem updatedCamera_cons_some (first : Int) (pose : Pose) (rest : CameraMap)
    (old : Option VtkMaptkCamera) (hnot : first ∉ rest.map Prod.fst) :
    updatedCamera ((first, some pose) :: rest) first old =
      updatedCamera rest first (some (VtkMaptkCamera.mk (some pose))) := by
  simp only [updatedCamera, List.lookup_cons, beq_self_eq_true,
    lookup_eq_none_of_not_mem rest first hnot]

theorem updateCamerasLoop_of_int_ids (P : VtkMaptkCamera → Vec3 → Option Vec2) (n : Int)
    (cams : CameraMap) :
    ∀ d : MainWindowPrivate, n = (d.cameras.length : Int) →
      (d.activeCameraIndex < 0 ∨ d.activeCameraIndex < (d.cameras.length : Int)) →
      (cams.map Prod.fst).Nodup →
      (∀ e ∈ cams, -2147483648 ≤ e.1 ∧ e.1 < 2147483648) →
      ∃ cs v, updateCamerasLoop P n cams d = some { d with cameras := cs, cameraView := v } ∧
        cs.length = d.cameras.length ∧
        ∀ (k : Nat) (cd : CameraData), d.cameras[k]? = some cd →
          cs[k]? = some { cd with camera := updatedCamera cams (k : Int) cd.camera } := by
  induction cams with
  | nil =>
    intro d _ _ _ _
    exact ⟨d.cameras, d.cameraView, rfl, rfl, fun k cd hk => hk⟩
  | cons e rest ih =>
    intro d hn ha hnd hr
    obtain ⟨first, second⟩ := e
    have hnd1 : first ∉ rest.map Prod.fst ∧ (rest.map Prod.fst).Nodup := by
      simpa using hnd
    have hr1 : ∀ e ∈ rest, -2147483648 ≤ e.1 ∧ e.1 < 2147483648 :=
      fun e he => hr e (List.mem_cons_of_mem _ he)
    have hcast : staticCastInt first = first :=
      staticCastInt_of_int first (hr (first, second) (by simp)).1 (hr (first, second) (by simp)).2
    cases second with
    | none =>
      simp only [updateCamerasLoop]
      obtain ⟨cs, v, h1, h2, h3⟩ := ih d hn ha hnd1.2 hr1
      refine ⟨cs, v, h1, h2, ?_⟩
      intro k cd hk
      rw [h3 k cd hk, updatedCamera_cons_none first rest (k : Int) cd.camera hnd1.1]
    | some camera =>
      simp only [updateCamerasLoop, hcast]
      by_cases hrange : 0 ≤ first ∧ first < n
      · rw [if_pos hrange]
        obtain ⟨cd0, hcd0⟩ := frameAt_of_lt d.cameras first hrange.1 (hn ▸ hrange.2)
        have hcd0' : d.cameras[first.toNat]? = some cd0 := by
          simpa [frameAt, hrange.1] using hcd0
        simp only [hcd0]
        have key : ∀ d1 : MainWindowPrivate,
            d1.cameras = setFrameAt d.cameras first
              ({ cd0 with camera := some (VtkMaptkCamera.mk (some camera)) }) →
            (∃ cs v, updateCamerasLoop P n rest d1 =
                some { d1 with cameras := cs, cameraView := v } ∧
              cs.length = d1.cameras.length ∧
              ∀ (k : Nat) (cd : CameraData), d1.cameras[k]? = some cd →
                cs[k]? = some { cd with camera := updatedCamera rest (k : Int) cd.camera }) →
            ∃ cs, (∃ v, updateCamerasLoop P n rest d1 =
                some { d1 with cameras := cs, cameraView := v }) ∧
              cs.length = d.cameras.length ∧
              ∀ (k : Nat) (cd : CameraData), d.cameras[k]? = some cd →
                cs[k]? = some
                  { cd with
                    camera := updatedCamera ((first, some camera) :: rest) (k : Int) cd.camera } := by
          intro d1 hc ⟨cs, v, h1, h2, h3⟩
          refine ⟨cs, ⟨v, h1⟩, by rw [h2, hc, length_setFrameAt], ?_⟩
          intro k cd hk
          by_cases hkf : (k : Int) = first
          · have hk' : first.toNat = k := by omega
            subst hk'
            rw [hcd0'] at hk
            cases hk
            have hget : d1.cameras[first.toNat]? =
                some { cd0 with camera := some (VtkMaptkCamera.mk (some camera)) } := by
              rw [hc]
              have := frameAt_setFrameAt_eq d.cameras first
                ({ cd0 with camera := some (VtkMaptkCamera.mk (some camera)) }) hrange.1
                (hn ▸ hrange.2)
              simpa [frameAt, hrange.1] using this
            rw [h3 _ _ hget, hkf, updatedCamera_cons_some first camera rest cd0.camera hnd1.1]
          · have hget : d1.cameras[k]? = some cd := by
              rw [hc]
              have := frameAt_setFrameAt_ne d.cameras first (k : Int)
                ({ cd0 with camera := some (VtkMaptkCamera.mk (some camera)) }) hrange.1 hkf
              simpa [frameAt] using this.trans (by simpa [frameAt] using hk)
            rw [h3 _ _ hget, updatedCamera_cons_ne first (some camera) rest (k : Int)
              cd.camera hkf]
        split
        · obtain ⟨v, hv⟩ := updateCameraView_eq P
            { d with cameras := (setFrameAt d.cameras first
                ({ cd0 with camera := some (VtkMaptkCamera.mk (some camera)) })) }
            (by simpa [length_setFrameAt] using ha)
          rw [hv]
          obtain ⟨cs, ⟨v1, h1⟩, h2, h3⟩ := key
            { d with
              cameras := (setFrameAt d.cameras first
                ({ cd0 with camera := some (VtkMaptkCamera.mk (some camera)) }))
              cameraView := v } rfl
            (ih _ (by simpa [length_setFrameAt] using hn)
              (by simpa [length_setFrameAt] using ha) hnd1.2 hr1)
          exact ⟨cs, v1, h1, h2, h3⟩
        · obtain ⟨cs, ⟨v1, h1⟩, h2, h3⟩ := key
            { d with
              cameras := (setFrameAt d.cameras first
                ({ cd0 with camera := some (VtkMaptkCamera.mk (some camera)) })) } rfl
            (ih _ (by simpa [length_setFrameAt] using hn)
              (by simpa [length_setFrameAt] using ha) hnd1.2 hr1)
          exact ⟨cs, v1, h1, h2, h3⟩
      · rw [if_neg hrange]
        obtain ⟨cs, v, h1, h2, h3⟩ := ih d hn ha hnd1.2 hr1
        refine ⟨cs, v, h1, h2, ?_⟩
        intro k cd hk
        have hklt : k < d.cameras.length := (List.getElem?_eq_some_iff.mp hk).1
        have hne : (k : Int) ≠ first := by
          intro h
          apply hrange
          omega
        rw [h3 k cd hk, updatedCamera_cons_ne first (some camera) rest (k : Int) cd.camera hne]

theorem updateCameras_of_int_ids (P : VtkMaptkCamera → Vec3 → Option Vec2)
    (d : MainWindowPrivate) (cams : CameraMap)
    (ha : d.activeCameraIndex < 0 ∨ d.activeCameraIndex < (d.cameras.length : Int))
    (hnd : (cams.map Prod.fst).Nodup)
    (hr : ∀ e ∈ cams, -2147483648 ≤ e.1 ∧ e.1 < 2147483648) :
    ∃ cs v, MainWindowPrivate.updateCameras P d cams =
        some { d with cameras := cs, cameraView := v } ∧
      cs.length = d.cameras.length ∧
      ∀ (k : Nat) (cd : CameraData), d.cameras[k]? = some cd →
        cs[k]? = some { cd with camera := updatedCamera cams (k : Int) cd.camera } :=
  updateCamerasLoop_of_int_ids P (d.cameras.length : Int) cams d rfl ha hnd hr

/-! ## Runs of the camera view update -/

theorem viewOfFrame_count (P : VtkMaptkCamera → Vec3 → Option Vec2) (d : MainWindowPrivate)
    (cd : CameraData) :
    (viewOfFrame P d cd).updateCount = d.cameraView.updateCount + 1 := by
  rcases cd with ⟨id, cam, ip, dp⟩
  cases cam <;> rfl

theorem viewOfFrame_view_irrelevant (P : VtkMaptkCamera → Vec3 → Option Vec2)
    (d : MainWindowPrivate) (v : CameraView) (cd : CameraData) :
    (viewOfFrame P { d with cameraView := v } cd).landmarks = (viewOfFrame P d cd).landmarks ∧
      (viewOfFrame P { d with cameraView := v } cd).residuals = (viewOfFrame P d cd).residuals := by
  rcases cd with ⟨id, cam, ip, dp⟩
  cases cam <;> exact ⟨rfl, rfl⟩

theorem viewOfFrame_no_camera (P : VtkMaptkCamera → Vec3 → Option Vec2) (d : MainWindowPrivate)
    (cd : CameraData) (h : cd.camera = none) :
    (viewOfFrame P d cd).landmarks = [] ∧ (viewOfFrame P d cd).residuals = [] := by
  rcases cd with ⟨id, cam, ip, dp⟩
  cases h
  exact ⟨rfl, rfl⟩

theorem viewOfFrame_camera (P : VtkMaptkCamera → Vec3 → Option Vec2) (d : MainWindowPrivate)
    (cd : CameraData) (camera : VtkMaptkCamera) (h : cd.camera = some camera) :
    (viewOfFrame P d cd).landmarks =
        (projectLandmarks P camera (d.landmarks.getD []) ([], [])).1 ∧
      (viewOfFrame P d cd).residuals =
        collectResiduals d.activeCameraIndex
          (projectLandmarks P camera (d.landmarks.getD []) ([], [])).2 (d.tracks.getD []) := by
  rcases cd with ⟨id, cam, ip, dp⟩
  cases h
  rcases d with ⟨at0, tools, tuaf, tuc, tul, tut, cameras, tracks, landmarks, aci, oi, oc,
    view, acc, ao, pss⟩
  cases landmarks <;> cases tracks <;> exact ⟨rfl, rfl⟩

theorem updateCameraView_count (P : VtkMaptkCamera → Vec3 → Option Vec2) (d d1 : MainWindowPrivate)
    (h : MainWindowPrivate.updateCameraView P d = some d1) :
    d1.cameraView.updateCount = d.cameraView.updateCount + 1 := by
  unfold MainWindowPrivate.updateCameraView at h
  split at h
  · cases h; rfl
  · split at h
    · cases h
    · cases h
      exact viewOfFrame_count P d _

theorem setActiveCamera_count (P : VtkMaptkCamera → Vec3 → Option Vec2) (d d1 : MainWindowPrivate)
    (id : Int) (h : MainWindowPrivate.setActiveCamera P d id = some d1) :
    d1.cameraView.updateCount = d.cameraView.updateCount + 1 := by
  unfold MainWindowPrivate.setActiveCamera at h
  split at h
  · cases h
  · rename_i d2 h2
    split at h
    · cases h
    · cases h
      exact updateCameraView_count P { d with activeCameraIndex := id } _ h2

theorem publicSetActiveCamera_count (P : VtkMaptkCamera → Vec3 → Option Vec2)
    (d d1 : MainWindowPrivate) (id : Int) (h : MainWindow.setActiveCamera P d id = some d1) :
    d1.cameraView.updateCount =
      d.cameraView.updateCount + (if 0 ≤ id ∧ id < (d.cameras.length : Int) then 1 else 0) := by
  unfold MainWindow.setActiveCamera at h
  by_cases hr : id < 0 ∨ id ≥ (d.cameras.length : Int)
  · rw [if_pos hr] at h
    cases h
    rw [if_neg (by omega)]
    rfl
  · rw [if_neg hr] at h
    rw [if_pos (by omega)]
    exact setActiveCamera_count P d d1 id h

theorem mergeTracks_count (P : VtkMaptkCamera → Vec3 → Option Vec2) (d d1 : MainWindowPrivate)
    (h : mergeTracks P d = some d1) :
    d1.cameraView.updateCount =
      d.cameraView.updateCount + (if d.toolUpdateTracks.isSome then 1 else 0) := by
  rcases d with ⟨at0, tools, tuaf, tuc, tul, tut, cameras, tracks, landmarks, aci, oi, oc,
    view, acc, ao, pss⟩
  cases tut with
  | none => cases h; rfl
  | some tr =>
    simp only [mergeTracks, Option.map_eq_some'] at h
    obtain ⟨d2, h2, rfl⟩ := h
    exact updateCameraView_count P
      ⟨at0, tools, tuaf, tuc, tul, some tr, cameras, some tr, landmarks, aci, oi, oc,
        view, acc, ao, pss⟩ d2 h2

theorem sliderValueChanged_count (P : VtkMaptkCamera → Vec3 → Option Vec2)
    (d d1 : MainWindowPrivate) (valueChanged : Option Int)
    (h : sliderValueChanged P d valueChanged = some d1) :
    d1.cameraView.updateCount =
      d.cameraView.updateCount + sliderHits (d.cameras.length : Int) valueChanged := by
  cases valueChanged with
  | none => cases h; rfl
  | some value => exact publicSetActiveCamera_count P d d1 value h

theorem mergeActiveFrame_count (P : VtkMaptkCamera → Vec3 → Option Vec2)
    (d d1 : MainWindowPrivate) (valueChanged : Option Int)
    (h : mergeActiveFrame P d valueChanged = some d1) :
    d1.cameraView.updateCount =
      d.cameraView.updateCount +
        (if 0 ≤ d.toolUpdateActiveFrame then sliderHits (d.cameras.length : Int) valueChanged
          else 0) +
        (if 0 ≤ d.toolUpdateActiveFrame ∧ d.toolUpdateActiveFrame < (d.cameras.length : Int)
          then 1 else 0) := by
  unfold mergeActiveFrame at h
  by_cases h0 : 0 ≤ d.toolUpdateActiveFrame
  · rw [if_pos h0] at h
    obtain ⟨d0, hs, h⟩ := Option.bind_eq_some.mp h
    simp only [Option.map_eq_some'] at h
    obtain ⟨d2, h2, rfl⟩ := h
    obtain ⟨v0, e0⟩ := sliderValueChanged_eq P d valueChanged
    rw [e0] at hs
    cases hs
    have c0 := sliderValueChanged_count P d _ valueChanged e0
    have c2 := publicSetActiveCamera_count P _ d2 _ h2
    simp only at c0 c2 ⊢
    rw [if_pos h0, c2, c0]
  · rw [if_neg h0] at h
    cases h
    rw [if_neg h0, if_neg (by omega)]
    rfl

theorem refreshActiveCamera_count (P : VtkMaptkCamera → Vec3 → Option Vec2)
    (d d1 : MainWindowPrivate) (h : refreshActiveCamera P d = some d1) :
    d1.cameraView.updateCount =
      d.cameraView.updateCount + (if d.cameras.isEmpty then 0 else 1) := by
  unfold refreshActiveCamera at h
  by_cases he : d.cameras.isEmpty = true
  · rw [if_pos he] at h
    cases h
    rw [if_pos he]
    rfl
  · rw [if_neg he] at h
    rw [if_neg he]
    exact setActiveCamera_count P d d1 _ h

/-! ## Runs of the camera view update in the bulk camera update -/

theorem id_of_frameAt (cs : List CameraData)
    (h : frameIds cs = (List.range cs.length).map (fun k : Nat => (k : Int)))
    (i : Int) (cd : CameraData) (hcd : frameAt cs i = some cd) : cd.id = i := by
  have hb := frameAt_some_bounds cs i cd hcd
  unfold frameAt at hcd
  rw [if_pos hb.1] at hcd
  have h1 : (frameIds cs)[i.toNat]? = some cd.id := by
    simp [frameIds, hcd]
  rw [h] at h1
  have hlt : i.toNat < cs.length := by omega
  simp [List.getElem?_range hlt] at h1
  omega

theorem updateCamerasLoop_count (P : VtkMaptkCamera → Vec3 → Option Vec2) (n : Int)
    (cams : CameraMap) :
    ∀ d d1 : MainWindowPrivate, n = (d.cameras.length : Int) →
      frameIds d.cameras = (List.range d.cameras.length).map (fun k : Nat => (k : Int)) →
      updateCamerasLoop P n cams d = some d1 →
      d1.cameraView.updateCount =
        d.cameraView.updateCount + activeHits cams n d.activeCameraIndex := by
  induction cams with
  | nil =>
    intro d d1 _ _ h
    cases h
    rfl
  | cons e rest ih =>
    intro d d1 hn hids h
    obtain ⟨first, second⟩ := e
    cases second with
    | none =>
      simp only [updateCamerasLoop] at h
      rw [ih d d1 hn hids h]
      simp [activeHits, List.countP_cons]
    | some camera =>
      simp only [updateCamerasLoop] at h
      by_cases hr : 0 ≤ staticCastInt first ∧ staticCastInt first < n
      · rw [if_pos hr] at h
        obtain ⟨cd, hcd⟩ := frameAt_of_lt d.cameras (staticCastInt first) hr.1 (hn ▸ hr.2)
        simp only [hcd] at h
        have hid := id_of_frameAt d.cameras hids _ cd hcd
        have hids1 : frameIds (setFrameAt d.cameras (staticCastInt first)
            { cd with camera := some (VtkMaptkCamera.mk (some camera)) }) =
            (List.range (setFrameAt d.cameras (staticCastInt first)
              { cd with camera := some (VtkMaptkCamera.mk (some camera)) }).length).map
              (fun k : Nat => (k : Int)) := by
          rw [frameIds_setFrameAt d.cameras _ cd
            { cd with camera := some (VtkMaptkCamera.mk (some camera)) } hcd rfl, length_setFrameAt]
          exact hids
        by_cases ha : cd.id = d.activeCameraIndex
        · rw [if_pos ha] at h
          split at h
          · cases h
          · rename_i d2 h2
            obtain ⟨v, rfl⟩ := updateCameraView_some P _ d2 h2
            have hc := updateCameraView_count P _ _ h2
            rw [ih _ d1 (by simpa [length_setFrameAt] using hn) hids1 h]
            simp only at hc ⊢
            rw [hc]
            have : staticCastInt first = d.activeCameraIndex := by rw [← hid, ha]
            have hp : ((some camera).isSome &&
                decide (0 ≤ staticCastInt first ∧ staticCastInt first < n) &&
                decide (staticCastInt first = d.activeCameraIndex)) = true := by
              simp only [Option.isSome_some, Bool.true_and, Bool.and_eq_true, decide_eq_true_eq]
              exact ⟨hr, this⟩
            simp only [activeHits, List.countP_cons, hp, if_true]
            omega
        · rw [if_neg ha] at h
          rw [ih _ d1 (by simpa [length_setFrameAt] using hn) hids1 h]
          have : ¬ staticCastInt first = d.activeCameraIndex := by rw [← hid]; exact ha
          simp [activeHits, List.countP_cons, this]
      · rw [if_neg hr] at h
        rw [ih d d1 hn hids h]
        simp [activeHits, List.countP_cons, hr]

/-! ## The merge with its count of view updates -/

theorem mergeCameras_full (P : VtkMaptkCamera → Vec3 → Option Vec2) (d : MainWindowPrivate)
    (ha : d.activeCameraIndex < 0 ∨ d.activeCameraIndex < (d.cameras.length : Int))
    (hids : frameIds d.cameras = (List.range d.cameras.length).map (fun k : Nat => (k : Int))) :
    ∃ cs v, mergeCameras P d =
        some { d with cameras := cs, cameraView := v, toolUpdateCameras := none } ∧
      cs.length = d.cameras.length ∧
      (d.toolUpdateCameras = none → cs = d.cameras) ∧
      (∀ (k : Nat) (cd : CameraData), d.cameras[k]? = some cd →
        ∃ c, cs[k]? = some { cd with camera := c }) ∧
      (∀ cams, d.toolUpdateCameras = some cams →
        MainWindowPrivate.updateCameras P d cams =
          some { d with cameras := cs, cameraView := v }) ∧
      v.updateCount = d.cameraView.updateCount + stagedHits d := by
  rcases d with ⟨at0, tools, tuaf, tuc, tul, tut, cameras, tracks, landmarks, aci, oi, oc,
    view, acc, ao, pss⟩
  cases tuc with
  | none =>
    exact ⟨cameras, view, rfl, rfl, fun _ => rfl, fun k cd hk => ⟨cd.camera, hk⟩,
      (fun cams h => by cases h), rfl⟩
  | some cams =>
    obtain ⟨cs, v, h1, h2, h3⟩ := updateCamerasLoop_eq P (cameras.length : Int) cams
      ⟨at0, tools, tuaf, some cams, tul, tut, cameras, tracks, landmarks, aci, oi, oc,
        view, acc, ao, pss⟩ rfl ha
    have hc := updateCamerasLoop_count P (cameras.length : Int) cams
      ⟨at0, tools, tuaf, some cams, tul, tut, cameras, tracks, landmarks, aci, oi, oc,
        view, acc, ao, pss⟩ _ rfl hids h1
    refine ⟨cs, v, ?_, h2, fun h => ?_, h3, ?_, hc⟩
    · simp only [mergeCameras, MainWindowPrivate.updateCameras, h1, Option.map_some']
    · cases h
    · intro cams1 hc1
      cases hc1
      exact h1

theorem updateToolResults_full (P : VtkMaptkCamera → Vec3 → Option Vec2) (d : MainWindowPrivate)
    (valueChanged : Option Int) (hv : Valid d) :
    ∃ cs v, MainWindow.updateToolResults P d valueChanged =
        some { d with
          toolUpdateCameras := none
          toolUpdateLandmarks := none
          toolUpdateTracks := none
          toolUpdateActiveFrame :=
            if 0 ≤ d.toolUpdateActiveFrame then -1 else d.toolUpdateActiveFrame
          cameras := cs
          landmarks := d.toolUpdateLandmarks.or d.landmarks
          tracks := d.toolUpdateTracks.or d.tracks
          activeCameraIndex :=
            mergedActiveFrame d.toolUpdateActiveFrame (d.cameras.length : Int)
              d.activeCameraIndex valueChanged
          cameraView := v } ∧
      cs.length = d.cameras.length ∧
      (d.toolUpdateCameras = none → cs = d.cameras) ∧
      (∀ cams, d.toolUpdateCameras = some cams →
        ∃ v0, MainWindowPrivate.updateCameras P d cams =
          some { d with cameras := cs, cameraView := v0 }) ∧
      v.updateCount = d.cameraView.updateCount + mergeUpdateCount d valueChanged := by
  have ha := hv.2.2.2.2.2
  have hids := hv.2.2.2.2.1
  have hact : d.activeCameraIndex < 0 ∨ d.activeCameraIndex < (d.cameras.length : Int) := by
    rcases ha with ⟨_, h⟩ | ⟨_, h⟩
    · left; omega
    · right; exact h
  obtain ⟨cs, v1, hA, hlen, hnone, hsame, hlink, cA⟩ := mergeCameras_full P d hact hids
  obtain ⟨v2, hC⟩ := mergeTracks_eq P
    (mergeLandmarks { d with cameras := cs, cameraView := v1, toolUpdateCameras := none })
    (by rw [mergeLandmarks_eq]; simpa [hlen] using hact)
  have cC := mergeTracks_count P _ _ hC
  obtain ⟨v3, hD⟩ := mergeActiveFrame_eq P
    { mergeLandmarks { d with cameras := cs, cameraView := v1, toolUpdateCameras := none } with
        tracks := (mergeLandmarks
          { d with cameras := cs, cameraView := v1, toolUpdateCameras := none }).toolUpdateTracks.or
            (mergeLandmarks
              { d with cameras := cs, cameraView := v1, toolUpdateCameras := none }).tracks
        toolUpdateTracks := none
        cameraView := v2 } valueChanged
  have cD := mergeActiveFrame_count P _ _ valueChanged hD
  rw [mergeLandmarks_eq] at hC hD cC cD
  simp only at hC hD cC cD
  obtain ⟨v4, hE⟩ := refreshActiveCamera_eq P
    { d with
      toolUpdateCameras := none
      toolUpdateLandmarks := none
      toolUpdateTracks := none
      toolUpdateActiveFrame :=
        if 0 ≤ d.toolUpdateActiveFrame then -1 else d.toolUpdateActiveFrame
      cameras := cs
      landmarks := d.toolUpdateLandmarks.or d.landmarks
      tracks := d.toolUpdateTracks.or d.tracks
      activeCameraIndex :=
        mergedActiveFrame d.toolUpdateActiveFrame (cs.length : Int)
          d.activeCameraIndex valueChanged
      cameraView := v3 }
    (by
      simp only
      rcases mergedActiveFrame_range d.toolUpdateActiveFrame (cs.length : Int)
        d.activeCameraIndex valueChanged with hx | hx
      · rw [hx]
        rcases ha with ⟨hnil, _⟩ | h
        · left
          apply List.eq_nil_of_length_eq_zero
          rw [hlen, hnil]
          rfl
        · right
          rw [hlen]
          exact h
      · right
        exact hx)
  have cE := refreshActiveCamera_count P _ _ hE
  simp only at cE
  have hemp : cs.isEmpty = d.cameras.isEmpty := by
    cases hcs : cs with
    | nil =>
      rw [hcs] at hlen
      have : d.cameras = [] := List.eq_nil_of_length_eq_zero hlen.symm
      rw [this]
    | cons x xs =>
      rw [hcs] at hlen
      cases hd : d.cameras with
      | nil => rw [hd] at hlen; cases hlen
      | cons y ys => rfl
  refine ⟨cs, v4, ?_, hlen, hnone, fun cams hc => ⟨v1, hlink cams hc⟩, ?_⟩
  · unfold MainWindow.updateToolResults
    rw [hA, Option.some_bind, mergeLandmarks_eq]
    simp only
    rw [hC, Option.some_bind, hD, Option.some_bind]
    simp only [hlen] at hE ⊢
    rw [hE]
  · rw [hemp] at cE
    rw [hlen] at cD
    unfold mergeUpdateCount
    omega

/-! ## Claim C11 and the merge as performed -/

/-- Claim C11, the code at the failing input. Two frames exist, frame 0 is active,
and the active frame 5 is staged, which does not lie in `[0, 2)`.  The merge
hands 5 to the frame slider, whose range ends at the last frame; the slider
stops at 1 and reports it, and the slot `setActiveCamera` that the report runs
makes frame 1 the active frame, although the guarded call with 5 that follows
is rejected: the active frame is not unchanged. -/
theorem merge_follows_slider_report :
    Valid { twoOrphanImages with toolUpdateActiveFrame := 5 } ∧
    twoOrphanImages.cameras.length = 2 ∧ twoOrphanImages.activeCameraIndex = 0 ∧
    ∃ d1, MainWindow.updateToolResults noProjection
        { twoOrphanImages with toolUpdateActiveFrame := 5 } (some 1) = some d1 ∧
      d1.activeCameraIndex = 1 :=
  ⟨by unfold Valid; decide, rfl, rfl, _, rfl, rfl⟩

/-- The merge as the code performs it. In every state that satisfies the registry
invariant `Valid`, whatever is staged and whatever the frame slider reports,
`updateToolResults` succeeds, and afterwards: the frames are those
`updateCameras` yields for the staged cameras when cameras are staged, and are
unchanged otherwise; the tracks and the landmarks are the staged ones when
staged, and are unchanged otherwise; the active frame index is the staged one
when one is staged (it is not negative) and lies in `[0, N)`, and is unchanged
when none is staged; when the staged one is not below `N`, the code leaves
what the slot run by the slider left; and the staging record is empty: no
cameras, no landmarks, no tracks, and a negative staged frame index. -/
theorem merge_applies_staging (P : VtkMaptkCamera → Vec3 → Option Vec2) (d : MainWindowPrivate)
    (valueChanged : Option Int) (hv : Valid d) :
    ∃ d1, MainWindow.updateToolResults P d valueChanged = some d1 ∧
      (∀ cams, d.toolUpdateCameras = some cams →
        ∃ d2, MainWindowPrivate.updateCameras P d cams = some d2 ∧ d1.cameras = d2.cameras) ∧
      (d.toolUpdateCameras = none → d1.cameras = d.cameras) ∧
      (∀ tracks, d.toolUpdateTracks = some tracks → d1.tracks = some tracks) ∧
      (d.toolUpdateTracks = none → d1.tracks = d.tracks) ∧
      (∀ landmarks, d.toolUpdateLandmarks = some landmarks → d1.landmarks = some landmarks) ∧
      (d.toolUpdateLandmarks = none → d1.landmarks = d.landmarks) ∧
      (0 ≤ d.toolUpdateActiveFrame → d.toolUpdateActiveFrame < (d.cameras.length : Int) →
        d1.activeCameraIndex = d.toolUpdateActiveFrame) ∧
      (d.toolUpdateActiveFrame < 0 → d1.activeCameraIndex = d.activeCameraIndex) ∧
      ((d.cameras.length : Int) ≤ d.toolUpdateActiveFrame →
        d1.activeCameraIndex =
          sliderActiveFrame (d.cameras.length : Int) d.activeCameraIndex valueChanged) ∧
      d1.toolUpdateCameras = none ∧ d1.toolUpdateLandmarks = none ∧
      d1.toolUpdateTracks = none ∧ d1.toolUpdateActiveFrame < 0 ∧
      stagingEmpty d1 = true := by
  obtain ⟨cs, v, h, _, hnone, hlink, _⟩ := updateToolResults_full P d valueChanged hv
  have hneg : (if 0 ≤ d.toolUpdateActiveFrame then (-1 : Int) else d.toolUpdateActiveFrame) < 0 := by
    split <;> omega
  refine ⟨_, h, ?_, hnone, ?_, ?_, ?_, ?_, ?_, ?_, ?_, rfl, rfl, rfl, hneg, ?_⟩
  · intro cams hc
    obtain ⟨v0, h0⟩ := hlink cams hc
    exact ⟨_, h0, rfl⟩
  · intro tracks ht
    simp only [ht, Option.or_some]
  · intro ht
    simp only [ht, Option.none_or]
  · intro landmarks hl
    simp only [hl, Option.or_some]
  · intro hl
    simp only [hl, Option.none_or]
  · intro h0 h1
    simp only [mergedActiveFrame, if_pos (And.intro h0 h1)]
  · intro h0
    have h1 : ¬ (0 ≤ d.toolUpdateActiveFrame ∧
        d.toolUpdateActiveFrame < (d.cameras.length : Int)) := by omega
    have h2 : ¬ (0 ≤ d.toolUpdateActiveFrame) := by omega
    simp only [mergedActiveFrame, if_neg h1, if_neg h2]
  · intro h0
    have h1 : ¬ (0 ≤ d.toolUpdateActiveFrame ∧
        d.toolUpdateActiveFrame < (d.cameras.length : Int)) := by omega
    have h2 : 0 ≤ d.toolUpdateActiveFrame := by omega
    simp only [mergedActiveFrame, if_neg h1, if_pos h2]
  · simp only [stagingEmpty, Option.isNone_none, Bool.true_and, decide_eq_true_eq]
    exact hneg

/-- An instance of `merge_applies_staging`: two frames, with a camera for frame 1, a
landmark set and the active frame 1 staged; the slider reports 1. -/
theorem merge_applies_staging_witness :
    Valid stagedOnTwoFrames ∧
    ∃ d1, MainWindow.updateToolResults noProjection stagedOnTwoFrames (some 1) = some d1 ∧
      (∀ cams, stagedOnTwoFrames.toolUpdateCameras = some cams →
        ∃ d2, MainWindowPrivate.updateCameras noProjection stagedOnTwoFrames cams = some d2 ∧
          d1.cameras = d2.cameras) ∧
      (stagedOnTwoFrames.toolUpdateCameras = none → d1.cameras = stagedOnTwoFrames.cameras) ∧
      (∀ tracks, stagedOnTwoFrames.toolUpdateTracks = some tracks → d1.tracks = some tracks) ∧
      (stagedOnTwoFrames.toolUpdateTracks = none → d1.tracks = stagedOnTwoFrames.tracks) ∧
      (∀ landmarks, stagedOnTwoFrames.toolUpdateLandmarks = some landmarks →
        d1.landmarks = some landmarks) ∧
      (stagedOnTwoFrames.toolUpdateLandmarks = none →
        d1.landmarks = stagedOnTwoFrames.landmarks) ∧
      (0 ≤ stagedOnTwoFrames.toolUpdateActiveFrame →
        stagedOnTwoFrames.toolUpdateActiveFrame < (stagedOnTwoFrames.cameras.length : Int) →
        d1.activeCameraIndex = stagedOnTwoFrames.toolUpdateActiveFrame) ∧
      (stagedOnTwoFrames.toolUpdateActiveFrame < 0 →
        d1.activeCameraIndex = stagedOnTwoFrames.activeCameraIndex) ∧
      ((stagedOnTwoFrames.cameras.length : Int) ≤ stagedOnTwoFrames.toolUpdateActiveFrame →
        d1.activeCameraIndex =
          sliderActiveFrame (stagedOnTwoFrames.cameras.length : Int)
            stagedOnTwoFrames.activeCameraIndex (some 1)) ∧
      d1.toolUpdateCameras = none ∧ d1.toolUpdateLandmarks = none ∧
      d1.toolUpdateTracks = none ∧ d1.toolUpdateActiveFrame < 0 ∧
      stagingEmpty d1 = true :=
  ⟨by unfold Valid; decide,
    merge_applies_staging noProjection stagedOnTwoFrames (some 1) (by unfold Valid; decide)⟩

/-! ## Claims C12, C13 -/

/-- Claim C12 fails as stated. With no frame and nothing staged the merge does not
run `updateCameraView` at all; with two frames and a track set staged it runs
it twice, once when the tracks are taken over and once for the final refresh.
No active frame is staged in either case, so the frame slider is not touched. -/
theorem merge_recomputes_never_or_twice :
    (∃ d1, MainWindow.updateToolResults noProjection (MainWindowPrivate.init []) none = some d1 ∧
      d1.cameraView.updateCount = (MainWindowPrivate.init []).cameraView.updateCount) ∧
    (Valid { twoOrphanImages with toolUpdateTracks := some [] } ∧
      ∃ d1, MainWindow.updateToolResults noProjection
          { twoOrphanImages with toolUpdateTracks := some [] } none = some d1 ∧
        d1.cameraView.updateCount = twoOrphanImages.cameraView.updateCount + 2) :=
  ⟨⟨_, rfl, rfl⟩, by unfold Valid; decide, _, rfl, rfl⟩

/-- Claim C12, amended. In every state that satisfies the registry invariant the
merge succeeds and runs `updateCameraView` once for the final refresh when at
least one frame exists, once more when tracks are staged, once more when a
staged active frame index lies in `[0, N)`, once more when an active frame is
staged and the frame slider reports a value in `[0, N)`, and once more for
every staged camera that lands on the active frame (`mergeUpdateCount`).  So it
runs it at least once when a frame exists, exactly once when a frame exists and
neither cameras nor tracks nor an active frame are staged, and not at all when
no frame exists and no tracks are staged. -/
theorem merge_recomputation_count (P : VtkMaptkCamera → Vec3 → Option Vec2)
    (d : MainWindowPrivate) (valueChanged : Option Int) (hv : Valid d) :
    ∃ d1, MainWindow.updateToolResults P d valueChanged = some d1 ∧
      d1.cameraView.updateCount = d.cameraView.updateCount + mergeUpdateCount d valueChanged ∧
      (d.cameras ≠ [] → 1 ≤ mergeUpdateCount d valueChanged) ∧
      (d.cameras ≠ [] → d.toolUpdateCameras = none → d.toolUpdateTracks = none →
        d.toolUpdateActiveFrame < 0 → mergeUpdateCount d valueChanged = 1) ∧
      (d.cameras = [] → d.toolUpdateTracks = none → mergeUpdateCount d valueChanged = 0) := by
  obtain ⟨cs, v, h, _, _, _, hc⟩ := updateToolResults_full P d valueChanged hv
  refine ⟨_, h, hc, ?_, ?_, ?_⟩
  · intro hne
    have he : d.cameras.isEmpty = false := by
      cases hd : d.cameras with
      | nil => exact absurd hd hne
      | cons _ _ => rfl
    unfold mergeUpdateCount
    rw [he]
    simp
  · intro hne h1 h2 h3
    have he : d.cameras.isEmpty = false := by
      cases hd : d.cameras with
      | nil => exact absurd hd hne
      | cons _ _ => rfl
    have h4 : ¬ (0 ≤ d.toolUpdateActiveFrame ∧
        d.toolUpdateActiveFrame < (d.cameras.length : Int)) := by omega
    have h7 : ¬ (0 ≤ d.toolUpdateActiveFrame) := by omega
    unfold mergeUpdateCount stagedHits
    rw [he, h1, h2, if_neg h4, if_neg h7]
    rfl
  · intro hnil h2
    have h4 : ¬ (0 ≤ d.toolUpdateActiveFrame ∧
        d.toolUpdateActiveFrame < (d.cameras.length : Int)) := by
      rw [hnil]
      simp only [List.length_nil, Nat.cast_zero]
      omega
    have h5 : stagedHits d = 0 := by
      unfold stagedHits
      cases hc1 : d.toolUpdateCameras with
      | none => rfl
      | some cams =>
        simp only [activeHits, hnil, List.length_nil, Nat.cast_zero]
        apply List.countP_eq_zero.mpr
        intro e _
        simp only [Bool.and_eq_true, decide_eq_true_eq, not_and]
        intro _ h6
        omega
    have h8 : sliderHits ((d.cameras.length : Nat) : Int) valueChanged = 0 := by
      cases valueChanged with
      | none => rfl
      | some value =>
        simp only [sliderHits, hnil, List.length_nil, Nat.cast_zero]
        rw [if_neg (by omega)]
    unfold mergeUpdateCount
    rw [h5, h2, if_neg h4, h8, hnil]
    simp

/-- An instance of `merge_recomputation_count`: two frames, with a camera for frame
1, a landmark set and the active frame 1 staged; the slider reports 1, and
`updateCameraView` runs three times. -/
theorem merge_recomputation_count_witness :
    Valid stagedOnTwoFrames ∧ mergeUpdateCount stagedOnTwoFrames (some 1) = 3 ∧
    ∃ d1, MainWindow.updateToolResults noProjection stagedOnTwoFrames (some 1) = some d1 ∧
      d1.cameraView.updateCount =
        stagedOnTwoFrames.cameraView.updateCount + mergeUpdateCount stagedOnTwoFrames (some 1) ∧
      (stagedOnTwoFrames.cameras ≠ [] → 1 ≤ mergeUpdateCount stagedOnTwoFrames (some 1)) ∧
      (stagedOnTwoFrames.cameras ≠ [] → stagedOnTwoFrames.toolUpdateCameras = none →
        stagedOnTwoFrames.toolUpdateTracks = none →
        stagedOnTwoFrames.toolUpdateActiveFrame < 0 →
        mergeUpdateCount stagedOnTwoFrames (some 1) = 1) ∧
      (stagedOnTwoFrames.cameras = [] → stagedOnTwoFrames.toolUpdateTracks = none →
        mergeUpdateCount stagedOnTwoFrames (some 1) = 0) :=
  ⟨by unfold Valid; decide, by decide,
    merge_recomputation_count noProjection stagedOnTwoFrames (some 1)
      (by unfold Valid; decide)⟩

/-- Claim C13. In every state that satisfies the registry invariant and whose
staging record is empty, the merge succeeds and changes nothing but the camera
view: the frames, the tracks, the landmarks, the active frame index, the orphan
queues and the staging record are exactly as before. -/
theorem merge_of_empty_staging (P : VtkMaptkCamera → Vec3 → Option Vec2)
    (d : MainWindowPrivate) (valueChanged : Option Int) (hv : Valid d)
    (he : stagingEmpty d = true) :
    ∃ v, MainWindow.updateToolResults P d valueChanged = some { d with cameraView := v } := by
  obtain ⟨cs, v, h, _, hnone, _, _⟩ := updateToolResults_full P d valueChanged hv
  refine ⟨v, ?_⟩
  rw [h]
  rcases d with ⟨at0, tools, tuaf, tuc, tul, tut, cameras, tracks, landmarks, aci, oi, oc,
    view, acc, ao, pss⟩
  simp only [stagingEmpty, Bool.and_eq_true, Option.isNone_iff_eq_none, decide_eq_true_eq] at he
  obtain ⟨⟨⟨h1, h2⟩, h3⟩, h4⟩ := he
  subst h1 h2 h3
  have h5 := hnone rfl
  subst h5
  have h6 : ¬ (0 ≤ tuaf) := by omega
  have h7 : ¬ (0 ≤ tuaf ∧ tuaf < (cs.length : Int)) := by omega
  simp only [if_neg h6, mergedActiveFrame, if_neg h7, Option.none_or]

/-- An instance of `merge_of_empty_staging`: two frames and nothing staged. -/
theorem merge_of_empty_staging_witness :
    Valid twoOrphanImages ∧ stagingEmpty twoOrphanImages = true ∧
    ∃ v, MainWindow.updateToolResults noProjection twoOrphanImages none =
      some { twoOrphanImages with cameraView := v } :=
  ⟨by unfold Valid; decide, rfl,
    merge_of_empty_staging noProjection twoOrphanImages none (by unfold Valid; decide) rfl⟩

/-! ## Claims C14, C15 -/

/-- Claim C14 fails as stated. A tool that declares the active frame as its output is
running and nothing is staged.  An update carries the active frame 4294967295;
the staged frame index is `-1`, which is what the window reads as no staged
frame: the staging record is still empty. -/
theorem acceptToolResults_narrows_active_frame :
    runningFrameTool.activeTool = some 0 ∧
    runningFrameTool.tools.map (fun a => a.outputs.activeFrame) = [true] ∧
    (MainWindow.acceptToolResults runningFrameTool
      { cameras := none, landmarks := none, tracks := none,
        activeFrame := 4294967295 }).toolUpdateActiveFrame = -1 ∧
    stagingEmpty (MainWindow.acceptToolResults runningFrameTool
      { cameras := none, landmarks := none, tracks := none,
        activeFrame := 4294967295 }) = true :=
  ⟨rfl, rfl, rfl, rfl⟩

/-- Claim C14, amended. While a tool with outputs `O` is running, whatever the staging
record holds, `acceptToolResults` with the data `data` leaves each staged field
whose kind is in `O` with the value `data` carries for it, the active frame
converted to `int`, and each staged field whose kind is not in `O` empty;
nothing of the earlier staged values remains.  The converted active frame is
the carried one whenever that fits an `int`.  Nothing else changes but the
number of armed timers, which grows by one exactly when the staging record was
empty: the frames, tracks, landmarks, active frame index, queues, view, the
active tool and the tools are as before. -/
theorem acceptToolResults_overwrites_staging (d : MainWindowPrivate) (t : Nat)
    (a : AbstractTool) (data : ToolData)
    (hrun : d.activeTool = some t) (ha : d.tools[t]? = some a) :
    MainWindow.acceptToolResults d data =
        { d with
          toolUpdateCameras := if a.outputs.cameras then data.cameras else none
          toolUpdateLandmarks := if a.outputs.landmarks then data.landmarks else none
          toolUpdateTracks := if a.outputs.tracks then data.tracks else none
          toolUpdateActiveFrame :=
            if a.outputs.activeFrame then staticCastInt data.activeFrame else -1
          pendingSingleShots :=
            if stagingEmpty d = true then d.pendingSingleShots + 1 else d.pendingSingleShots } ∧
      (-2147483648 ≤ data.activeFrame → data.activeFrame < 2147483648 →
        staticCastInt data.activeFrame = data.activeFrame) := by
  refine ⟨?_, fun h0 h1 => staticCastInt_of_int _ h0 h1⟩
  rw [acceptToolResults_running d t a data hrun ha]
  rfl

/-- An instance of `acceptToolResults_overwrites_staging`: the landmark tool is
running, a landmark set is already staged, and an update arrives that carries
another landmark set and a camera map, which the tool does not declare. -/
theorem acceptToolResults_overwrites_staging_witness :
    (MainWindow.acceptToolResults runningLandmarkTool
        (landmarkUpdate (some [(1, (0, 0, 1))]))).activeTool = some 0 ∧
    MainWindow.acceptToolResults
        (MainWindow.acceptToolResults runningLandmarkTool (landmarkUpdate (some [(1, (0, 0, 1))])))
        { cameras := some [(0, some 4)], landmarks := some [(2, (0, 0, 2))], tracks := none,
          activeFrame := 0 } =
      { MainWindow.acceptToolResults runningLandmarkTool
          (landmarkUpdate (some [(1, (0, 0, 1))])) with
        toolUpdateCameras := none
        toolUpdateLandmarks := some [(2, (0, 0, 2))]
        toolUpdateTracks := none
        toolUpdateActiveFrame := -1
        pendingSingleShots := 1 } :=
  ⟨rfl,
    (acceptToolResults_overwrites_staging
      (MainWindow.acceptToolResults runningLandmarkTool (landmarkUpdate (some [(1, (0, 0, 1))])))
      0
      { landmarkTool with
        inputs :=
          { activeFrame := some (-1), imagePaths := some [], tracks := some none,
            cameras := some [], landmarks := some none }
        executeCalls := 1
        enabled := false }
      { cameras := some [(0, some 4)], landmarks := some [(2, (0, 0, 2))], tracks := none,
        activeFrame := 0 }
      rfl rfl).1⟩

/-- Claim C15. `acceptToolFinalResults` always leaves the controller idle: no tool is
active, every tool is enabled again (and is otherwise as it was), and cancel is
disabled; the number of armed timers plays no part.  While a tool is running,
the staging record and the armed timers afterwards are exactly those that
`acceptToolResults` with the data of that tool leaves, so each staged field is
the one of the tool's data when the tool declares it and empty otherwise.
While no tool is active, the staging record and the armed timers are
unchanged. -/
theorem acceptToolFinalResults_stages_then_idles (d : MainWindowPrivate) :
    (MainWindow.acceptToolFinalResults d).activeTool = none ∧
    (MainWindow.acceptToolFinalResults d).tools =
      d.tools.map (fun tool => { tool with enabled := true }) ∧
    (∀ tool ∈ (MainWindow.acceptToolFinalResults d).tools, tool.enabled = true) ∧
    (MainWindow.acceptToolFinalResults d).actionCancelComputation = false ∧
    (∀ (t : Nat) (a : AbstractTool), d.activeTool = some t → d.tools[t]? = some a →
      MainWindow.acceptToolFinalResults d =
          MainWindowPrivate.setActiveTool (MainWindow.acceptToolResults d a.data) none ∧
        (MainWindow.acceptToolFinalResults d).toolUpdateCameras =
          (if a.outputs.cameras then a.data.cameras else none) ∧
        (MainWindow.acceptToolFinalResults d).toolUpdateLandmarks =
          (if a.outputs.landmarks then a.data.landmarks else none) ∧
        (MainWindow.acceptToolFinalResults d).toolUpdateTracks =
          (if a.outputs.tracks then a.data.tracks else none) ∧
        (MainWindow.acceptToolFinalResults d).toolUpdateActiveFrame =
          (if a.outputs.activeFrame then staticCastInt a.data.activeFrame else -1) ∧
        (MainWindow.acceptToolFinalResults d).pendingSingleShots =
          (if stagingEmpty d = true then d.pendingSingleShots + 1 else d.pendingSingleShots)) ∧
    (d.activeTool = none →
      (MainWindow.acceptToolFinalResults d).toolUpdateCameras = d.toolUpdateCameras ∧
      (MainWindow.acceptToolFinalResults d).toolUpdateLandmarks = d.toolUpdateLandmarks ∧
      (MainWindow.acceptToolFinalResults d).toolUpdateTracks = d.toolUpdateTracks ∧
      (MainWindow.acceptToolFinalResults d).toolUpdateActiveFrame = d.toolUpdateActiveFrame ∧
      (MainWindow.acceptToolFinalResults d).pendingSingleShots = d.pendingSingleShots) := by
  have htools : (MainWindow.acceptToolFinalResults d).tools =
      d.tools.map (fun tool => { tool with enabled := true }) := by
    cases hrun : d.activeTool with
    | none =>
      simp only [MainWindow.acceptToolFinalResults, hrun]
      rfl
    | some t =>
      cases ha : d.tools[t]? with
      | none =>
        simp only [MainWindow.acceptToolFinalResults, hrun, ha]
        rfl
      | some a =>
        simp only [MainWindow.acceptToolFinalResults, hrun, ha]
        rw [acceptToolResults_running d t a _ hrun ha]
        rfl
  refine ⟨rfl, htools, ?_, rfl, ?_, ?_⟩
  · intro tool hmem
    rw [htools] at hmem
    obtain ⟨x, _, rfl⟩ := List.mem_map.mp hmem
    rfl
  · intro t a hrun ha
    have e : MainWindow.acceptToolFinalResults d =
        MainWindowPrivate.setActiveTool (MainWindow.acceptToolResults d a.data) none := by
      unfold MainWindow.acceptToolFinalResults
      simp only [hrun, ha]
    refine ⟨e, ?_, ?_, ?_, ?_, ?_⟩ <;>
      (rw [e, acceptToolResults_running d t a a.data hrun ha]; rfl)
  · intro hnone
    unfold MainWindow.acceptToolFinalResults
    simp only [hnone]
    exact ⟨rfl, rfl, rfl, rfl, rfl⟩

/-! ## The two loops of the camera view update -/

theorem projectLandmarks_fst (P : VtkMaptkCamera → Vec3 → Option Vec2) (camera : VtkMaptkCamera)
    (l : List (Int × Vec3)) :
    ∀ acc : List (Int × Vec2) × List (Int × Vec2),
      (projectLandmarks P camera l acc).1 = acc.1 ++ l.filterMap (projectedLandmark P camera) := by
  induction l with
  | nil => intro acc; simp [projectLandmarks]
  | cons e rest ih =>
    intro acc
    obtain ⟨id, loc⟩ := e
    cases h : P camera loc with
    | none =>
      simp only [projectLandmarks, h]
      rw [ih]
      simp [projectedLandmark, h]
    | some pp =>
      simp only [projectLandmarks, h]
      rw [ih]
      simp [projectedLandmark, h]

theorem lookup_filter_ne (h : List (Int × Vec2)) (k k1 : Int) (hne : k ≠ k1) :
    (h.filter (fun e => e.1 != k1)).lookup k = h.lookup k := by
  induction h with
  | nil => rfl
  | cons e rest ih =>
    obtain ⟨a, b⟩ := e
    by_cases ha : a = k1
    · subst ha
      have h1 : (k == a) = false := by simpa using hne
      simp [List.filter_cons, List.lookup_cons, h1, ih]
    · have h2 : (a != k1) = true := by simpa using ha
      simp only [List.filter_cons, h2, if_true, List.lookup_cons, ih]

theorem lookup_hashInsert (h : List (Int × Vec2)) (k k1 : Int) (v : Vec2) :
    (hashInsert h k1 v).lookup k = if k = k1 then some v else h.lookup k := by
  unfold hashInsert
  by_cases hk : k = k1
  · subst hk
    simp [List.lookup_cons]
  · have h1 : (k == k1) = false := by simpa using hk
    simp only [List.lookup_cons, h1, if_neg hk]
    exact lookup_filter_ne h k k1 hk

theorem lookup_none_of_keys (l : List (Int × Vec2)) (k : Int) (h : ∀ x ∈ l, x.1 ≠ k) :
    l.lookup k = none := by
  rw [List.lookup_eq_none_iff]
  intro p hp
  have := h p hp
  simpa [bne_iff_ne] using fun e => this e.symm

theorem projectLandmarks_lookup (P : VtkMaptkCamera → Vec3 → Option Vec2) (camera : VtkMaptkCamera)
    (l : List (Int × Vec3)) :
    ∀ acc : List (Int × Vec2) × List (Int × Vec2),
      (∀ k, acc.2.lookup k = acc.1.lookup k) → (l.map Prod.fst).Nodup →
      (∀ e ∈ l, ∀ x ∈ acc.1, x.1 ≠ e.1) →
      ∀ k, (projectLandmarks P camera l acc).2.lookup k =
        (projectLandmarks P camera l acc).1.lookup k := by
  induction l with
  | nil => intro acc hacc _ _ k; exact hacc k
  | cons e rest ih =>
    intro acc hacc hnd hdis k
    obtain ⟨id, loc⟩ := e
    have hnd1 : (rest.map Prod.fst).Nodup := (List.nodup_cons.mp hnd).2
    have hid : ∀ e ∈ rest, e.1 ≠ id := by
      intro e he heq
      have hmem : e.1 ∈ rest.map Prod.fst := List.mem_map_of_mem Prod.fst he
      rw [heq] at hmem
      exact (List.nodup_cons.mp hnd).1 hmem
    cases h : P camera loc with
    | none =>
      simp only [projectLandmarks, h]
      exact ih acc hacc hnd1 (fun e he => hdis e (List.mem_cons_of_mem _ he)) k
    | some pp =>
      simp only [projectLandmarks, h]
      apply ih (acc.1 ++ [(id, pp)], hashInsert acc.2 id pp) _ hnd1
      · intro e he x hx
        rcases List.mem_append.mp hx with hx | hx
        · exact hdis e (List.mem_cons_of_mem _ he) x hx
        · simp only [List.mem_singleton] at hx
          subst hx
          exact fun heq => hid e he heq.symm
      · intro k1
        simp only
        rw [lookup_hashInsert, List.lookup_append]
        by_cases hk : k1 = id
        · subst hk
          have hnone : acc.1.lookup k1 = none :=
            lookup_none_of_keys acc.1 k1 (fun x hx => hdis (k1, loc) (List.mem_cons_self _ _) x hx)
          simp [hnone, List.lookup_cons]
        · have h1 : (k1 == id) = false := by simpa using hk
          simp [hk, List.lookup_cons, h1, hacc k1]

theorem collectResiduals_eq (frame : Int) (points shown : List (Int × Vec2))
    (h : ∀ k, points.lookup k = shown.lookup k) (tracks : List Track) :
    collectResiduals frame points tracks = tracks.filterMap (expectedResidual frame shown) := by
  induction tracks with
  | nil => rfl
  | cons track rest ih =>
    simp only [collectResiduals, List.filterMap_cons, expectedResidual]
    cases hf : track.find frame with
    | none => simpa using ih
    | some st =>
      cases st with
      | other => simpa using ih
      | feature f =>
        cases f with
        | none => simpa using ih
        | some fp =>
          simp only [h track.id]
          cases hl : shown.lookup track.id with
          | none => simpa using ih
          | some lp => simpa using ih

/-! ## Claim C16 -/

theorem updateCameraView_of_frame (P : VtkMaptkCamera → Vec3 → Option Vec2) (d : MainWindowPrivate)
    (cd : CameraData) (hcd : frameAt d.cameras d.activeCameraIndex = some cd) :
    MainWindowPrivate.updateCameraView P d = some { d with cameraView := viewOfFrame P d cd } := by
  have hb := frameAt_some_bounds d.cameras d.activeCameraIndex cd hcd
  unfold MainWindowPrivate.updateCameraView
  rw [if_neg (by omega)]
  simp only [hcd]

theorem keys_filterMap_sublist (P : VtkMaptkCamera → Vec3 → Option Vec2) (camera : VtkMaptkCamera)
    (l : List (Int × Vec3)) :
    ((l.filterMap (projectedLandmark P camera)).map Prod.fst).Sublist (l.map Prod.fst) := by
  induction l with
  | nil => exact List.Sublist.refl _
  | cons e rest ih =>
    obtain ⟨id, loc⟩ := e
    cases h : P camera loc with
    | none =>
      simp only [List.filterMap_cons, projectedLandmark, h, Option.map_none', List.map_cons]
      exact List.Sublist.cons _ ih
    | some pp =>
      simp only [List.filterMap_cons, projectedLandmark, h, Option.map_some', List.map_cons]
      exact List.Sublist.cons₂ _ ih

theorem lookup_eq_some_iff_mem (l : List (Int × Vec2)) (k : Int) (v : Vec2)
    (hnd : (l.map Prod.fst).Nodup) : l.lookup k = some v ↔ (k, v) ∈ l := by
  induction l with
  | nil => simp
  | cons e rest ih =>
    obtain ⟨a, b⟩ := e
    have hnd1 : (rest.map Prod.fst).Nodup := (List.nodup_cons.mp hnd).2
    have hnot : a ∉ rest.map Prod.fst := (List.nodup_cons.mp hnd).1
    by_cases hk : k = a
    · subst hk
      have : ∀ w, (k, w) ∉ rest := fun w hw => hnot (List.mem_map_of_mem Prod.fst hw)
      simp only [List.lookup_cons, beq_self_eq_true, Option.some.injEq, List.mem_cons,
        Prod.mk.injEq, true_and]
      constructor
      · intro h; exact Or.inl h.symm
      · intro h
        rcases h with h | h
        · exact h.symm
        · exact absurd h (this v)
    · have h1 : (k == a) = false := by simpa using hk
      simp only [List.lookup_cons, h1, List.mem_cons, Prod.mk.injEq, hk, false_and, false_or]
      exact ih hnd1

/-- Claim C16. When the active frame has a camera, `updateCameraView` succeeds and
the landmarks of the view afterwards are exactly the landmarks of the scene
whose projection through that camera succeeds, each with its projected
position, in the order of the scene: a pair `(id, p)` is shown exactly when the
scene has a landmark `id` whose location projects to `p`.  Landmarks whose
projection fails are left out, nothing the view held before remains, and when
the ids of the scene are distinct so are the ids shown. -/
theorem updateCameraView_shows_projected_landmarks (P : VtkMaptkCamera → Vec3 → Option Vec2)
    (d : MainWindowPrivate) (cd : CameraData) (camera : VtkMaptkCamera)
    (hcd : frameAt d.cameras d.activeCameraIndex = some cd) (hcam : cd.camera = some camera) :
    ∃ d1, MainWindowPrivate.updateCameraView P d = some d1 ∧
      d1.cameraView.landmarks = (d.landmarks.getD []).filterMap (projectedLandmark P camera) ∧
      (∀ (id : Int) (p : Vec2), (id, p) ∈ d1.cameraView.landmarks ↔
        ∃ loc, (id, loc) ∈ d.landmarks.getD [] ∧ P camera loc = some p) ∧
      (((d.landmarks.getD []).map Prod.fst).Nodup →
        (d1.cameraView.landmarks.map Prod.fst).Nodup) := by
  have hl : (viewOfFrame P d cd).landmarks =
      (d.landmarks.getD []).filterMap (projectedLandmark P camera) := by
    rw [(viewOfFrame_camera P d cd camera hcam).1, projectLandmarks_fst]
    rfl
  refine ⟨_, updateCameraView_of_frame P d cd hcd, hl, ?_, ?_⟩
  · intro id p
    show (id, p) ∈ (viewOfFrame P d cd).landmarks ↔ _
    rw [hl, List.mem_filterMap]
    constructor
    · rintro ⟨⟨a, loc⟩, hmem, h⟩
      simp only [projectedLandmark, Option.map_eq_some'] at h
      obtain ⟨pp, hp, heq⟩ := h
      cases heq
      exact ⟨loc, hmem, hp⟩
    · rintro ⟨loc, hmem, hp⟩
      exact ⟨(id, loc), hmem, by simp [projectedLandmark, hp]⟩
  · intro hnd
    simp only [hl]
    exact hnd.sublist (keys_filterMap_sublist P camera _)

/-- An instance of `updateCameraView_shows_projected_landmarks`: of three
landmarks the second lies behind the camera; the first and the third are
shown. -/
theorem updateCameraView_shows_projected_landmarks_witness :
    frameAt sceneWithCamera.cameras sceneWithCamera.activeCameraIndex =
      some { id := 0, camera := some (VtkMaptkCamera.mk (some 1)), imagePath := "a.png",
             depthMapPath := "" } ∧
    ∃ d1, MainWindowPrivate.updateCameraView projectInFront sceneWithCamera = some d1 ∧
      d1.cameraView.landmarks = [(1, (10, 20)), (3, (50, 60))] :=
  ⟨rfl,
    (updateCameraView_shows_projected_landmarks projectInFront sceneWithCamera
      { id := 0, camera := some (VtkMaptkCamera.mk (some 1)), imagePath := "a.png",
        depthMapPath := "" }
      (VtkMaptkCamera.mk (some 1)) rfl rfl).elim
      (fun d1 h => ⟨d1, h.1, h.2.1.trans rfl⟩)⟩

/-! ## Claim C17 -/

theorem expectedResidual_eq_some_iff (frame : Int) (shown : List (Int × Vec2)) (track : Track)
    (r : Int × Vec2 × Vec2) (hnd : (shown.map Prod.fst).Nodup) :
    expectedResidual frame shown track = some r ↔
      ∃ fp lp, track.find frame = some (TrackState.feature (some fp)) ∧
        (track.id, lp) ∈ shown ∧ r = (track.id, fp, lp) := by
  unfold expectedResidual
  cases hf : track.find frame with
  | none => simp
  | some st =>
    cases st with
    | other => simp
    | feature f =>
      cases f with
      | none => simp
      | some fp =>
        simp only [Option.map_eq_some', Option.some.injEq, TrackState.feature.injEq]
        constructor
        · rintro ⟨lp, hl, rfl⟩
          exact ⟨fp, lp, rfl, (lookup_eq_some_iff_mem shown track.id lp hnd).mp hl, rfl⟩
        · rintro ⟨fp1, lp, h1, hm, rfl⟩
          cases h1
          exact ⟨lp, (lookup_eq_some_iff_mem shown track.id lp hnd).mpr hm, rfl⟩

/-- Claim C17. When the active frame has a camera and the landmarks of the scene have
distinct ids (they are the keys of a map), `updateCameraView` succeeds and the
residuals of the view afterwards are, track by track in the order of the
scene, the residuals `expectedResidual` gives for the landmarks the view shows:
a track contributes a residual exactly when it has a state at the active frame,
that state is a feature state with a location `fp`, and the view shows a
landmark `(id, lp)` with the id of the track; the residual is then
`(id, fp, lp)`.  When the scene has no landmarks, the view shows neither
landmarks nor residuals. -/
theorem updateCameraView_shows_residuals (P : VtkMaptkCamera → Vec3 → Option Vec2)
    (d : MainWindowPrivate) (cd : CameraData) (camera : VtkMaptkCamera)
    (hcd : frameAt d.cameras d.activeCameraIndex = some cd) (hcam : cd.camera = some camera)
    (hids : ((d.landmarks.getD []).map Prod.fst).Nodup) :
    ∃ d1, MainWindowPrivate.updateCameraView P d = some d1 ∧
      d1.cameraView.residuals =
        (d.tracks.getD []).filterMap
          (expectedResidual d.activeCameraIndex d1.cameraView.landmarks) ∧
      (∀ (track : Track) (r : Int × Vec2 × Vec2),
        expectedResidual d.activeCameraIndex d1.cameraView.landmarks track = some r ↔
          ∃ fp lp, track.find d.activeCameraIndex = some (TrackState.feature (some fp)) ∧
            (track.id, lp) ∈ d1.cameraView.landmarks ∧ r = (track.id, fp, lp)) ∧
      (d.landmarks.getD [] = [] →
        d1.cameraView.landmarks = [] ∧ d1.cameraView.residuals = []) := by
  obtain ⟨hl, hr⟩ := viewOfFrame_camera P d cd camera hcam
  have hlook := projectLandmarks_lookup P camera (d.landmarks.getD []) ([], [])
    (fun _ => rfl) hids (fun _ _ x hx => by cases hx)
  have hres : (viewOfFrame P d cd).residuals =
      (d.tracks.getD []).filterMap
        (expectedResidual d.activeCameraIndex (viewOfFrame P d cd).landmarks) := by
    rw [hr, hl]
    exact collectResiduals_eq _ _ _ hlook _
  have hnd : ((viewOfFrame P d cd).landmarks.map Prod.fst).Nodup := by
    rw [hl, projectLandmarks_fst]
    exact hids.sublist (keys_filterMap_sublist P camera _)
  refine ⟨_, updateCameraView_of_frame P d cd hcd, hres, ?_, ?_⟩
  · intro track r
    exact expectedResidual_eq_some_iff _ _ track r hnd
  · intro hempty
    have hl0 : (viewOfFrame P d cd).landmarks = [] := by
      rw [hl, hempty]
      rfl
    refine ⟨hl0, ?_⟩
    show (viewOfFrame P d cd).residuals = []
    rw [hres, hl0]
    apply List.filterMap_eq_nil_iff.mpr
    intro track _
    unfold expectedResidual
    cases track.find d.activeCameraIndex with
    | none => rfl
    | some st =>
      cases st with
      | other => rfl
      | feature f => cases f <;> rfl

/-- An instance of `updateCameraView_shows_residuals`: landmarks 1 and 3 are shown;
track 1 has a feature at the active frame and yields a residual, track 2 has
one too but its landmark is not shown, track 3 has no state at the frame, and
the state of track 4 is not a feature state. -/
theorem updateCameraView_shows_residuals_witness :
    frameAt sceneWithCamera.cameras sceneWithCamera.activeCameraIndex =
      some { id := 0, camera := some (VtkMaptkCamera.mk (some 1)), imagePath := "a.png",
             depthMapPath := "" } ∧
    ((sceneWithCamera.landmarks.getD []).map Prod.fst).Nodup ∧
    ∃ d1, MainWindowPrivate.updateCameraView projectInFront sceneWithCamera = some d1 ∧
      d1.cameraView.residuals = [(1, (11, 21), (10, 20))] :=
  ⟨rfl, by decide,
    (updateCameraView_shows_residuals projectInFront sceneWithCamera
      { id := 0, camera := some (VtkMaptkCamera.mk (some 1)), imagePath := "a.png",
        depthMapPath := "" }
      (VtkMaptkCamera.mk (some 1)) rfl rfl (by decide)).elim
      (fun d1 h => ⟨d1, h.1, by
        have e := h.1
        cases e
        rfl⟩)⟩

/-! ## The branches without a camera; claim C19 -/

theorem updateCameraView_without_frame (P : VtkMaptkCamera → Vec3 → Option Vec2)
    (d : MainWindowPrivate) (h : d.activeCameraIndex < 0) :
    ∃ d1, MainWindowPrivate.updateCameraView P d = some d1 ∧
      d1.cameraView.landmarks = [] ∧ d1.cameraView.residuals = d.cameraView.residuals := by
  unfold MainWindowPrivate.updateCameraView
  rw [if_pos h]
  exact ⟨_, rfl, rfl, rfl⟩

theorem updateCameraView_without_camera (P : VtkMaptkCamera → Vec3 → Option Vec2)
    (d : MainWindowPrivate) (cd : CameraData)
    (hcd : frameAt d.cameras d.activeCameraIndex = some cd) (hcam : cd.camera = none) :
    ∃ d1, MainWindowPrivate.updateCameraView P d = some d1 ∧
      d1.cameraView.landmarks = [] ∧ d1.cameraView.residuals = [] :=
  ⟨_, updateCameraView_of_frame P d cd hcd, (viewOfFrame_no_camera P d cd hcam).1,
    (viewOfFrame_no_camera P d cd hcam).2⟩

/-- Claim C19. Whatever the scene, the active frame index (negative, or the index of
a frame) and the content of the view, `updateCameraView` succeeds, changes
nothing but the view, succeeds again on the result, and the second run leaves
the landmarks and the residuals of the view exactly as the first run left
them. -/
theorem updateCameraView_idempotent (P : VtkMaptkCamera → Vec3 → Option Vec2)
    (d : MainWindowPrivate)
    (h : d.activeCameraIndex < 0 ∨ d.activeCameraIndex < (d.cameras.length : Int)) :
    ∃ v1 v2, MainWindowPrivate.updateCameraView P d = some { d with cameraView := v1 } ∧
      MainWindowPrivate.updateCameraView P { d with cameraView := v1 } =
        some { d with cameraView := v2 } ∧
      v2.landmarks = v1.landmarks ∧ v2.residuals = v1.residuals := by
  by_cases h0 : d.activeCameraIndex < 0
  · refine ⟨{ d.cameraView with
        activeFrame := staticCastUnsigned (-1), landmarks := [],
        updateCount := d.cameraView.updateCount + 1 },
      { d.cameraView with
        activeFrame := staticCastUnsigned (-1), landmarks := [],
        updateCount := d.cameraView.updateCount + 1 + 1 }, ?_, ?_, rfl, rfl⟩
    · unfold MainWindowPrivate.updateCameraView
      rw [if_pos h0]
    · unfold MainWindowPrivate.updateCameraView
      have h1 : ({ d with cameraView :=
          { d.cameraView with
            activeFrame := staticCastUnsigned (-1), landmarks := [],
            updateCount := d.cameraView.updateCount + 1 } } :
            MainWindowPrivate).activeCameraIndex < 0 := h0
      rw [if_pos h1]
  · have h1 : d.activeCameraIndex < (d.cameras.length : Int) := by
      rcases h with h | h
      · exact absurd h h0
      · exact h
    obtain ⟨cd, hcd⟩ := frameAt_of_lt d.cameras d.activeCameraIndex (by omega) h1
    refine ⟨viewOfFrame P d cd, viewOfFrame P { d with cameraView := viewOfFrame P d cd } cd,
      updateCameraView_of_frame P d cd hcd,
      updateCameraView_of_frame P { d with cameraView := viewOfFrame P d cd } cd hcd, ?_, ?_⟩
    · exact (viewOfFrame_view_irrelevant P d _ cd).1
    · exact (viewOfFrame_view_irrelevant P d _ cd).2

/-- An instance of `updateCameraView_idempotent`: one frame with a camera, three
landmarks and four tracks. -/
theorem updateCameraView_idempotent_witness :
    (sceneWithCamera.activeCameraIndex < 0 ∨
      sceneWithCamera.activeCameraIndex < (sceneWithCamera.cameras.length : Int)) ∧
    ∃ v1 v2, MainWindowPrivate.updateCameraView projectInFront sceneWithCamera =
        some { sceneWithCamera with cameraView := v1 } ∧
      MainWindowPrivate.updateCameraView projectInFront
          { sceneWithCamera with cameraView := v1 } =
        some { sceneWithCamera with cameraView := v2 } ∧
      v2.landmarks = v1.landmarks ∧ v2.residuals = v1.residuals :=
  ⟨by decide, updateCameraView_idempotent projectInFront sceneWithCamera (by decide)⟩

/-! ## The orphan queues under frame additions -/

theorem queues_transfer (d d1 : MainWindowPrivate) (hq : QueuesOrdered d)
    (h1 : d1.orphanImages = d.orphanImages) (h2 : d1.orphanCameras = d.orphanCameras)
    (hs : ∀ (k : Nat) (cd : CameraData), d.cameras[k]? = some cd →
      ∃ c, d1.cameras[k]? = some { cd with camera := c }) :
    QueuesOrdered d1 := by
  obtain ⟨q1, q2, q3, q4⟩ := hq
  refine ⟨by rw [h1, h2]; exact q1, by rw [h1]; exact q2, by rw [h2]; exact q3, ?_⟩
  intro i hi
  rw [h2] at hi
  obtain ⟨cd, hcd, hp⟩ := q4 i hi
  have hb := frameAt_some_bounds d.cameras i cd hcd
  unfold frameAt at hcd
  rw [if_pos hb.1] at hcd
  obtain ⟨c, hc⟩ := hs i.toNat cd hcd
  refine ⟨{ cd with camera := c }, ?_, hp⟩
  unfold frameAt
  rw [if_pos hb.1]
  exact hc

theorem queues_of_same (d d1 : MainWindowPrivate) (hq : QueuesOrdered d)
    (h : d1.cameras = d.cameras ∧ d1.orphanImages = d.orphanImages ∧
      d1.orphanCameras = d.orphanCameras ∧ d1.activeCameraIndex = d.activeCameraIndex) :
    QueuesOrdered d1 :=
  queues_transfer d d1 hq h.2.1 h.2.2.1 (fun k cd hk => ⟨cd.camera, by rw [h.1]; exact hk⟩)

theorem pairwise_enqueue (q : List Int) (n : Int) (hq : q.Pairwise (fun a b => a < b))
    (hlt : ∀ i ∈ q, 0 ≤ i ∧ i < n) : (q ++ [n]).Pairwise (fun a b => a < b) := by
  rw [List.pairwise_append]
  refine ⟨hq, List.pairwise_singleton _ _, ?_⟩
  intro a ha b hb
  simp only [List.mem_singleton] at hb
  subst hb
  exact (hlt a ha).2

theorem addFrame_queues (P : VtkMaptkCamera → Vec3 → Option Vec2) (d d1 : MainWindowPrivate)
    (camera : Option Pose) (imagePath : String) (hv : Valid d) (hq : QueuesOrdered d)
    (h : MainWindowPrivate.addFrame P d camera imagePath = some d1) : QueuesOrdered d1 := by
  obtain ⟨v, e⟩ := addFrame_eq P d camera imagePath
  rw [e] at h
  cases h
  obtain ⟨q1, q2, q3, q4⟩ := hq
  cases camera with
  | none =>
    refine ⟨Or.inr rfl, q2, List.Pairwise.nil, ?_⟩
    intro i hi
    cases hi
  | some c =>
    refine ⟨Or.inl rfl, List.Pairwise.nil, q3, ?_⟩
    intro i hi
    obtain ⟨cd, hcd, hp⟩ := q4 i hi
    refine ⟨cd, ?_, hp⟩
    show frameAt (d.cameras ++ _) i = some cd
    rw [frameAt_append_left _ _ _ (hv.2.1 i hi).2]
    exact hcd

theorem addCamera_queues (P : VtkMaptkCamera → Vec3 → Option Vec2) (d d1 : MainWindowPrivate)
    (camera : Option Pose) (hv : Valid d) (hq : QueuesOrdered d)
    (h : MainWindowPrivate.addCamera P d camera = some d1) : QueuesOrdered d1 := by
  obtain ⟨q1, q2, q3, q4⟩ := hq
  cases hoi : d.orphanImages with
  | nil =>
    rw [addCamera_eq_addFrame P d camera hoi] at h
    obtain ⟨v, e⟩ := addFrame_eq P
      { d with orphanCameras := d.orphanCameras ++ [(d.cameras.length : Int)] } camera ""
    rw [e] at h
    cases h
    cases camera with
    | none =>
      refine ⟨Or.inr rfl, ?_, List.Pairwise.nil, ?_⟩
      · show d.orphanImages.Pairwise _
        exact q2
      · intro i hi
        cases hi
    | some c =>
      refine ⟨Or.inl rfl, List.Pairwise.nil, ?_, ?_⟩
      · show (d.orphanCameras ++ [(d.cameras.length : Int)]).Pairwise _
        exact pairwise_enqueue _ _ q3 hv.2.1
      · intro i hi
        have hi1 : i ∈ d.orphanCameras ++ [(d.cameras.length : Int)] := hi
        rcases List.mem_append.mp hi1 with hi2 | hi2
        · obtain ⟨cd, hcd, hp⟩ := q4 i hi2
          refine ⟨cd, ?_, hp⟩
          show frameAt (d.cameras ++ _) i = some cd
          rw [frameAt_append_left _ _ _ (hv.2.1 i hi2).2]
          exact hcd
        · simp only [List.mem_singleton] at hi2
          subst hi2
          refine ⟨{ id := (d.cameras.length : Int)
                    camera := some (VtkMaptkCamera.mk (some c))
                    imagePath := ""
                    depthMapPath := "" }, ?_, rfl⟩
          show frameAt (d.cameras ++ _) (d.cameras.length : Int) = some _
          rw [frameAt_natCast]
          simp
  | cons i rest =>
    have hi := hv.1 i (by simp [hoi])
    obtain ⟨cd, hcd⟩ := frameAt_of_lt d.cameras i hi.1 hi.2
    obtain ⟨v, e⟩ := addCamera_eq_pair P d camera i rest cd hoi hcd (valid_active d hv)
    rw [e] at h
    cases h
    have hoc : d.orphanCameras = [] := by
      rcases q1 with q1 | q1
      · rw [hoi] at q1; cases q1
      · exact q1
    refine ⟨Or.inr hoc, ?_, ?_, ?_⟩
    · show rest.Pairwise _
      rw [hoi] at q2
      exact (List.pairwise_cons.mp q2).2
    · show d.orphanCameras.Pairwise _
      exact q3
    · intro j hj
      have hj1 : j ∈ d.orphanCameras := hj
      rw [hoc] at hj1
      cases hj1

theorem addImage_queues (P : VtkMaptkCamera → Vec3 → Option Vec2) (d d1 : MainWindowPrivate)
    (imagePath : String) (hv : Valid d) (hq : QueuesOrdered d)
    (h : MainWindowPrivate.addImage P d imagePath = some d1) : QueuesOrdered d1 := by
  obtain ⟨q1, q2, q3, q4⟩ := hq
  cases hoc : d.orphanCameras with
  | nil =>
    rw [addImage_eq_addFrame P d imagePath hoc] at h
    obtain ⟨v, e⟩ := addFrame_eq P
      { d with orphanImages := d.orphanImages ++ [(d.cameras.length : Int)] } none imagePath
    rw [e] at h
    cases h
    refine ⟨Or.inr rfl, ?_, List.Pairwise.nil, ?_⟩
    · show (d.orphanImages ++ [(d.cameras.length : Int)]).Pairwise _
      exact pairwise_enqueue _ _ q2 hv.1
    · intro i hi
      cases hi
  | cons i rest =>
    have hi := hv.2.1 i (by simp [hoc])
    obtain ⟨cd, hcd⟩ := frameAt_of_lt d.cameras i hi.1 hi.2
    obtain ⟨v, e⟩ := addImage_eq_pair P d imagePath i rest cd hoc hcd (valid_active d hv)
    rw [e] at h
    cases h
    have hoi : d.orphanImages = [] := by
      rcases q1 with q1 | q1
      · exact q1
      · rw [hoc] at q1; cases q1
    rw [hoc] at q3 q4
    refine ⟨Or.inl hoi, ?_, ?_, ?_⟩
    · show d.orphanImages.Pairwise _
      exact q2
    · show rest.Pairwise _
      exact (List.pairwise_cons.mp q3).2
    · intro j hj
      have hj1 : j ∈ rest := hj
      have hlt : i < j := (List.pairwise_cons.mp q3).1 j hj1
      obtain ⟨cdj, hcdj, hp⟩ := q4 j (List.mem_cons_of_mem _ hj1)
      refine ⟨cdj, ?_, hp⟩
      show frameAt (setFrameAt d.cameras i _) j = some cdj
      rw [frameAt_setFrameAt_ne d.cameras i j _ hi.1 (by omega)]
      exact hcdj

/-! ## The orphan queues under every call; claim C20 -/

theorem call_run_queues (P : VtkMaptkCamera → Vec3 → Option Vec2) (c : Call)
    (d d1 : MainWindowPrivate) (hv : Valid d) (hq : QueuesOrdered d)
    (h : Call.run P c d = some d1) : QueuesOrdered d1 := by
  cases c with
  | addCamera camera => exact addCamera_queues P d d1 camera hv hq h
  | addImage imagePath => exact addImage_queues P d d1 imagePath hv hq h
  | addFrame camera imagePath => exact addFrame_queues P d d1 camera imagePath hv hq h
  | updateCameras cameras =>
    obtain ⟨cs, v, h1, _, h3⟩ := updateCamerasLoop_eq P (d.cameras.length : Int) cameras d rfl
      (valid_active d hv)
    have h2 : MainWindowPrivate.updateCameras P d cameras = some d1 := h
    unfold MainWindowPrivate.updateCameras at h2
    rw [h1] at h2
    cases h2
    exact queues_transfer d _ hq rfl rfl h3
  | setActiveCamera id =>
    obtain ⟨v, e⟩ := publicSetActiveCamera_eq P d id
    have h2 : MainWindow.setActiveCamera P d id = some d1 := h
    rw [e] at h2
    cases h2
    by_cases hr : id < 0 ∨ id ≥ (d.cameras.length : Int)
    · rw [if_pos hr]; exact hq
    · rw [if_neg hr]
      exact queues_transfer d _ hq rfl rfl (fun k cd hk => ⟨cd.camera, hk⟩)
  | executeTool object =>
    cases h
    exact queues_of_same d _ hq (executeTool_registry d object)
  | acceptToolResults data =>
    cases h
    exact queues_of_same d _ hq (acceptToolResults_registry d data)
  | acceptToolFinalResults =>
    cases h
    exact queues_of_same d _ hq (acceptToolFinalResults_registry d)
  | updateToolResults valueChanged =>
    obtain ⟨cs, v, e, _, _, h3⟩ := updateToolResults_eq P d valueChanged hv.2.2.2.2.2
    have h2 : MainWindow.updateToolResults P d valueChanged = some d1 := h
    rw [e] at h2
    cases h2
    exact queues_transfer d _ hq rfl rfl h3
  | timerFires valueChanged =>
    have h2 : timerFires P d valueChanged = some d1 := h
    unfold timerFires at h2
    cases hp : d.pendingSingleShots with
    | zero =>
      rw [hp] at h2
      cases h2
      exact hq
    | succ n =>
      rw [hp] at h2
      simp only at h2
      obtain ⟨cs, v, e, _, _, h3⟩ := updateToolResults_eq P { d with pendingSingleShots := n }
        valueChanged hv.2.2.2.2.2
      rw [e] at h2
      cases h2
      exact queues_transfer d _ hq rfl rfl h3

theorem runCalls_queues (P : VtkMaptkCamera → Vec3 → Option Vec2) (calls : List Call) :
    ∀ d : MainWindowPrivate, Valid d → QueuesOrdered d →
      ∃ d1, runCalls P calls d = some d1 ∧ Valid d1 ∧ QueuesOrdered d1 := by
  induction calls with
  | nil => intro d hv hq; exact ⟨d, rfl, hv, hq⟩
  | cons c rest ih =>
    intro d hv hq
    obtain ⟨d1, h1, hv1, _⟩ := call_run_valid P c d hv
    obtain ⟨d2, h2, hv2, hq2⟩ := ih d1 hv1 (call_run_queues P c d d1 hv hq h1)
    exact ⟨d2, by simp only [runCalls, h1, h2], hv2, hq2⟩

theorem init_queues (tools : List AbstractTool) : QueuesOrdered (MainWindowPrivate.init tools) := by
  refine ⟨Or.inl rfl, List.Pairwise.nil, List.Pairwise.nil, ?_⟩
  intro i hi
  cases hi

/-- Claim C20. From the empty registry every sequence of calls succeeds (the frame
additions `addCamera`, with or without a pose, `addImage` and `addFrame`, the
bulk update `updateCameras`, and every other call of the window), and in the
state it reaches the orphan-image queue and the orphan-camera queue are not
both non-empty, each queue holds ids of existing frames, without repetition
and in strictly increasing order, and every frame whose id is in the
orphan-camera queue has that id and an empty image path. -/
theorem orphan_queues_well_formed (P : VtkMaptkCamera → Vec3 → Option Vec2)
    (tools : List AbstractTool) (calls : List Call) :
    ∃ d, runCalls P calls (MainWindowPrivate.init tools) = some d ∧
      (d.orphanImages = [] ∨ d.orphanCameras = []) ∧
      (∀ i ∈ d.orphanImages, 0 ≤ i ∧ i < (d.cameras.length : Int)) ∧
      (∀ i ∈ d.orphanCameras, 0 ≤ i ∧ i < (d.cameras.length : Int)) ∧
      d.orphanImages.Nodup ∧ d.orphanCameras.Nodup ∧
      d.orphanImages.Pairwise (fun a b => a < b) ∧
      d.orphanCameras.Pairwise (fun a b => a < b) ∧
      ∀ i ∈ d.orphanCameras,
        ∃ cd, frameAt d.cameras i = some cd ∧ cd.id = i ∧ cd.imagePath = "" := by
  obtain ⟨d, e, hv, q1, q2, q3, q4⟩ :=
    runCalls_queues P calls (MainWindowPrivate.init tools) (init_valid tools) (init_queues tools)
  refine ⟨d, e, q1, hv.1, hv.2.1, hv.2.2.1, hv.2.2.2.1, q2, q3, ?_⟩
  intro i hi
  obtain ⟨cd, hcd, hp⟩ := q4 i hi
  exact ⟨cd, hcd, id_of_frameAt d.cameras hv.2.2.2.2.1 i cd hcd, hp⟩

/-! ## Staged output and armed timers under every call -/

theorem trigger_of_same (d d1 : MainWindowPrivate) (hp : StagedHasTrigger d)
    (h1 : d1.toolUpdateCameras = d.toolUpdateCameras)
    (h2 : d1.toolUpdateLandmarks = d.toolUpdateLandmarks)
    (h3 : d1.toolUpdateTracks = d.toolUpdateTracks)
    (h4 : d1.toolUpdateActiveFrame = d.toolUpdateActiveFrame)
    (h5 : d1.pendingSingleShots = d.pendingSingleShots) : StagedHasTrigger d1 := by
  unfold StagedHasTrigger stagingEmpty at *
  rw [h1, h2, h3, h4, h5]
  exact hp

theorem acceptToolResults_pending (d : MainWindowPrivate) (data : ToolData) :
    (MainWindow.acceptToolResults d data).pendingSingleShots =
      if stagingEmpty d = true then d.pendingSingleShots + 1 else d.pendingSingleShots := by
  cases hrun : d.activeTool with
  | none =>
    simp only [MainWindow.acceptToolResults, hrun, stagingEmpty]
    split <;> rfl
  | some t =>
    cases ha : d.tools[t]? with
    | none =>
      simp only [MainWindow.acceptToolResults, hrun, ha, stagingEmpty]
      split <;> rfl
    | some a =>
      rw [acceptToolResults_running d t a data hrun ha]

theorem acceptToolResults_trigger (d : MainWindowPrivate) (data : ToolData)
    (hp : StagedHasTrigger d) : 0 < (MainWindow.acceptToolResults d data).pendingSingleShots := by
  rw [acceptToolResults_pending]
  by_cases he : stagingEmpty d = true
  · rw [if_pos he]
    omega
  · rw [if_neg he]
    exact hp (by simpa using he)

theorem executeTool_staging (d : MainWindowPrivate) (object : Nat) :
    (MainWindow.executeTool d object).toolUpdateCameras = d.toolUpdateCameras ∧
    (MainWindow.executeTool d object).toolUpdateLandmarks = d.toolUpdateLandmarks ∧
    (MainWindow.executeTool d object).toolUpdateTracks = d.toolUpdateTracks ∧
    (MainWindow.executeTool d object).toolUpdateActiveFrame = d.toolUpdateActiveFrame ∧
    (MainWindow.executeTool d object).pendingSingleShots = d.pendingSingleShots := by
  unfold MainWindow.executeTool
  split
  · exact ⟨rfl, rfl, rfl, rfl, rfl⟩
  · split
    · exact ⟨rfl, rfl, rfl, rfl, rfl⟩
    · simp only
      split
      · exact ⟨rfl, rfl, rfl, rfl, rfl⟩
      · split <;> exact ⟨rfl, rfl, rfl, rfl, rfl⟩

theorem acceptToolFinalResults_trigger (d : MainWindowPrivate) (hp : StagedHasTrigger d) :
    StagedHasTrigger (MainWindow.acceptToolFinalResults d) := by
  cases hrun : d.activeTool with
  | none =>
    have e : MainWindow.acceptToolFinalResults d = MainWindowPrivate.setActiveTool d none := by
      simp only [MainWindow.acceptToolFinalResults, hrun]
    rw [e]
    exact trigger_of_same d _ hp rfl rfl rfl rfl rfl
  | some t =>
    cases ha : d.tools[t]? with
    | none =>
      have e : MainWindow.acceptToolFinalResults d = MainWindowPrivate.setActiveTool d none := by
        simp only [MainWindow.acceptToolFinalResults, hrun, ha]
      rw [e]
      exact trigger_of_same d _ hp rfl rfl rfl rfl rfl
    | some a =>
      have e : MainWindow.acceptToolFinalResults d =
          MainWindowPrivate.setActiveTool (MainWindow.acceptToolResults d a.data) none := by
        simp only [MainWindow.acceptToolFinalResults, hrun, ha]
      rw [e]
      intro _
      exact acceptToolResults_trigger d a.data hp

theorem stagingEmpty_after_merge (P : VtkMaptkCamera → Vec3 → Option Vec2) (d d1 : MainWindowPrivate)
    (valueChanged : Option Int) (hv : Valid d)
    (h : MainWindow.updateToolResults P d valueChanged = some d1) : stagingEmpty d1 = true := by
  obtain ⟨cs, v, e, _⟩ := updateToolResults_eq P d valueChanged hv.2.2.2.2.2
  rw [e] at h
  cases h
  simp only [stagingEmpty, Option.isNone_none, Bool.true_and, decide_eq_true_eq]
  split <;> omega

theorem call_run_trigger (P : VtkMaptkCamera → Vec3 → Option Vec2) (c : Call)
    (d d1 : MainWindowPrivate) (hv : Valid d) (hp : StagedHasTrigger d)
    (h : Call.run P c d = some d1) : StagedHasTrigger d1 := by
  cases c with
  | addCamera camera =>
    have h2 : MainWindowPrivate.addCamera P d camera = some d1 := h
    cases hoi : d.orphanImages with
    | nil =>
      rw [addCamera_eq_addFrame P d camera hoi] at h2
      obtain ⟨v, e⟩ := addFrame_eq P
        { d with orphanCameras := d.orphanCameras ++ [(d.cameras.length : Int)] } camera ""
      rw [e] at h2
      cases h2
      exact trigger_of_same d _ hp rfl rfl rfl rfl rfl
    | cons i rest =>
      have hi := hv.1 i (by simp [hoi])
      obtain ⟨cd, hcd⟩ := frameAt_of_lt d.cameras i hi.1 hi.2
      obtain ⟨v, e⟩ := addCamera_eq_pair P d camera i rest cd hoi hcd (valid_active d hv)
      rw [e] at h2
      cases h2
      exact trigger_of_same d _ hp rfl rfl rfl rfl rfl
  | addImage imagePath =>
    have h2 : MainWindowPrivate.addImage P d imagePath = some d1 := h
    cases hoc : d.orphanCameras with
    | nil =>
      rw [addImage_eq_addFrame P d imagePath hoc] at h2
      obtain ⟨v, e⟩ := addFrame_eq P
        { d with orphanImages := d.orphanImages ++ [(d.cameras.length : Int)] } none imagePath
      rw [e] at h2
      cases h2
      exact trigger_of_same d _ hp rfl rfl rfl rfl rfl
    | cons i rest =>
      have hi := hv.2.1 i (by simp [hoc])
      obtain ⟨cd, hcd⟩ := frameAt_of_lt d.cameras i hi.1 hi.2
      obtain ⟨v, e⟩ := addImage_eq_pair P d imagePath i rest cd hoc hcd (valid_active d hv)
      rw [e] at h2
      cases h2
      exact trigger_of_same d _ hp rfl rfl rfl rfl rfl
  | addFrame camera imagePath =>
    have h2 : MainWindowPrivate.addFrame P d camera imagePath = some d1 := h
    obtain ⟨v, e⟩ := addFrame_eq P d camera imagePath
    rw [e] at h2
    cases h2
    exact trigger_of_same d _ hp rfl rfl rfl rfl rfl
  | updateCameras cameras =>
    obtain ⟨cs, v, h1, _, _⟩ := updateCamerasLoop_eq P (d.cameras.length : Int) cameras d rfl
      (valid_active d hv)
    have h2 : MainWindowPrivate.updateCameras P d cameras = some d1 := h
    unfold MainWindowPrivate.updateCameras at h2
    rw [h1] at h2
    cases h2
    exact trigger_of_same d _ hp rfl rfl rfl rfl rfl
  | setActiveCamera id =>
    obtain ⟨v, e⟩ := publicSetActiveCamera_eq P d id
    have h2 : MainWindow.setActiveCamera P d id = some d1 := h
    rw [e] at h2
    cases h2
    by_cases hr : id < 0 ∨ id ≥ (d.cameras.length : Int)
    · rw [if_pos hr]; exact hp
    · rw [if_neg hr]
      exact trigger_of_same d _ hp rfl rfl rfl rfl rfl
  | executeTool object =>
    cases h
    obtain ⟨h1, h2, h3, h4, h5⟩ := executeTool_staging d object
    exact trigger_of_same d _ hp h1 h2 h3 h4 h5
  | acceptToolResults data =>
    cases h
    intro _
    exact acceptToolResults_trigger d data hp
  | acceptToolFinalResults =>
    cases h
    exact acceptToolFinalResults_trigger d hp
  | updateToolResults valueChanged =>
    have h2 : MainWindow.updateToolResults P d valueChanged = some d1 := h
    intro hne
    rw [stagingEmpty_after_merge P d d1 valueChanged hv h2] at hne
    cases hne
  | timerFires valueChanged =>
    have h2 : timerFires P d valueChanged = some d1 := h
    unfold timerFires at h2
    cases hn : d.pendingSingleShots with
    | zero =>
      rw [hn] at h2
      cases h2
      exact hp
    | succ n =>
      rw [hn] at h2
      simp only at h2
      intro hne
      rw [stagingEmpty_after_merge P { d with pendingSingleShots := n } d1 valueChanged
        (valid_transfer d _ hv rfl rfl rfl (Or.inl rfl)) h2] at hne
      cases hne

theorem runCalls_trigger (P : VtkMaptkCamera → Vec3 → Option Vec2) (calls : List Call) :
    ∀ d : MainWindowPrivate, Valid d → StagedHasTrigger d →
      ∃ d1, runCalls P calls d = some d1 ∧ Valid d1 ∧ StagedHasTrigger d1 := by
  induction calls with
  | nil => intro d hv hp; exact ⟨d, rfl, hv, hp⟩
  | cons c rest ih =>
    intro d hv hp
    obtain ⟨d1, h1, hv1, _⟩ := call_run_valid P c d hv
    obtain ⟨d2, h2, hv2, hp2⟩ := ih d1 hv1 (call_run_trigger P c d d1 hv hp h1)
    exact ⟨d2, by simp only [runCalls, h1, h2], hv2, hp2⟩

theorem init_trigger (tools : List AbstractTool) :
    StagedHasTrigger (MainWindowPrivate.init tools) := by
  intro h
  cases h

/-! ## The armed timers play no part in the camera update -/

theorem updateCameraView_pending (P : VtkMaptkCamera → Vec3 → Option Vec2) (d : MainWindowPrivate)
    (n : Nat) :
    MainWindowPrivate.updateCameraView P { d with pendingSingleShots := n } =
      (MainWindowPrivate.updateCameraView P d).map (fun x => { x with pendingSingleShots := n }) := by
  unfold MainWindowPrivate.updateCameraView
  by_cases h0 : d.activeCameraIndex < 0
  · have h1 : ({ d with pendingSingleShots := n } : MainWindowPrivate).activeCameraIndex < 0 := h0
    rw [if_pos h0, if_pos h1]
    rfl
  · have h1 : ¬ ({ d with pendingSingleShots := n } : MainWindowPrivate).activeCameraIndex < 0 := h0
    rw [if_neg h0, if_neg h1]
    cases hcd : frameAt d.cameras d.activeCameraIndex with
    | none =>
      simp only [hcd]
      rfl
    | some cd =>
      simp only [hcd, Option.map_some']
      rcases cd with ⟨id, cam, ip, dp⟩
      cases cam <;> rfl

theorem updateCamerasLoop_pending (P : VtkMaptkCamera → Vec3 → Option Vec2) (m : Int)
    (cams : CameraMap) :
    ∀ (d : MainWindowPrivate) (n : Nat),
      updateCamerasLoop P m cams { d with pendingSingleShots := n } =
        (updateCamerasLoop P m cams d).map (fun x => { x with pendingSingleShots := n }) := by
  induction cams with
  | nil => intro d n; rfl
  | cons e rest ih =>
    intro d n
    obtain ⟨first, second⟩ := e
    cases second with
    | none =>
      simp only [updateCamerasLoop]
      exact ih d n
    | some camera =>
      simp only [updateCamerasLoop]
      by_cases hr : 0 ≤ staticCastInt first ∧ staticCastInt first < m
      · rw [if_pos hr, if_pos hr]
        cases hcd : frameAt d.cameras (staticCastInt first) with
        | none => rfl
        | some cd =>
          simp only
          by_cases ha : cd.id = d.activeCameraIndex
          · rw [if_pos ha, if_pos ha]
            have e1 := updateCameraView_pending P
              { d with
                cameras := (setFrameAt d.cameras (staticCastInt first)
                  ({ cd with camera := some (VtkMaptkCamera.mk (some camera)) })) } n
            simp only at e1
            rw [e1]
            cases hu : MainWindowPrivate.updateCameraView P
              { d with
                cameras := (setFrameAt d.cameras (staticCastInt first)
                  ({ cd with camera := some (VtkMaptkCamera.mk (some camera)) })) } with
            | none => rfl
            | some d2 =>
              simp only [Option.map_some']
              exact ih d2 n
          · rw [if_neg ha, if_neg ha]
            exact ih
              { d with
                cameras := (setFrameAt d.cameras (staticCastInt first)
                  ({ cd with camera := some (VtkMaptkCamera.mk (some camera)) })) } n
      · rw [if_neg hr, if_neg hr]
        exact ih d n

/-! ## Claim C21 -/

/-- Claim C21 fails as stated. A tool that declares landmarks is started and
completes: its landmarks are staged and one timer is armed.  Before the timer
fires a tool that declares tracks is started and sends an update: the staged
landmarks are reset and no further timer is armed.  The timer fires and the
merge applies the tracks; the landmarks that were staged last are in no later
state, and nothing is staged or armed any more. -/
theorem staged_landmarks_are_dropped :
    ∃ d2 d5,
      runCalls noProjection [Call.executeTool 0, Call.acceptToolFinalResults]
        (MainWindowPrivate.init [finishingLandmarkTool, trackTool]) = some d2 ∧
      d2.toolUpdateLandmarks = some [(1, (0, 0, 1))] ∧ d2.pendingSingleShots = 1 ∧
      runCalls noProjection
        [Call.executeTool 1,
         Call.acceptToolResults
           { cameras := none, landmarks := none, tracks := some [], activeFrame := 0 },
         Call.timerFires none] d2 = some d5 ∧
      d5.tracks = some [] ∧ d5.landmarks = none ∧
      stagingEmpty d5 = true ∧ d5.pendingSingleShots = 0 :=
  ⟨_, _, rfl, rfl, rfl, rfl, rfl, rfl, rfl, rfl⟩

/-- Claim C21, amended. From the initial state, whose staging record is empty and
which has no armed timer, every sequence of calls succeeds (tool starts,
updates, final results, timer events, merges and every other call of the
window), and in the state it reaches: when the staging record is not empty, at
least one timer is armed; and a timer event then succeeds, leaves the staging
record empty, and has applied what is staged at that moment, whatever the
frame slider reports: the frames are those `updateCameras` yields for the
staged cameras, the landmarks and the tracks are the staged ones, and a staged
frame index in `[0, N)` is the active one. -/
theorem staged_output_is_merged (P : VtkMaptkCamera → Vec3 → Option Vec2)
    (tools : List AbstractTool) (calls : List Call) :
    ∃ d, runCalls P calls (MainWindowPrivate.init tools) = some d ∧
      (stagingEmpty d = false → 0 < d.pendingSingleShots) ∧
      ∀ valueChanged : Option Int,
        ∃ d1, timerFires P d valueChanged = some d1 ∧ stagingEmpty d1 = true ∧
          (∀ cams, d.toolUpdateCameras = some cams →
            ∃ d2, MainWindowPrivate.updateCameras P d cams = some d2 ∧
              d1.cameras = d2.cameras) ∧
          (∀ landmarks, d.toolUpdateLandmarks = some landmarks →
            d1.landmarks = some landmarks) ∧
          (∀ tracks, d.toolUpdateTracks = some tracks → d1.tracks = some tracks) ∧
          (0 ≤ d.toolUpdateActiveFrame →
            d.toolUpdateActiveFrame < (d.cameras.length : Int) →
            d1.activeCameraIndex = d.toolUpdateActiveFrame) := by
  obtain ⟨d, e, hv, hp⟩ := runCalls_trigger P calls (MainWindowPrivate.init tools)
    (init_valid tools) (init_trigger tools)
  refine ⟨d, e, hp, ?_⟩
  intro valueChanged
  cases hn : d.pendingSingleShots with
  | zero =>
    have hemp : stagingEmpty d = true := by
      cases hs : stagingEmpty d with
      | true => rfl
      | false =>
        have := hp hs
        omega
    have hfire : timerFires P d valueChanged = some d := by
      unfold timerFires
      rw [hn]
    have hemp1 := hemp
    simp only [stagingEmpty, Bool.and_eq_true, Option.isNone_iff_eq_none, decide_eq_true_eq]
      at hemp1
    obtain ⟨⟨⟨h1, h2⟩, h3⟩, h4⟩ := hemp1
    refine ⟨d, hfire, hemp, ?_, ?_, ?_, ?_⟩
    · intro cams hc
      rw [h1] at hc
      cases hc
    · intro landmarks hl
      rw [h2] at hl
      cases hl
    · intro tracks ht
      rw [h3] at ht
      cases ht
    · intro h0
      omega
  | succ n =>
    have hv1 : Valid { d with pendingSingleShots := n } :=
      valid_transfer d _ hv rfl rfl rfl (Or.inl rfl)
    obtain ⟨cs, v, h, _, _, hlink, _⟩ :=
      updateToolResults_full P { d with pendingSingleShots := n } valueChanged hv1
    have hfire : timerFires P d valueChanged =
        MainWindow.updateToolResults P { d with pendingSingleShots := n } valueChanged := by
      unfold timerFires
      rw [hn]
    refine ⟨_, hfire.trans h, ?_, ?_, ?_, ?_, ?_⟩
    · exact stagingEmpty_after_merge P _ _ valueChanged hv1 h
    · intro cams hc
      obtain ⟨v0, h0⟩ := hlink cams hc
      have hcomm := updateCamerasLoop_pending P (d.cameras.length : Int) cams d n
      unfold MainWindowPrivate.updateCameras at h0
      simp only at h0
      rw [hcomm] at h0
      cases hu : updateCamerasLoop P (d.cameras.length : Int) cams d with
      | none =>
        rw [hu] at h0
        cases h0
      | some d2 =>
        rw [hu] at h0
        simp only [Option.map_some', Option.some.injEq] at h0
        refine ⟨d2, hu, ?_⟩
        have := congrArg MainWindowPrivate.cameras h0
        exact this.symm
    · intro landmarks hl
      show d.toolUpdateLandmarks.or d.landmarks = some landmarks
      rw [hl]
      rfl
    · intro tracks ht
      show d.toolUpdateTracks.or d.tracks = some tracks
      rw [ht]
      rfl
    · intro h0 h1
      show mergedActiveFrame d.toolUpdateActiveFrame (d.cameras.length : Int)
        d.activeCameraIndex valueChanged = d.toolUpdateActiveFrame
      simp only [mergedActiveFrame, if_pos (And.intro h0 h1)]

/-! ## Claim C22 -/

/-- Claim C22. From the initial state every sequence of calls succeeds, that is, no
call indexes the frame list outside its bounds, and in the state it reaches:
every id in an orphan queue lies in `[0, N)`; the active frame index is `-1`
while no frame exists and lies in `[0, N)` once a frame exists, so the active
frame can be read; adding the first frame makes frame 0 the active one; and
`addCamera`, `addImage`, `updateCameraView` and the merge `updateToolResults`,
with its final refresh of the active frame, all succeed on it, the merge
leaving the active frame index in `[0, N)` when a frame exists. -/
theorem frame_accesses_in_range (P : VtkMaptkCamera → Vec3 → Option Vec2)
    (tools : List AbstractTool) (calls : List Call) :
    ∃ d, runCalls P calls (MainWindowPrivate.init tools) = some d ∧
      (∀ i ∈ d.orphanImages, 0 ≤ i ∧ i < (d.cameras.length : Int)) ∧
      (∀ i ∈ d.orphanCameras, 0 ≤ i ∧ i < (d.cameras.length : Int)) ∧
      (d.cameras = [] → d.activeCameraIndex = -1) ∧
      (d.cameras ≠ [] →
        0 ≤ d.activeCameraIndex ∧ d.activeCameraIndex < (d.cameras.length : Int) ∧
        ∃ cd, frameAt d.cameras d.activeCameraIndex = some cd) ∧
      (d.cameras = [] → ∀ (camera : Option Pose) (imagePath : String),
        ∃ d1, MainWindowPrivate.addFrame P d camera imagePath = some d1 ∧
          d1.activeCameraIndex = 0) ∧
      (∀ camera : Option Pose, ∃ d1, MainWindowPrivate.addCamera P d camera = some d1) ∧
      (∀ imagePath : String, ∃ d1, MainWindowPrivate.addImage P d imagePath = some d1) ∧
      (∃ d1, MainWindowPrivate.updateCameraView P d = some d1) ∧
      (∀ valueChanged : Option Int,
        ∃ d1, MainWindow.updateToolResults P d valueChanged = some d1 ∧
          d1.cameras.length = d.cameras.length ∧
          (d.cameras ≠ [] →
            0 ≤ d1.activeCameraIndex ∧ d1.activeCameraIndex < (d1.cameras.length : Int))) := by
  obtain ⟨d, e, hv, _⟩ := runCalls_valid P calls (MainWindowPrivate.init tools) (init_valid tools)
  have hrange : d.cameras ≠ [] →
      0 ≤ d.activeCameraIndex ∧ d.activeCameraIndex < (d.cameras.length : Int) := by
    intro hne
    rcases hv.2.2.2.2.2 with ⟨hnil, _⟩ | h
    · exact absurd hnil hne
    · exact h
  refine ⟨d, e, hv.1, hv.2.1, ?_, ?_, ?_, ?_, ?_, ?_, ?_⟩
  · intro hnil
    rcases hv.2.2.2.2.2 with ⟨_, h⟩ | ⟨h0, h1⟩
    · exact h
    · rw [hnil] at h1
      simp only [List.length_nil, Nat.cast_zero] at h1
      omega
  · intro hne
    obtain ⟨h0, h1⟩ := hrange hne
    exact ⟨h0, h1, frameAt_of_lt d.cameras d.activeCameraIndex h0 h1⟩
  · intro hnil camera imagePath
    obtain ⟨v, h⟩ := addFrame_eq P d camera imagePath
    refine ⟨_, h, ?_⟩
    have hl : d.cameras.length = 0 := by rw [hnil]; rfl
    simp only [hl, if_true]
  · intro camera
    obtain ⟨d1, h, _⟩ := addCamera_valid P d camera hv
    exact ⟨d1, h⟩
  · intro imagePath
    obtain ⟨d1, h, _⟩ := addImage_valid P d imagePath hv
    exact ⟨d1, h⟩
  · obtain ⟨v, h⟩ := updateCameraView_eq P d (valid_active d hv)
    exact ⟨_, h⟩
  · intro valueChanged
    obtain ⟨cs, v, h, hlen, _⟩ := updateToolResults_eq P d valueChanged hv.2.2.2.2.2
    refine ⟨_, h, hlen, ?_⟩
    intro hne
    obtain ⟨h0, h1⟩ := hrange hne
    show 0 ≤ mergedActiveFrame d.toolUpdateActiveFrame (d.cameras.length : Int)
        d.activeCameraIndex valueChanged ∧
      mergedActiveFrame d.toolUpdateActiveFrame (d.cameras.length : Int)
        d.activeCameraIndex valueChanged < (cs.length : Int)
    rw [hlen]
    rcases mergedActiveFrame_range d.toolUpdateActiveFrame (d.cameras.length : Int)
      d.activeCameraIndex valueChanged with hm | hm
    · rw [hm]; exact ⟨h0, h1⟩
    · exact hm

/-! ## Residuals of the view under view updates and tool calls -/

theorem keeps_refl (d : MainWindowPrivate) : KeepsResiduals d d :=
  fun h => ⟨h, rfl⟩

theorem keeps_trans (a b c : MainWindowPrivate) (h1 : KeepsResiduals a b)
    (h2 : KeepsResiduals b c) : KeepsResiduals a c := by
  intro h
  obtain ⟨hb, e2⟩ := h2 h
  obtain ⟨ha, e1⟩ := h1 hb
  exact ⟨ha, e2.trans e1⟩

theorem keeps_of_nonneg (d d1 : MainWindowPrivate) (h : 0 ≤ d1.activeCameraIndex) :
    KeepsResiduals d d1 := by
  intro h1
  omega

theorem keeps_of_same (d d1 : MainWindowPrivate)
    (ha : d1.activeCameraIndex = d.activeCameraIndex) (hv : d1.cameraView = d.cameraView) :
    KeepsResiduals d d1 := by
  intro h
  rw [ha] at h
  exact ⟨h, by rw [hv]⟩

theorem updateCameraView_keeps (P : VtkMaptkCamera → Vec3 → Option Vec2) (d d1 : MainWindowPrivate)
    (h : MainWindowPrivate.updateCameraView P d = some d1) : KeepsResiduals d d1 := by
  unfold MainWindowPrivate.updateCameraView at h
  by_cases h0 : d.activeCameraIndex < 0
  · rw [if_pos h0] at h
    cases h
    exact fun _ => ⟨h0, rfl⟩
  · rw [if_neg h0] at h
    split at h
    · cases h
    · cases h
      apply keeps_of_nonneg
      show 0 ≤ d.activeCameraIndex
      omega

theorem setActiveCamera_nonneg (P : VtkMaptkCamera → Vec3 → Option Vec2) (d d1 : MainWindowPrivate)
    (id : Int) (h : MainWindowPrivate.setActiveCamera P d id = some d1) :
    0 ≤ d1.activeCameraIndex := by
  unfold MainWindowPrivate.setActiveCamera at h
  cases hu : MainWindowPrivate.updateCameraView P { d with activeCameraIndex := id } with
  | none =>
    rw [hu] at h
    cases h
  | some d2 =>
    rw [hu] at h
    simp only at h
    obtain ⟨v, rfl⟩ := updateCameraView_some P _ d2 hu
    cases hcd : frameAt d.cameras id with
    | none =>
      simp only [hcd] at h
      cases h
    | some cd =>
      simp only [hcd] at h
      cases h
      exact (frameAt_some_bounds d.cameras id cd hcd).1

theorem publicSetActiveCamera_keeps (P : VtkMaptkCamera → Vec3 → Option Vec2)
    (d d1 : MainWindowPrivate) (id : Int) (h : MainWindow.setActiveCamera P d id = some d1) :
    KeepsResiduals d d1 := by
  unfold MainWindow.setActiveCamera at h
  by_cases hr : id < 0 ∨ id ≥ (d.cameras.length : Int)
  · rw [if_pos hr] at h
    cases h
    exact keeps_refl d
  · rw [if_neg hr] at h
    exact keeps_of_nonneg d d1 (setActiveCamera_nonneg P d d1 id h)

theorem updateCamerasLoop_keeps (P : VtkMaptkCamera → Vec3 → Option Vec2) (n : Int)
    (cams : CameraMap) :
    ∀ d d1 : MainWindowPrivate, updateCamerasLoop P n cams d = some d1 →
      KeepsResiduals d d1 := by
  induction cams with
  | nil =>
    intro d d1 h
    cases h
    exact keeps_refl d
  | cons e rest ih =>
    intro d d1 h
    obtain ⟨first, second⟩ := e
    cases second with
    | none =>
      simp only [updateCamerasLoop] at h
      exact ih d d1 h
    | some camera =>
      simp only [updateCamerasLoop] at h
      by_cases hr : 0 ≤ staticCastInt first ∧ staticCastInt first < n
      · rw [if_pos hr] at h
        cases hcd : frameAt d.cameras (staticCastInt first) with
        | none =>
          simp only [hcd] at h
          cases h
        | some cd =>
          simp only [hcd] at h
          by_cases ha : cd.id = d.activeCameraIndex
          · rw [if_pos ha] at h
            split at h
            · cases h
            · rename_i d2 h2
              have k1 := updateCameraView_keeps P _ d2 h2
              refine keeps_trans d _ d1 (keeps_trans d _ d2 ?_ k1) (ih d2 d1 h)
              exact keeps_of_same _ _ rfl rfl
          · rw [if_neg ha] at h
            have k1 := ih _ d1 h
            refine keeps_trans d _ d1 ?_ k1
            exact keeps_of_same _ _ rfl rfl
      · rw [if_neg hr] at h
        exact ih d d1 h

theorem executeTool_view (d : MainWindowPrivate) (object : Nat) :
    (MainWindow.executeTool d object).cameraView = d.cameraView := by
  unfold MainWindow.executeTool
  split
  · rfl
  · split
    · rfl
    · simp only
      split
      · rfl
      · split <;> rfl

theorem acceptToolResults_view (d : MainWindowPrivate) (data : ToolData) :
    (MainWindow.acceptToolResults d data).cameraView = d.cameraView := by
  cases hrun : d.activeTool with
  | none =>
    simp only [MainWindow.acceptToolResults, hrun]
    split <;> rfl
  | some t =>
    cases ha : d.tools[t]? with
    | none =>
      simp only [MainWindow.acceptToolResults, hrun, ha]
      split <;> rfl
    | some a =>
      rw [acceptToolResults_running d t a data hrun ha]
      rfl

theorem acceptToolFinalResults_view (d : MainWindowPrivate) :
    (MainWindow.acceptToolFinalResults d).cameraView = d.cameraView := by
  cases hrun : d.activeTool with
  | none =>
    simp only [MainWindow.acceptToolFinalResults, hrun]
    rfl
  | some t =>
    cases ha : d.tools[t]? with
    | none =>
      simp only [MainWindow.acceptToolFinalResults, hrun, ha]
      rfl
    | some a =>
      simp only [MainWindow.acceptToolFinalResults, hrun, ha]
      exact acceptToolResults_view d a.data

/-! ## Residuals of the view under every call -/

theorem mergeCameras_keeps (P : VtkMaptkCamera → Vec3 → Option Vec2) (d d1 : MainWindowPrivate)
    (h : mergeCameras P d = some d1) : KeepsResiduals d d1 := by
  rcases d with ⟨at0, tools, tuaf, tuc, tul, tut, cameras, tracks, landmarks, aci, oi, oc,
    view, acc, ao, pss⟩
  cases tuc with
  | none =>
    cases h
    exact keeps_refl _
  | some cams =>
    simp only [mergeCameras, MainWindowPrivate.updateCameras, Option.map_eq_some'] at h
    obtain ⟨d2, h2, rfl⟩ := h
    have k1 := updateCamerasLoop_keeps P _ cams _ d2 h2
    refine keeps_trans _ d2 _ k1 ?_
    exact keeps_of_same _ _ rfl rfl

theorem mergeLandmarks_keeps (d : MainWindowPrivate) : KeepsResiduals d (mergeLandmarks d) := by
  rw [mergeLandmarks_eq]
  exact keeps_of_same _ _ rfl rfl

theorem mergeTracks_keeps (P : VtkMaptkCamera → Vec3 → Option Vec2) (d d1 : MainWindowPrivate)
    (h : mergeTracks P d = some d1) : KeepsResiduals d d1 := by
  rcases d with ⟨at0, tools, tuaf, tuc, tul, tut, cameras, tracks, landmarks, aci, oi, oc,
    view, acc, ao, pss⟩
  cases tut with
  | none =>
    cases h
    exact keeps_refl _
  | some tr =>
    simp only [mergeTracks, Option.map_eq_some'] at h
    obtain ⟨d2, h2, rfl⟩ := h
    have k1 := updateCameraView_keeps P _ d2 h2
    have k0 : KeepsResiduals
        ⟨at0, tools, tuaf, tuc, tul, some tr, cameras, tracks, landmarks, aci, oi, oc,
          view, acc, ao, pss⟩
        ⟨at0, tools, tuaf, tuc, tul, some tr, cameras, some tr, landmarks, aci, oi, oc,
          view, acc, ao, pss⟩ := keeps_of_same _ _ rfl rfl
    refine keeps_trans _ d2 _ (keeps_trans _ _ d2 k0 k1) ?_
    exact keeps_of_same _ _ rfl rfl

theorem sliderValueChanged_keeps (P : VtkMaptkCamera → Vec3 → Option Vec2)
    (d d1 : MainWindowPrivate) (valueChanged : Option Int)
    (h : sliderValueChanged P d valueChanged = some d1) : KeepsResiduals d d1 := by
  cases valueChanged with
  | none =>
    cases h
    exact keeps_refl d
  | some value => exact publicSetActiveCamera_keeps P d d1 value h

theorem mergeActiveFrame_keeps (P : VtkMaptkCamera → Vec3 → Option Vec2)
    (d d1 : MainWindowPrivate) (valueChanged : Option Int)
    (h : mergeActiveFrame P d valueChanged = some d1) : KeepsResiduals d d1 := by
  unfold mergeActiveFrame at h
  by_cases h0 : 0 ≤ d.toolUpdateActiveFrame
  · rw [if_pos h0] at h
    obtain ⟨d0, hs, h⟩ := Option.bind_eq_some.mp h
    simp only [Option.map_eq_some'] at h
    obtain ⟨d2, h2, rfl⟩ := h
    have k0 := sliderValueChanged_keeps P d d0 valueChanged hs
    have k1 := publicSetActiveCamera_keeps P d0 d2 _ h2
    refine keeps_trans d d2 _ (keeps_trans d d0 d2 k0 k1) ?_
    exact keeps_of_same _ _ rfl rfl
  · rw [if_neg h0] at h
    cases h
    exact keeps_refl d

theorem refreshActiveCamera_keeps (P : VtkMaptkCamera → Vec3 → Option Vec2)
    (d d1 : MainWindowPrivate) (h : refreshActiveCamera P d = some d1) :
    KeepsResiduals d d1 := by
  unfold refreshActiveCamera at h
  by_cases he : d.cameras.isEmpty = true
  · rw [if_pos he] at h
    cases h
    exact keeps_refl d
  · rw [if_neg he] at h
    exact keeps_of_nonneg d d1 (setActiveCamera_nonneg P d d1 _ h)

theorem updateToolResults_keeps (P : VtkMaptkCamera → Vec3 → Option Vec2)
    (d d1 : MainWindowPrivate) (valueChanged : Option Int)
    (h : MainWindow.updateToolResults P d valueChanged = some d1) : KeepsResiduals d d1 := by
  unfold MainWindow.updateToolResults at h
  obtain ⟨dA, hA, h⟩ := Option.bind_eq_some.mp h
  obtain ⟨dC, hC, h⟩ := Option.bind_eq_some.mp h
  obtain ⟨dD, hD, hE⟩ := Option.bind_eq_some.mp h
  have kA := mergeCameras_keeps P d dA hA
  have kB := mergeLandmarks_keeps dA
  have kC := mergeTracks_keeps P _ dC hC
  have kD := mergeActiveFrame_keeps P dC dD valueChanged hD
  have kE := refreshActiveCamera_keeps P dD d1 hE
  exact keeps_trans d dD d1
    (keeps_trans d dC dD (keeps_trans d _ dC (keeps_trans d dA _ kA kB) kC) kD) kE

theorem call_run_keeps (P : VtkMaptkCamera → Vec3 → Option Vec2) (c : Call)
    (d d1 : MainWindowPrivate) (hv : Valid d) (h : Call.run P c d = some d1) :
    KeepsResiduals d d1 := by
  obtain ⟨d2, h2, hv2, _⟩ := call_run_valid P c d hv
  rw [h] at h2
  cases h2
  have hframes : ∀ x : MainWindowPrivate, Valid x → x.cameras ≠ [] → 0 ≤ x.activeCameraIndex := by
    intro x hx hne
    rcases hx.2.2.2.2.2 with ⟨hnil, _⟩ | ⟨h0, _⟩
    · exact absurd hnil hne
    · exact h0
  cases c with
  | addCamera camera =>
    have h3 : MainWindowPrivate.addCamera P d camera = some d1 := h
    apply keeps_of_nonneg
    apply hframes d1 hv2
    cases hoi : d.orphanImages with
    | nil =>
      rw [addCamera_eq_addFrame P d camera hoi] at h3
      obtain ⟨v, e⟩ := addFrame_eq P
        { d with orphanCameras := d.orphanCameras ++ [(d.cameras.length : Int)] } camera ""
      rw [e] at h3
      cases h3
      simp
    | cons i rest =>
      have hi := hv.1 i (by simp [hoi])
      obtain ⟨cd, hcd⟩ := frameAt_of_lt d.cameras i hi.1 hi.2
      obtain ⟨v, e⟩ := addCamera_eq_pair P d camera i rest cd hoi hcd (valid_active d hv)
      rw [e] at h3
      cases h3
      intro hnil
      have := congrArg List.length hnil
      simp only [length_setFrameAt, List.length_nil] at this
      omega
  | addImage imagePath =>
    have h3 : MainWindowPrivate.addImage P d imagePath = some d1 := h
    apply keeps_of_nonneg
    apply hframes d1 hv2
    cases hoc : d.orphanCameras with
    | nil =>
      rw [addImage_eq_addFrame P d imagePath hoc] at h3
      obtain ⟨v, e⟩ := addFrame_eq P
        { d with orphanImages := d.orphanImages ++ [(d.cameras.length : Int)] } none imagePath
      rw [e] at h3
      cases h3
      simp
    | cons i rest =>
      have hi := hv.2.1 i (by simp [hoc])
      obtain ⟨cd, hcd⟩ := frameAt_of_lt d.cameras i hi.1 hi.2
      obtain ⟨v, e⟩ := addImage_eq_pair P d imagePath i rest cd hoc hcd (valid_active d hv)
      rw [e] at h3
      cases h3
      intro hnil
      have := congrArg List.length hnil
      simp only [length_setFrameAt, List.length_nil] at this
      omega
  | addFrame camera imagePath =>
    have h3 : MainWindowPrivate.addFrame P d camera imagePath = some d1 := h
    apply keeps_of_nonneg
    apply hframes d1 hv2
    obtain ⟨v, e⟩ := addFrame_eq P d camera imagePath
    rw [e] at h3
    cases h3
    simp
  | updateCameras cameras =>
    exact updateCamerasLoop_keeps P _ cameras d d1 h
  | setActiveCamera id => exact publicSetActiveCamera_keeps P d d1 id h
  | executeTool object =>
    cases h
    exact keeps_of_same d _ (executeTool_registry d object).2.2.2 (executeTool_view d object)
  | acceptToolResults data =>
    cases h
    exact keeps_of_same d _ (acceptToolResults_registry d data).2.2.2
      (acceptToolResults_view d data)
  | acceptToolFinalResults =>
    cases h
    exact keeps_of_same d _ (acceptToolFinalResults_registry d).2.2.2
      (acceptToolFinalResults_view d)
  | updateToolResults valueChanged => exact updateToolResults_keeps P d d1 valueChanged h
  | timerFires valueChanged =>
    have h3 : timerFires P d valueChanged = some d1 := h
    unfold timerFires at h3
    cases hn : d.pendingSingleShots with
    | zero =>
      rw [hn] at h3
      cases h3
      exact keeps_refl d
    | succ n =>
      rw [hn] at h3
      simp only at h3
      have k1 := updateToolResults_keeps P _ d1 valueChanged h3
      refine keeps_trans d _ d1 ?_ k1
      exact keeps_of_same _ _ rfl rfl

theorem runCalls_residuals (P : VtkMaptkCamera → Vec3 → Option Vec2) (calls : List Call) :
    ∀ d : MainWindowPrivate, Valid d → NoStaleResiduals d →
      ∃ d1, runCalls P calls d = some d1 ∧ Valid d1 ∧ NoStaleResiduals d1 := by
  induction calls with
  | nil => intro d hv hq; exact ⟨d, rfl, hv, hq⟩
  | cons c rest ih =>
    intro d hv hq
    obtain ⟨d1, h1, hv1, _⟩ := call_run_valid P c d hv
    have hq1 : NoStaleResiduals d1 := by
      intro hneg
      obtain ⟨h0, e⟩ := call_run_keeps P c d d1 hv h1 hneg
      rw [e]
      exact hq h0
    obtain ⟨d2, h2, hv2, hq2⟩ := ih d1 hv1 hq1
    exact ⟨d2, by simp only [runCalls, h1, h2], hv2, hq2⟩

/-! ## Claim C18 -/

theorem init_residuals (tools : List AbstractTool) :
    NoStaleResiduals (MainWindowPrivate.init tools) :=
  fun _ => rfl

/-- Claim C18. From the initial state every sequence of calls succeeds, and in the
state it reaches: when no frame is active, or the active frame has no camera,
`updateCameraView` succeeds and the view holds no landmarks and no residuals
afterwards.  This stays so whatever tracks and landmarks the scene is given;
and when the active frame has no camera, also whatever the view is made to
hold before the call.  (Without an active frame the code clears the landmarks
only; the view holds no residuals then, because residuals are added only for
an active frame and an active frame never becomes inactive.) -/
theorem updateCameraView_empty_without_camera (P : VtkMaptkCamera → Vec3 → Option Vec2)
    (tools : List AbstractTool) (calls : List Call) :
    ∃ d, runCalls P calls (MainWindowPrivate.init tools) = some d ∧
      ((d.activeCameraIndex < 0 ∨
          ∃ cd, frameAt d.cameras d.activeCameraIndex = some cd ∧ cd.camera = none) →
        ∃ d1, MainWindowPrivate.updateCameraView P d = some d1 ∧
          d1.cameraView.landmarks = [] ∧ d1.cameraView.residuals = []) ∧
      (d.activeCameraIndex < 0 →
        ∀ (tracks : Option TrackSet) (landmarks : Option LandmarkMap),
          ∃ d1, MainWindowPrivate.updateCameraView P
              { d with tracks := tracks, landmarks := landmarks } = some d1 ∧
            d1.cameraView.landmarks = [] ∧ d1.cameraView.residuals = []) ∧
      (∀ cd, frameAt d.cameras d.activeCameraIndex = some cd → cd.camera = none →
        ∀ (view : CameraView) (tracks : Option TrackSet) (landmarks : Option LandmarkMap),
          ∃ d1, MainWindowPrivate.updateCameraView P
              { d with cameraView := view, tracks := tracks, landmarks := landmarks } =
                some d1 ∧
            d1.cameraView.landmarks = [] ∧ d1.cameraView.residuals = []) := by
  obtain ⟨d, e, _, hq⟩ := runCalls_residuals P calls (MainWindowPrivate.init tools)
    (init_valid tools) (init_residuals tools)
  refine ⟨d, e, ?_, ?_, ?_⟩
  · rintro (h0 | ⟨cd, hcd, hcam⟩)
    · obtain ⟨d1, h1, hl, hr⟩ := updateCameraView_without_frame P d h0
      exact ⟨d1, h1, hl, hr.trans (hq h0)⟩
    · exact updateCameraView_without_camera P d cd hcd hcam
  · intro h0 tracks landmarks
    obtain ⟨d1, h1, hl, hr⟩ := updateCameraView_without_frame P
      { d with tracks := tracks, landmarks := landmarks } h0
    exact ⟨d1, h1, hl, hr.trans (hq h0)⟩
  · intro cd hcd hcam view tracks landmarks
    exact updateCameraView_without_camera P
      { d with cameraView := view, tracks := tracks, landmarks := landmarks } cd hcd hcam

end Maptk
